import Mathlib

/-!
A shallow embedding of `kimera::DynamicSceneGraph`
(src/kimera_dsg/src/dynamic_scene_graph.cpp) together with proofs about the
root scene-graph orchestration layer: node emplacement, interlayer edge
classification, ancestry maintenance, mesh-edge tables, and bulk merge.

Conventions of the embedding:
* machine integers become `Nat`;
* `std::map` / `std::unordered_map` become association lists whose lookup and
  update act on the first matching key (maps never hold duplicate keys in the
  source, and every insertion in the embedding is guarded by a lookup exactly
  as in the source);
* the opaque attribute payloads (`NodeAttributes` / `EdgeAttributes`) become a
  `Nat` value; `clone()` copies the value;
* the two derived mesh-edge indices (`mesh_edges_node_lookup_`,
  `mesh_edges_vertex_lookup_`) are maintained in lockstep with the primary
  `mesh_edges_` store by every mutation in the source, so the embedding keeps
  the primary store and treats the two indices as views of it;
* code of the repository that is not part of the single source file under
  study (layer internals, `LayerKey`, the `NodeSymbol` codec) is modelled from
  the spec, as marked in the individual doc comments.
-/

namespace KimeraDSG

abbrev NodeId := Nat
abbrev LayerId := Nat
abbrev Pfx := Nat
abbrev Attrs := Nat

/-- Association-list lookup returning the first value stored under a key. -/
def alookup {β : Type} : List (Nat × β) → Nat → Option β
  | [], _ => none
  | p :: rest, k => if p.1 = k then some p.2 else alookup rest k

/-- Association-list update of the first entry stored under a key (no effect
when the key is absent), mirroring `std::map::operator[]` on a present key. -/
def aupd {β : Type} : List (Nat × β) → Nat → (β → β) → List (Nat × β)
  | [], _, _ => []
  | p :: rest, k, f => if p.1 = k then (p.1, f p.2) :: rest else p :: aupd rest k f

/-- Association-list insert-or-assign: update the entry when the key is
present, append a fresh entry otherwise. -/
def aset {β : Type} (l : List (Nat × β)) (k : Nat) (v : β) : List (Nat × β) :=
  if (alookup l k).isSome then aupd l k (fun _ => v) else l ++ [(k, v)]

/-- Association-list erase of the first entry stored under a key, mirroring
`std::map::erase`. -/
def aerase {β : Type} : List (Nat × β) → Nat → List (Nat × β)
  | [], _ => []
  | p :: rest, k => if p.1 = k then rest else p :: aerase rest k

/-- Insert into a `std::set`-style id collection: no duplicates. -/
def insertSet (l : List NodeId) (x : NodeId) : List NodeId :=
  if x ∈ l then l else l ++ [x]

/-- Modelled from the spec: `LayerKey` (scene_graph_types, not under src/):
`{layer: LayerId, prefix: Option<LayerPrefix>, dynamic: bool}`; the embedding
stores the prefix tag unconditionally (static keys carry tag 0). -/
structure LayerKey where
  layer : LayerId
  pfx : Pfx
  dyn : Bool
deriving DecidableEq, Repr

/-- Modelled from the spec: `LayerKey` equality ignores the prefix when the
key is not dynamic (scene_graph_types `operator==`, not under src/). -/
def keyEq (a b : LayerKey) : Bool :=
  a.dyn == b.dyn && a.layer == b.layer && (!a.dyn || a.pfx == b.pfx)

/-- Modelled from the spec: `LayerKey::isParent` (scene_graph_types, not under
src/): only layer-id ordering matters for parent/child classification, finer
(smaller-id) layers are children of coarser (larger-id) layers, and the
dynamic flag plays no role here. -/
def LayerKey.isParent (a b : LayerKey) : Bool :=
  b.layer < a.layer

/-- Modelled from the spec: the identifier codec `LayerPrefix::makeId(seq)`
(`NodeSymbol`, not under src/): the prefix tag occupies the high bits above a
56-bit sequence index. -/
def makeId (p : Pfx) (seq : Nat) : NodeId :=
  p * 2 ^ 56 + seq

/-- One `SceneGraphNode` as stored inside its owning layer: attribute payload
plus the ancestry fields `parent_`, `children_`, `siblings_`. -/
structure NodeRec where
  attrs : Attrs
  parent : Option NodeId
  children : List NodeId
  siblings : List NodeId
deriving DecidableEq, Repr

/-- One `SceneGraphEdge`: endpoints plus attribute payload. Identity for
containment purposes is the unordered endpoint pair. -/
structure EdgeRec where
  source : NodeId
  target : NodeId
  info : Attrs
deriving DecidableEq, Repr

/-- Whether an edge record matches the unordered endpoint pair `(s, t)`. -/
def edgeMatches (s t : NodeId) (e : EdgeRec) : Bool :=
  (e.source == s && e.target == t) || (e.source == t && e.target == s)

/-- `EdgeContainer::contains`: membership by unordered endpoint pair. -/
def containsEdge (l : List EdgeRec) (s t : NodeId) : Bool :=
  l.any (edgeMatches s t)

/-- `EdgeContainer::remove`: drop every record matching the unordered pair. -/
def removeEdgeL (l : List EdgeRec) (s t : NodeId) : List EdgeRec :=
  l.filter (fun e => !edgeMatches s t e)

/-- `EdgeContainer::get(...).info`: the payload of the stored edge. -/
def getEdgeInfo (l : List EdgeRec) (s t : NodeId) : Option Attrs :=
  (l.find? (edgeMatches s t)).map EdgeRec.info

/-- A static `SceneGraphLayer`: its node arena, its intra-layer edge
container, and the removed-node change markers consumed by `mergeGraph`. -/
structure Layer where
  nodes : List (NodeId × NodeRec)
  edges : List EdgeRec
  removed : List NodeId
deriving DecidableEq, Repr

/-- A `DynamicSceneGraphLayer`: node arena, intra-layer edge container, and
the `next_node_` sequence counter. -/
structure DynLayer where
  nodes : List (NodeId × NodeRec)
  edges : List EdgeRec
  next : Nat
deriving DecidableEq, Repr

/-- The root `DynamicSceneGraph` state: static layers (`layers_`), dynamic
layer groups (`dynamic_layers_`), the global node index (`node_lookup_`), the
two interlayer edge sets, the mesh store, and the mesh-edge table with its
monotone id counter. -/
structure Graph where
  meshLayerId : LayerId
  layerIds : List LayerId
  layers : List (LayerId × Layer)
  dynLayers : List (LayerId × List (Pfx × DynLayer))
  nodeLookup : List (NodeId × LayerKey)
  interlayerEdges : List EdgeRec
  dynInterlayerEdges : List EdgeRec
  meshVertices : Option Nat
  meshFacesSet : Bool
  meshEdges : List (Nat × NodeId × Nat)
  nextMeshEdgeIdx : Nat
deriving DecidableEq, Repr

/-- The constructor followed by `clear()`: configured static layers exist
empty, everything else is empty, the mesh-edge counter starts at zero. -/
def initGraph (layerIds : List LayerId) (meshId : LayerId) : Graph :=
  { meshLayerId := meshId
    layerIds := layerIds
    layers := layerIds.map (fun id => (id, ⟨[], [], []⟩))
    dynLayers := []
    nodeLookup := []
    interlayerEdges := []
    dynInterlayerEdges := []
    meshVertices := none
    meshFacesSet := false
    meshEdges := []
    nextMeshEdgeIdx := 0 }

/-- `hasMesh`: both the vertex cloud and the face list are set. -/
def Graph.hasMeshB (g : Graph) : Bool :=
  g.meshVertices.isSome && g.meshFacesSet

/-- `hasLayer(LayerId)`: for the reserved mesh layer id this reports mesh
presence; for any other id it reports whether the static layer exists. -/
def Graph.hasLayerB (g : Graph) (layerId : LayerId) : Bool :=
  if layerId ≠ g.meshLayerId then (alookup g.layers layerId).isSome
  else g.hasMeshB

/-- `hasLayer(LayerId, LayerPrefix)`: whether the dynamic layer instance for
the (layer, prefix) pair exists. -/
def Graph.hasDynLayer (g : Graph) (layerId : LayerId) (p : Pfx) : Bool :=
  match alookup g.dynLayers layerId with
  | none => false
  | some grp => (alookup grp p).isSome

/-- `hasNode`: membership in the global node index. -/
def Graph.hasNodeB (g : Graph) (id : NodeId) : Bool :=
  (alookup g.nodeLookup id).isSome

/-- `createDynamicLayer`: on-demand creation of a dynamic layer instance. -/
def Graph.createDynamicLayer (g : Graph) (layerId : LayerId) (p : Pfx) : Graph :=
  if g.hasDynLayer layerId p then g
  else
    let g1 := if (alookup g.dynLayers layerId).isSome then g
              else { g with dynLayers := g.dynLayers ++ [(layerId, [])] }
    { g1 with dynLayers := aupd g1.dynLayers layerId (fun grp => grp ++ [(p, ⟨[], [], 0⟩)]) }

/-- The `next_node_` counter of a dynamic layer instance (0 when absent). -/
def Graph.dynNext (g : Graph) (layerId : LayerId) (p : Pfx) : Nat :=
  match alookup g.dynLayers layerId with
  | none => 0
  | some grp => match alookup grp p with
    | none => 0
    | some dl => dl.next

/-- `getNodePtr`: resolve a node record through its owning container. -/
def Graph.getNodeRec (g : Graph) (key : LayerKey) (id : NodeId) : Option NodeRec :=
  if key.dyn then
    match alookup g.dynLayers key.layer with
    | none => none
    | some grp => match alookup grp key.pfx with
      | none => none
      | some dl => alookup dl.nodes id
  else
    match alookup g.layers key.layer with
    | none => none
    | some l => alookup l.nodes id

/-- Mutate one node record in place inside its owning container. -/
def Graph.modifyNode (g : Graph) (key : LayerKey) (id : NodeId) (f : NodeRec → NodeRec) : Graph :=
  if key.dyn then
    { g with dynLayers := (aupd g.dynLayers key.layer
        (fun grp => aupd grp key.pfx (fun dl => { dl with nodes := aupd dl.nodes id f }))) }
  else
    { g with layers := (aupd g.layers key.layer
        (fun l => { l with nodes := aupd l.nodes id f })) }

/-- The intra-layer edge container owned by `layerFromKey(key)`. -/
def Graph.layerEdges (g : Graph) (key : LayerKey) : List EdgeRec :=
  if key.dyn then
    match alookup g.dynLayers key.layer with
    | none => []
    | some grp => match alookup grp key.pfx with
      | none => []
      | some dl => dl.edges
  else
    match alookup g.layers key.layer with
    | none => []
    | some l => l.edges

/-- The container check performed by `hasEdge` once both endpoint keys are
resolved: equal keys defer to the owning layer, otherwise the dynamic or the
static interlayer set is consulted depending on the endpoints' dynamic
flags. -/
def Graph.edgeStored (g : Graph) (sk tk : LayerKey) (s t : NodeId) : Bool :=
  if keyEq sk tk then containsEdge (g.layerEdges sk) s t
  else if sk.dyn || tk.dyn then containsEdge g.dynInterlayerEdges s t
  else containsEdge g.interlayerEdges s t

/-- `hasEdge`: resolve both endpoint keys via the node index, then consult
exactly one container. -/
def Graph.hasEdgeB (g : Graph) (s t : NodeId) : Bool :=
  match alookup g.nodeLookup s, alookup g.nodeLookup t with
  | some sk, some tk => g.edgeStored sk tk s t
  | _, _ => false

/-- `addAncestry`: decide parent/child versus sibling from the two layer
keys and record the relation on the two endpoint nodes; fails (no mutation)
when the implied child already has a parent. `none` models both the failure
return and the undefined behaviour of dereferencing a missing node. -/
def Graph.addAncestry (g : Graph) (s t : NodeId) (sk tk : LayerKey) : Option Graph :=
  match g.getNodeRec sk s, g.getNodeRec tk t with
  | some sn, some tn =>
    if sk.isParent tk then
      if tn.parent.isSome then none
      else some (((g.modifyNode sk s (fun n => { n with children := insertSet n.children t }))).modifyNode
        tk t (fun n => { n with parent := some s }))
    else if tk.isParent sk then
      if sn.parent.isSome then none
      else some (((g.modifyNode tk t (fun n => { n with children := insertSet n.children s }))).modifyNode
        sk s (fun n => { n with parent := some t }))
    else
      some (((g.modifyNode sk s (fun n => { n with siblings := insertSet n.siblings t }))).modifyNode
        tk t (fun n => { n with siblings := insertSet n.siblings s }))
  | _, _ => none

/-- `removeAncestry`: the inverse bookkeeping; `clearParent` is unconditional
exactly as in the source. -/
def Graph.removeAncestry (g : Graph) (s t : NodeId) (sk tk : LayerKey) : Graph :=
  if sk.isParent tk then
    ((g.modifyNode sk s (fun n => { n with children := n.children.filter (fun c => c ≠ t) }))).modifyNode
      tk t (fun n => { n with parent := none })
  else if tk.isParent sk then
    ((g.modifyNode tk t (fun n => { n with children := n.children.filter (fun c => c ≠ s) }))).modifyNode
      sk s (fun n => { n with parent := none })
  else
    ((g.modifyNode sk s (fun n => { n with siblings := n.siblings.filter (fun c => c ≠ t) }))).modifyNode
      tk t (fun n => { n with siblings := n.siblings.filter (fun c => c ≠ s) })

/-- `removeInterlayerEdge` (four-argument form): unwind the ancestry relation
and erase the edge from the interlayer set selected by the endpoint keys. -/
def Graph.removeInterlayerEdge (g : Graph) (s t : NodeId) (sk tk : LayerKey) : Graph :=
  let g1 := g.removeAncestry s t sk tk
  if sk.dyn || tk.dyn then
    { g1 with dynInterlayerEdges := removeEdgeL g1.dynInterlayerEdges s t }
  else
    { g1 with interlayerEdges := removeEdgeL g1.interlayerEdges s t }

/-- Modelled from the spec: the two-argument `removeInterlayerEdge` overload
(declared in the header, not under src/) resolves both keys through the node
index and delegates to the four-argument form. -/
def Graph.removeInterlayerEdge2 (g : Graph) (s t : NodeId) : Graph :=
  match alookup g.nodeLookup s, alookup g.nodeLookup t with
  | some sk, some tk => g.removeInterlayerEdge s t sk tk
  | _, _ => g

/-- Modelled from the spec: the layer capability `insertEdge` (§6): a layer
owns its intra-layer edges; insertion fails when an endpoint is not a node of
the layer or the edge already exists. -/
def Graph.layerInsertEdge (g : Graph) (key : LayerKey) (s t : NodeId) (info : Attrs) :
    Bool × Graph :=
  if key.dyn then
    match alookup g.dynLayers key.layer with
    | none => (false, g)
    | some grp =>
      match alookup grp key.pfx with
      | none => (false, g)
      | some dl =>
        if (alookup dl.nodes s).isSome && (alookup dl.nodes t).isSome &&
            !containsEdge dl.edges s t then
          (true, { g with dynLayers := (aupd g.dynLayers key.layer
            (fun grp2 => aupd grp2 key.pfx
              (fun dl2 => { dl2 with edges := dl2.edges ++ [⟨s, t, info⟩] }))) })
        else (false, g)
  else
    match alookup g.layers key.layer with
    | none => (false, g)
    | some l =>
      if (alookup l.nodes s).isSome && (alookup l.nodes t).isSome &&
          !containsEdge l.edges s t then
        (true, { g with layers := (aupd g.layers key.layer
          (fun l2 => { l2 with edges := l2.edges ++ [⟨s, t, info⟩] })) })
      else (false, g)

/-- The success condition of the layer capability `insertEdge`: the layer
instance exists, both endpoints are nodes of the layer, and the edge is not
already present. -/
def Graph.layerInsOk (g : Graph) (key : LayerKey) (s t : NodeId) : Bool :=
  if key.dyn then
    match alookup g.dynLayers key.layer with
    | none => false
    | some grp =>
      match alookup grp key.pfx with
      | none => false
      | some dl =>
        (alookup dl.nodes s).isSome && (alookup dl.nodes t).isSome &&
          !containsEdge dl.edges s t
  else
    match alookup g.layers key.layer with
    | none => false
    | some l =>
      (alookup l.nodes s).isSome && (alookup l.nodes t).isSome &&
        !containsEdge l.edges s t

/-- `DynamicSceneGraph::insertEdge`: fail when the edge exists or an endpoint
is unknown; delegate equal-key edges to the owning layer; otherwise record
ancestry (aborting the insert on failure) and store the edge in the dynamic
interlayer set when either endpoint key is dynamic, in the static set
otherwise. -/
def Graph.insertEdge (g : Graph) (s t : NodeId) (info : Attrs) : Bool × Graph :=
  match alookup g.nodeLookup s, alookup g.nodeLookup t with
  | some sk, some tk =>
    if g.edgeStored sk tk s t then (false, g)
    else if keyEq sk tk then g.layerInsertEdge sk s t info
    else
      match g.addAncestry s t sk tk with
      | none => (false, g)
      | some g1 =>
        if sk.dyn || tk.dyn then
          (true, { g1 with dynInterlayerEdges := g1.dynInterlayerEdges ++ [⟨s, t, info⟩] })
        else
          (true, { g1 with interlayerEdges := g1.interlayerEdges ++ [⟨s, t, info⟩] })
  | _, _ => (false, g)

/-- `hasMeshEdge`: membership of the (node, vertex) pair in the mesh-edge
table. -/
def Graph.hasMeshEdgeB (g : Graph) (s : NodeId) (v : Nat) : Bool :=
  g.meshEdges.any (fun me => me.2.1 == s && me.2.2 == v)

/-- `insertMeshEdge`: fail on an unknown node, on an invalid vertex (unless
`allow_invalid_mesh`), or on a duplicate pair; on success assign the current
counter value as the edge id and increment the counter. -/
def Graph.insertMeshEdge (g : Graph) (s : NodeId) (v : Nat) (allowInvalid : Bool) :
    Bool × Graph :=
  if !g.hasNodeB s then (false, g)
  else if !allowInvalid &&
      (match g.meshVertices with
       | none => true
       | some n => n ≤ v) then (false, g)
  else if g.hasMeshEdgeB s v then (false, g)
  else
    (true, { g with meshEdges := g.meshEdges ++ [(g.nextMeshEdgeIdx, s, v)]
                    nextMeshEdgeIdx := g.nextMeshEdgeIdx + 1 })

/-- `removeMeshEdge`: erase the pair from the table (and both derived
indices); note that the source also increments the id counter on removal. -/
def Graph.removeMeshEdge (g : Graph) (s : NodeId) (v : Nat) : Bool × Graph :=
  if g.hasMeshEdgeB s v then
    (true, { g with meshEdges := g.meshEdges.filter (fun me => !(me.2.1 == s && me.2.2 == v))
                    nextMeshEdgeIdx := g.nextMeshEdgeIdx + 1 })
  else (false, g)

/-- `clearMeshEdges`: drop the table and both derived indices. -/
def Graph.clearMeshEdgesG (g : Graph) : Graph :=
  { g with meshEdges := [] }

/-- Modelled from the spec: the layer capability `removeNode` (§6): the
owning layer drops the node and its intra-layer edges. -/
def Graph.layerRemoveNode (g : Graph) (key : LayerKey) (id : NodeId) : Graph :=
  if key.dyn then
    { g with dynLayers := (aupd g.dynLayers key.layer
        (fun grp => aupd grp key.pfx
          (fun dl => { dl with nodes := aerase dl.nodes id
                               edges := dl.edges.filter (fun e => e.source ≠ id ∧ e.target ≠ id) }))) }
  else
    { g with layers := (aupd g.layers key.layer
        (fun l => { l with nodes := aerase l.nodes id
                           edges := l.edges.filter (fun e => e.source ≠ id ∧ e.target ≠ id) })) }

/-- `removeNode`: purge the mesh edges touching the node, remove the parent
edge and every child edge through `removeInterlayerEdge`, delegate physical
removal to the owning layer, and erase the node from the index. (The source
does not visit the node's sibling edges.) -/
def Graph.removeNode (g : Graph) (id : NodeId) : Bool × Graph :=
  match alookup g.nodeLookup id with
  | none => (false, g)
  | some key =>
    let vtxs := (g.meshEdges.filter (fun me => me.2.1 == id)).map (fun me => me.2.2)
    let g1 := vtxs.foldl (fun acc v => (acc.removeMeshEdge id v).2) g
    let g2 :=
      match g1.getNodeRec key id with
      | none => g1
      | some n =>
        let ga := match n.parent with
          | some p => g1.removeInterlayerEdge2 id p
          | none => g1
        n.children.foldl (fun acc c => acc.removeInterlayerEdge2 id c) ga
    let g3 := g2.layerRemoveNode key id
    (true, { g3 with nodeLookup := aerase g3.nodeLookup id })

/-- `removeEdge`: mirror of the `insertEdge` classification. -/
def Graph.removeEdge (g : Graph) (s t : NodeId) : Bool × Graph :=
  match alookup g.nodeLookup s, alookup g.nodeLookup t with
  | some sk, some tk =>
    if !g.edgeStored sk tk s t then (false, g)
    else if keyEq sk tk then
      (true, if sk.dyn then
        { g with dynLayers := (aupd g.dynLayers sk.layer
            (fun grp => aupd grp sk.pfx
              (fun dl => { dl with edges := removeEdgeL dl.edges s t }))) }
      else
        { g with layers := (aupd g.layers sk.layer
            (fun l => { l with edges := removeEdgeL l.edges s t })) })
    else (true, g.removeInterlayerEdge s t sk tk)
  | _, _ => (false, g)

/-- `DynamicSceneGraph::emplaceNode` (static form): fail on a missing layer
or a duplicate id, otherwise add the node to the layer and register it in the
node index. -/
def Graph.emplaceNode (g : Graph) (layerId : LayerId) (id : NodeId) (attrs : Attrs) :
    Bool × Graph :=
  match alookup g.layers layerId with
  | none => (false, g)
  | some l =>
    if (alookup g.nodeLookup id).isSome then (false, g)
    else if (alookup l.nodes id).isSome then (false, g)
    else
      (true, { g with
               layers := (aupd g.layers layerId
                 (fun l2 => { l2 with nodes := l2.nodes ++ [(id, ⟨attrs, none, [], []⟩)] })),
               nodeLookup := g.nodeLookup ++ [(id, ⟨layerId, 0, false⟩)] })

/-- The mutation `DynamicSceneGraphLayer::emplaceNode` applies to its own
containers ("Modelled from the spec", not under src/): append the new node,
advance the sequence counter, and optionally link the new node to its
predecessor with an edge in the layer's own edge container. -/
def dynEmplaceStep (newId : NodeId) (attrs : Attrs) (addEdge : Bool) (seq : Nat)
    (p : Pfx) (dl : DynLayer) : DynLayer :=
  let dl2 : DynLayer :=
    { dl with nodes := dl.nodes ++ [(newId, ⟨attrs, none, [], []⟩)],
              next := dl.next + 1 }
  if addEdge && 0 < seq && (alookup dl2.nodes (makeId p (seq - 1))).isSome then
    { dl2 with edges := dl2.edges ++ [⟨makeId p (seq - 1), newId, 0⟩] }
  else dl2

/-- `DynamicSceneGraph::emplaceNode` (dynamic form): create the dynamic layer
instance on demand, derive the node id from the prefix and the instance's
`next_node_` counter, fail (without mutation) when that id already exists in
the graph, and optionally link the new node to its predecessor with an edge
inside the dynamic layer's own container ("Modelled from the spec" for the
dynamic layer's internal `emplaceNode`, which is not under src/). The
timestamp argument is kept by the dynamic layer and not modelled. -/
def Graph.emplaceNodeDyn (g : Graph) (layerId : LayerId) (p : Pfx) (attrs : Attrs)
    (addEdge : Bool) : Bool × Graph :=
  let hasL := g.hasDynLayer layerId p
  let newId := makeId p (if hasL then g.dynNext layerId p else 0)
  if (alookup g.nodeLookup newId).isSome then (false, g)
  else
    let g1 := if hasL then g else g.createDynamicLayer layerId p
    let seq := g1.dynNext layerId p
    let g2 := { g1 with dynLayers := (aupd g1.dynLayers layerId
      (fun grp => aupd grp p (dynEmplaceStep newId attrs addEdge seq p))) }
    (true, { g2 with nodeLookup := g2.nodeLookup ++ [(newId, ⟨layerId, p, true⟩)] })

/-- `setMesh`: a null vertex cloud unsets the mesh and clears all mesh edges;
otherwise the geometry is replaced and either all mesh edges are cleared
(`invalidate_all_edges`) or exactly the edges whose vertex is out of bounds
for the new cloud are removed one by one. -/
def Graph.setMesh (g : Graph) (vertices : Option Nat) (faces : Bool)
    (invalidateAll : Bool) : Graph :=
  match vertices with
  | none => { g with meshVertices := none, meshFacesSet := false, meshEdges := [] }
  | some n =>
    let g1 := { g with meshVertices := some n, meshFacesSet := faces }
    if invalidateAll then { g1 with meshEdges := [] }
    else
      let invalid := g1.meshEdges.filter (fun me => n ≤ me.2.2)
      invalid.foldl (fun acc me => (acc.removeMeshEdge me.2.1 me.2.2).2) g1

/-- `invalidateMeshVertex`: remove every mesh edge touching one vertex. -/
def Graph.invalidateMeshVertex (g : Graph) (v : Nat) : Graph :=
  let nodes := (g.meshEdges.filter (fun me => me.2.2 == v)).map (fun me => me.2.1)
  nodes.foldl (fun acc s => (acc.removeMeshEdge s v).2) g

/-- `rewireInterlayerEdge(old_source, old_target, new_source, new_target)`:
drop the old edge when the new pair already has one; otherwise swap the
ancestry relations and move the payload to the container selected by
`new_source_key.dynamic || target_key.dynamic` — the source consults the OLD
target key at this point (line 892 of the source file). -/
def Graph.rewireInterlayerEdge (g : Graph) (s t ns nt : NodeId) : Graph :=
  if s == ns && t == nt then g
  else
    match alookup g.nodeLookup s, alookup g.nodeLookup t with
    | some sk, some tk =>
      let nskO := alookup g.nodeLookup ns
      let ntkO := alookup g.nodeLookup nt
      let hasNew := match nskO, ntkO with
        | some nsk, some ntk => g.edgeStored nsk ntk ns nt
        | _, _ => false
      if hasNew then g.removeInterlayerEdge s t sk tk
      else
        let nsk := nskO.getD ⟨0, 0, false⟩
        let ntk := ntkO.getD ⟨0, 0, false⟩
        let g1 := g.removeAncestry s t sk tk
        let g2 := (g1.addAncestry ns nt nsk ntk).getD g1
        match (if sk.dyn || tk.dyn then getEdgeInfo g2.dynInterlayerEdges s t
               else getEdgeInfo g2.interlayerEdges s t) with
        | none => g2
        | some info =>
          let g3 := if sk.dyn || tk.dyn then
              { g2 with dynInterlayerEdges := removeEdgeL g2.dynInterlayerEdges s t }
            else
              { g2 with interlayerEdges := removeEdgeL g2.interlayerEdges s t }
          if nsk.dyn || tk.dyn then
            { g3 with dynInterlayerEdges := g3.dynInterlayerEdges ++ [⟨ns, nt, info⟩] }
          else
            { g3 with interlayerEdges := g3.interlayerEdges ++ [⟨ns, nt, info⟩] }
    | _, _ => g

/-- Modelled from the spec: the layer capability `mergeLayer` for a static
layer (§4.5, not under src/): the layers are merged node-by-node — nodes
already present only have their attribute payload overwritten (when the
update flag is set, and with prior edge and ancestry information preserved);
missing nodes are added to the layer with the incoming payload and
registered in the node index. -/
def statMergeStep (layerId : LayerId) (update : Bool) (acc : Graph)
    (pr : Nat × NodeRec) : Graph :=
  match (alookup acc.layers layerId).bind (fun l => alookup l.nodes pr.1) with
  | some _ =>
    if update then
      acc.modifyNode ⟨layerId, 0, false⟩ pr.1 (fun n => { n with attrs := pr.2.attrs })
    else acc
  | none =>
    { acc with
      layers := (aupd acc.layers layerId
        (fun l => { l with nodes := l.nodes ++ [(pr.1, ⟨pr.2.attrs, none, [], []⟩)] })),
      nodeLookup := aset acc.nodeLookup pr.1 ⟨layerId, 0, false⟩ }

def Graph.mergeLayerStatic (g : Graph) (layerId : LayerId) (other : Layer)
    (update : Bool) : Graph :=
  other.nodes.foldl (statMergeStep layerId update) g

/-- Modelled from the spec: `mergeLayer` for a dynamic layer instance (§4.5:
"merge node-by-node (flag-gated whether attribute updates are applied)", not
under src/): present nodes optionally get the incoming payload, missing nodes
are added and registered, and the sequence counter absorbs the incoming
one. -/
def dynMergeStep (layerId : LayerId) (p : Pfx) (update : Bool) (acc : Graph)
    (pr : Nat × NodeRec) : Graph :=
  match acc.getNodeRec ⟨layerId, p, true⟩ pr.1 with
  | some _ =>
    if update then
      acc.modifyNode ⟨layerId, p, true⟩ pr.1 (fun n => { n with attrs := pr.2.attrs })
    else acc
  | none =>
    { acc with
      dynLayers := (aupd acc.dynLayers layerId (fun grp => aupd grp p
        (fun dl => { dl with nodes := dl.nodes ++ [(pr.1, ⟨pr.2.attrs, none, [], []⟩)] }))),
      nodeLookup := aset acc.nodeLookup pr.1 ⟨layerId, p, true⟩ }

def Graph.mergeLayerDyn (g : Graph) (layerId : LayerId) (p : Pfx) (other : DynLayer)
    (update : Bool) : Graph :=
  let g1 := other.nodes.foldl (dynMergeStep layerId p update) g
  { g1 with dynLayers := (aupd g1.dynLayers layerId (fun grp => aupd grp p
      (fun dl => { dl with next := max dl.next other.next }))) }

/-- Every removed-node id reported by any static layer of a graph. The
snapshot well-formedness below constrains all of them; `mergeGraph` itself
collects only those of layers passing its local `hasLayer` gate. -/
def Graph.removedIds (g : Graph) : List NodeId :=
  g.layers.foldl (fun acc il => acc ++ il.2.removed) []

/-- The per-instance step of `mergeGraph`'s dynamic-layer phase: create the
missing instance on demand and merge the incoming instance into it. -/
def dynInstStep (layerId : LayerId) (updateDynamic : Bool) (acc2 : Graph)
    (pl : Pfx × DynLayer) : Graph :=
  (if acc2.hasDynLayer layerId pl.1 then acc2
   else acc2.createDynamicLayer layerId pl.1).mergeLayerDyn layerId pl.1 pl.2
    updateDynamic

def dynPhaseStep (updateDynamic : Bool) (acc : Graph)
    (grp : LayerId × List (Pfx × DynLayer)) : Graph :=
  grp.2.foldl (dynInstStep grp.1 updateDynamic) acc

def Graph.mergeDynPhase (g other : Graph) (updateDynamic : Bool) : Graph :=
  other.dynLayers.foldl (dynPhaseStep updateDynamic) g

def statPhaseStep (updateMap : List (LayerId × Bool)) (acc : Graph)
    (il : LayerId × Layer) : Graph :=
  if acc.hasLayerB il.1 then
    acc.mergeLayerStatic il.1 il.2 ((alookup updateMap il.1).getD true)
  else acc

def Graph.mergeStatPhase (g other : Graph) (updateMap : List (LayerId × Bool)) : Graph :=
  other.layers.foldl (statPhaseStep updateMap) g

/-- The static-layer loop of `mergeGraph` as the source runs it, threading
the removed-node report: a layer absent locally is skipped entirely — neither
merged nor asked for its removed nodes — while a present layer is merged
under its per-layer update flag and its removed ids are appended to the
pending removal list. -/
def statPhaseStepR (updateMap : List (LayerId × Bool)) (acc : Graph × List NodeId)
    (il : LayerId × Layer) : Graph × List NodeId :=
  if acc.1.hasLayerB il.1 then
    (acc.1.mergeLayerStatic il.1 il.2 ((alookup updateMap il.1).getD true),
     acc.2 ++ il.2.removed)
  else acc

def Graph.mergeStatPhaseR (g other : Graph) (updateMap : List (LayerId × Bool)) :
    Graph × List NodeId :=
  other.layers.foldl (statPhaseStepR updateMap) (g, [])

def Graph.mergeRemovePhase (g : Graph) (removed : List NodeId) : Graph :=
  removed.foldl (fun acc id => (acc.removeNode id).2) g

def interStep (acc : Graph) (e : EdgeRec) : Graph :=
  (acc.insertEdge e.source e.target e.info).2

def Graph.mergeInterPhase (g : Graph) (es : List EdgeRec) : Graph :=
  es.foldl interStep g

def meshStep (allowInvalidMesh : Bool) (acc : Graph) (me : Nat × NodeId × Nat) : Graph :=
  (acc.insertMeshEdge me.2.1 me.2.2 allowInvalidMesh).2

def Graph.mergeMeshPhase (g : Graph) (mes : List (Nat × NodeId × Nat))
    (allowInvalidMesh : Bool) : Graph :=
  mes.foldl (meshStep allowInvalidMesh) g

/-- `mergeGraph`: create missing dynamic layer instances and merge each,
merge every static layer present locally (per-layer update flag, default
true) while collecting the removed-node reports of exactly those gated
layers, remove every collected id, re-insert every interlayer edge of the
other graph with a cloned payload (a failed insert is ignored), optionally
clear the local mesh edges, and re-insert the other graph's mesh edges under
the given validity policy. Geometry itself is not merged. -/
def Graph.mergeGraph (g other : Graph) (allowInvalidMesh clearMeshEdgesFlag : Bool)
    (updateMap : List (LayerId × Bool)) (updateDynamic : Bool) : Graph :=
  let g1 := g.mergeDynPhase other updateDynamic
  let gr := g1.mergeStatPhaseR other updateMap
  let g3 := gr.1.mergeRemovePhase gr.2
  let g4 := g3.mergeInterPhase other.interlayerEdges
  let g5 := g4.mergeInterPhase other.dynInterlayerEdges
  let g6 := if clearMeshEdgesFlag then g5.clearMeshEdgesG else g5
  g6.mergeMeshPhase other.meshEdges allowInvalidMesh

/-- `mergeNodes(from, to)`: fail when either node is missing, they coincide,
or their keys differ; otherwise rewire the parent edge and every child edge
onto `to`, let the owning layer merge the intra-layer state, and erase `from`
from the node index. The source reads the node out of the static-layer map
unconditionally (merging dynamic nodes is a documented unsupported case), so
the embedding fails when the node is not in a static layer. -/
def Graph.mergeNodes (g : Graph) (nFrom nTo : NodeId) : Bool × Graph :=
  match alookup g.nodeLookup nFrom, alookup g.nodeLookup nTo with
  | some kFrom, some kTo =>
    if nFrom == nTo then (false, g)
    else if !keyEq kFrom kTo then (false, g)
    else
      match (alookup g.layers kFrom.layer).bind (fun l => alookup l.nodes nFrom) with
      | none => (false, g)
      | some node =>
        let g1 := match node.parent with
          | some pr => g.rewireInterlayerEdge nFrom pr nTo pr
          | none => g
        let g2 := node.children.foldl (fun acc c => acc.rewireInterlayerEdge nFrom c nTo c) g1
        let g3 := { g2 with layers := (aupd g2.layers kFrom.layer (fun l =>
          { l with nodes := aerase l.nodes nFrom,
                   edges := l.edges.map (fun (e : EdgeRec) =>
                     { e with source := if e.source = nFrom then nTo else e.source,
                              target := if e.target = nFrom then nTo else e.target }) })) }
        (true, { g3 with nodeLookup := aerase g3.nodeLookup nFrom })
  | _, _ => (false, g)

/-- `updateFromLayer`: fail on a missing layer; overwrite the payload of
already-present nodes, transfer missing nodes wholesale and register them,
then merge the supplied intra-layer edges (payload replace when present,
insert when not). -/
def Graph.updateFromLayer (g : Graph) (layerId : LayerId) (otherL : Layer)
    (edges : List EdgeRec) : Bool × Graph :=
  match alookup g.layers layerId with
  | none => (false, g)
  | some _ =>
    let g1 := otherL.nodes.foldl (fun acc pr =>
      match (alookup acc.layers layerId).bind (fun l => alookup l.nodes pr.1) with
      | some _ =>
        acc.modifyNode ⟨layerId, 0, false⟩ pr.1 (fun n => { n with attrs := pr.2.attrs })
      | none =>
        { acc with
          layers := (aupd acc.layers layerId
            (fun l => { l with nodes := l.nodes ++ [(pr.1, pr.2)] })),
          nodeLookup := aset acc.nodeLookup pr.1 ⟨layerId, 0, false⟩ }) g
    let g2 := edges.foldl (fun acc e =>
      match alookup acc.layers layerId with
      | none => acc
      | some l =>
        if containsEdge l.edges e.source e.target then
          { acc with layers := (aupd acc.layers layerId (fun l2 =>
            { l2 with edges := l2.edges.map (fun e2 =>
                if edgeMatches e.source e.target e2 then { e2 with info := e.info } else e2) })) }
        else (acc.layerInsertEdge ⟨layerId, 0, false⟩ e.source e.target e.info).2) g1
    (true, g2)

/-- `clear()`: reset every container to the configured-but-empty state; the
mesh-edge id counter is a constructor-initialized member that `clear()` does
not touch. -/
def Graph.clearG (g : Graph) : Graph :=
  { initGraph g.layerIds g.meshLayerId with nextMeshEdgeIdx := g.nextMeshEdgeIdx }

/-- One public mutating operation of the root graph, used to reason about
arbitrary operation sequences. -/
inductive Op where
  | emplace (layerId : LayerId) (id : NodeId) (attrs : Attrs)
  | emplaceDyn (layerId : LayerId) (p : Pfx) (attrs : Attrs) (addEdge : Bool)
  | insEdge (s t : NodeId) (info : Attrs)
  | remEdge (s t : NodeId)
  | remNode (id : NodeId)
  | insMeshEdge (s : NodeId) (v : Nat) (allowInvalid : Bool)
  | remMeshEdge (s : NodeId) (v : Nat)
  | setMeshOp (vertices : Option Nat) (faces : Bool) (invalidateAll : Bool)
  | invalidateVertex (v : Nat)
  | createDynLayer (layerId : LayerId) (p : Pfx)
  | merge (other : Graph) (allowInvalidMesh clearMesh : Bool)
      (updateMap : List (LayerId × Bool)) (updateDynamic : Bool)
  | mergeN (nFrom nTo : NodeId)
  | updateLayer (layerId : LayerId) (l : Layer) (edges : List EdgeRec)
  | clearOp

/-- Apply one public operation. -/
def applyOp (g : Graph) : Op → Graph
  | .emplace layerId id attrs => (g.emplaceNode layerId id attrs).2
  | .emplaceDyn layerId p attrs addEdge => (g.emplaceNodeDyn layerId p attrs addEdge).2
  | .insEdge s t info => (g.insertEdge s t info).2
  | .remEdge s t => (g.removeEdge s t).2
  | .remNode id => (g.removeNode id).2
  | .insMeshEdge s v ai => (g.insertMeshEdge s v ai).2
  | .remMeshEdge s v => (g.removeMeshEdge s v).2
  | .setMeshOp vs f ia => g.setMesh vs f ia
  | .invalidateVertex v => g.invalidateMeshVertex v
  | .createDynLayer layerId p => g.createDynamicLayer layerId p
  | .merge other aim cm um ud => g.mergeGraph other aim cm um ud
  | .mergeN nFrom nTo => (g.mergeNodes nFrom nTo).2
  | .updateLayer layerId l es => (g.updateFromLayer layerId l es).2
  | .clearOp => g.clearG

/-- Run a sequence of public operations. -/
def runOps (g : Graph) (ops : List Op) : Graph :=
  ops.foldl applyOp g

/-- `numDynamicNodes`: total node count over all dynamic layer instances. -/
def Graph.numDynamicNodes (g : Graph) : Nat :=
  g.dynLayers.foldl (fun acc grp => grp.2.foldl (fun a2 pl => a2 + pl.2.nodes.length) acc) 0

/-- `numNodes`: static layer nodes plus dynamic nodes plus the mesh vertex
count (zero when no vertex cloud is set). -/
def Graph.numNodes (g : Graph) : Nat :=
  (g.layers.foldl (fun acc il => acc + il.2.nodes.length) 0) + g.numDynamicNodes +
    (match g.meshVertices with
     | none => 0
     | some n => n)

/-- The static-layer contribution to `numNodes`. -/
def Graph.staticNodeCount (g : Graph) : Nat :=
  g.layers.foldl (fun acc il => acc + il.2.nodes.length) 0

/-- Every node id stored in any layer container of the graph. -/
def Graph.allNodeIds (g : Graph) : List NodeId :=
  (g.layers.flatMap (fun il => il.2.nodes.map Prod.fst)) ++
    (g.dynLayers.flatMap (fun grp => grp.2.flatMap (fun pl => pl.2.nodes.map Prod.fst)))

/-- The well-formedness of an incoming snapshot assumed by `mergeGraph`:
node ids are globally unique, removed ids are not simultaneously live, and
the per-layer and per-instance registries have no duplicate keys. -/
def Graph.wfSnapshot (g : Graph) : Prop :=
  g.allNodeIds.Nodup ∧
  (∀ id ∈ g.removedIds, id ∉ g.allNodeIds) ∧
  (g.layers.map Prod.fst).Nodup ∧
  (g.dynLayers.map Prod.fst).Nodup ∧
  (∀ pr ∈ g.dynLayers, (List.map Prod.fst pr.2).Nodup)

/-- The ancestry bookkeeping the root maintains alongside the interlayer edge
sets: every stored interlayer edge has both endpoints indexed, and when the
two endpoint layers are hierarchy-ordered the corresponding parent pointer of
the finer node points at the coarser endpoint. -/
def Graph.ancestryCoherent (g : Graph) : Prop :=
  ∀ e : EdgeRec, (e ∈ g.interlayerEdges ∨ e ∈ g.dynInterlayerEdges) →
    ∃ sk tk, alookup g.nodeLookup e.source = some sk ∧
      alookup g.nodeLookup e.target = some tk ∧
      (tk.layer < sk.layer →
        ∃ n, g.getNodeRec tk e.target = some n ∧ n.parent = some e.source) ∧
      (sk.layer < tk.layer →
        ∃ n, g.getNodeRec sk e.source = some n ∧ n.parent = some e.target)

/-- One incoming dynamic layer instance is already absorbed into a state:
the instance exists, its sequence counter is at least the incoming one, and
every incoming node is present (with the incoming payload when updates are
applied). -/
def DynAbs1 (lid : LayerId) (p : Pfx) (dl : DynLayer) (ud : Bool) (S : Graph) : Prop :=
  S.hasDynLayer lid p = true ∧
  dl.next ≤ S.dynNext lid p ∧
  (∀ nr ∈ dl.nodes, ∃ n, S.getNodeRec ⟨lid, p, true⟩ nr.1 = some n ∧
    (ud = true → n.attrs = nr.2.attrs))

/-- The other snapshot's dynamic layers are already absorbed into a state. -/
def DynAbsorbed (other : Graph) (ud : Bool) (S : Graph) : Prop :=
  ∀ pr ∈ other.dynLayers, ∀ pl ∈ pr.2, DynAbs1 pr.1 pl.1 pl.2 ud S

/-- One incoming static layer is already absorbed into a state, provided the
state reports the layer as present (`hasLayer` is what gates the merge of a
static layer): when the underlying static layer map really holds the layer,
every incoming node is present in it (with the incoming payload when the
per-layer flag applies); when `hasLayer` is true only through the mesh
special case, every incoming node id is nevertheless registered in the node
index under that layer's key (the source registers ids through `node_lookup_`
even then). -/
def StatAbs1 (lid : LayerId) (other : Layer) (flag : Bool) (S : Graph) : Prop :=
  S.hasLayerB lid = true →
    ((alookup S.layers lid).isSome = false →
      ∀ nr ∈ other.nodes, alookup S.nodeLookup nr.1 = some ⟨lid, 0, false⟩) ∧
    ((alookup S.layers lid).isSome = true →
      ∀ nr ∈ other.nodes, ∃ n, S.getNodeRec ⟨lid, 0, false⟩ nr.1 = some n ∧
        (flag = true → n.attrs = nr.2.attrs))

/-- The other snapshot's static layers are already absorbed into a state. -/
def StatAbsorbed (other : Graph) (um : List (LayerId × Bool)) (S : Graph) : Prop :=
  ∀ il ∈ other.layers, StatAbs1 il.1 il.2 ((alookup um il.1).getD true) S

/-- The observations of a state that the merge phases of `mergeGraph` depend
on, in the direction preserved by the edge-inserting operations: the node
index, the mesh geometry, the layer registries, node presence, attribute
payloads and parent-pointer presence are untouched, while the stored edge
sets only grow. `ObsPres b a` reads: state `a` preserves the observations of
state `b`. -/
def ObsPres (b a : Graph) : Prop :=
  a.nodeLookup = b.nodeLookup ∧
  a.meshVertices = b.meshVertices ∧
  a.meshFacesSet = b.meshFacesSet ∧
  a.meshLayerId = b.meshLayerId ∧
  (∀ lid p, a.hasDynLayer lid p = b.hasDynLayer lid p) ∧
  (∀ lid p, a.dynNext lid p = b.dynNext lid p) ∧
  (∀ lid, (alookup a.layers lid).isSome = (alookup b.layers lid).isSome) ∧
  (∀ lid, a.hasLayerB lid = b.hasLayerB lid) ∧
  (∀ k i, (a.getNodeRec k i).isSome = (b.getNodeRec k i).isSome) ∧
  (∀ k i, (a.getNodeRec k i).map NodeRec.attrs = (b.getNodeRec k i).map NodeRec.attrs) ∧
  (∀ k i, (∃ n, b.getNodeRec k i = some n ∧ n.parent.isSome = true) →
    ∃ n2, a.getNodeRec k i = some n2 ∧ n2.parent.isSome = true) ∧
  (∀ k s t, containsEdge (b.layerEdges k) s t = true →
    containsEdge (a.layerEdges k) s t = true) ∧
  (∀ s t, containsEdge b.interlayerEdges s t = true →
    containsEdge a.interlayerEdges s t = true) ∧
  (∀ s t, containsEdge b.dynInterlayerEdges s t = true →
    containsEdge a.dynInterlayerEdges s t = true) ∧
  (∀ s v, b.hasMeshEdgeB s v = true → a.hasMeshEdgeB s v = true)

/-- The observations preserved by `removeNode(rid)`: every index entry and
node record other than `rid`'s survives unchanged, absent index entries stay
absent, and the registries, counters and mesh geometry are untouched. -/
def RemPres (rid : NodeId) (b a : Graph) : Prop :=
  (∀ i, i ≠ rid → alookup a.nodeLookup i = alookup b.nodeLookup i) ∧
  (∀ i, alookup b.nodeLookup i = none → alookup a.nodeLookup i = none) ∧
  a.meshVertices = b.meshVertices ∧
  a.meshFacesSet = b.meshFacesSet ∧
  a.meshLayerId = b.meshLayerId ∧
  (∀ lid p, a.hasDynLayer lid p = b.hasDynLayer lid p) ∧
  (∀ lid p, a.dynNext lid p = b.dynNext lid p) ∧
  (∀ lid, (alookup a.layers lid).isSome = (alookup b.layers lid).isSome) ∧
  (∀ lid, a.hasLayerB lid = b.hasLayerB lid) ∧
  (∀ k i, i ≠ rid → (a.getNodeRec k i).isSome = (b.getNodeRec k i).isSome) ∧
  (∀ k i, i ≠ rid → (a.getNodeRec k i).map NodeRec.attrs = (b.getNodeRec k i).map NodeRec.attrs)

/-- Every node id in a removal report is absent from the node index of a
state. -/
def RemovedGone (rem : List NodeId) (S : Graph) : Prop :=
  ∀ id ∈ rem, alookup S.nodeLookup id = none

/-- The ancestry bookkeeping blocks `addAncestry` for this endpoint/key
combination: an endpoint record is missing, or the implied child already has
a parent. -/
def AddBlocked (S : Graph) (s t : NodeId) (sk tk : LayerKey) : Prop :=
  (S.getNodeRec sk s).isSome = false ∨
  (S.getNodeRec tk t).isSome = false ∨
  (sk.isParent tk = true ∧ ∃ n, S.getNodeRec tk t = some n ∧ n.parent.isSome = true) ∨
  (sk.isParent tk = false ∧ tk.isParent sk = true ∧
    ∃ n, S.getNodeRec sk s = some n ∧ n.parent.isSome = true)

/-- `insertEdge(s, t)` is a no-op on a state: the endpoints are not both
indexed, or the edge is already stored, or the implied intra-layer insert
cannot succeed, or the ancestry bookkeeping blocks the insert. -/
def EdgeSettled (s t : NodeId) (S : Graph) : Prop :=
  match alookup S.nodeLookup s, alookup S.nodeLookup t with
  | some sk, some tk =>
      S.edgeStored sk tk s t = true ∨
      (keyEq sk tk = true ∧ S.layerInsOk sk s t = false) ∨
      (keyEq sk tk = false ∧ AddBlocked S s t sk tk)
  | _, _ => True

/-- `insertMeshEdge(s, v)` is a no-op on a state: the node is unknown, or the
vertex is invalid (and invalid vertices are not allowed), or the pair already
exists. -/
def MeshSettled (s : NodeId) (v : Nat) (aim : Bool) (S : Graph) : Prop :=
  S.hasNodeB s = false ∨
  (aim = false ∧
    (match S.meshVertices with
     | none => True
     | some n => n ≤ v)) ∨
  S.hasMeshEdgeB s v = true

/-- A concrete scenario: configured layers 2 and 3 with mesh layer 1, a
static node 10 emplaced in layer 2, and a dynamic node `makeId 5 0` emplaced
in layer 2 under prefix 5. -/
def demoBase : Graph :=
  (((initGraph [2, 3] 1).emplaceNode 2 10 0).2.emplaceNodeDyn 2 5 0 false).2

/-- The id of the dynamic node of the demo scenario. -/
def demoDyn : NodeId :=
  makeId 5 0

/-- The demo scenario after inserting the interlayer edge between the static
node and the dynamic node: both live in layer 2, so the edge is a sibling
edge and is stored in the dynamic interlayer set. -/
def demoLinked : Graph :=
  (demoBase.insertEdge 10 demoDyn 0).2

/-- The demo scenario after removing the dynamic node. -/
def demoRemoved : Graph :=
  (demoLinked.removeNode demoDyn).2

/-- The demo scenario for rewiring: additionally a static node 20 in layer 3,
with the sibling edge between 10 and the dynamic node in place. -/
def demoRewireBase : Graph :=
  ((demoBase.emplaceNode 3 20 0).2.insertEdge 10 demoDyn 0).2

/-- The demo scenario with a static node whose id collides with the next
dynamic id of the (layer 2, prefix 5) instance. -/
def demoC7col : Graph :=
  (demoBase.emplaceNode 2 (makeId 5 1) 7).2

/-- A concrete hierarchy scenario: layers 2 and 3 (mesh layer 1), node 20 in
the coarser layer 3 and node 10 in the finer layer 2. -/
def demoC4 : Graph :=
  ((((initGraph [2, 3] 1).emplaceNode 3 20 0).2).emplaceNode 2 10 0).2

/-- The hierarchy scenario after node 10 acquired parent 20, with a second
coarser node 30 present. -/
def demoC4b : Graph :=
  (((demoC4.emplaceNode 3 30 0).2).insertEdge 20 10 0).2

/-- A concrete merge source: static nodes (one already shared with the
target, one new per layer, one in a layer the target lacks), a removed id in
a shared layer and another in the target-absent layer (whose report the
`hasLayer` gate must skip — its id is live in the target), two dynamic
instances, interlayer edges with a conflicting parent, an already-present
edge, a duplicate unordered pair, a removed endpoint and an intra-layer
pair, plus mesh edges. -/
def demoMergeO : Graph :=
  { meshLayerId := 1
    layerIds := [2, 3]
    layers := [
      (2, { nodes := [(10, ⟨100, none, [], []⟩), (20, ⟨101, none, [], []⟩)],
            edges := [⟨10, 20, 50⟩], removed := [12] }),
      (3, { nodes := [(21, ⟨102, none, [], []⟩)], edges := [], removed := [] }),
      (7, { nodes := [(30, ⟨103, none, [], []⟩)], edges := [], removed := [11] })]
    dynLayers := [
      (2, [(5, { nodes := [(makeId 5 0, ⟨104, none, [], []⟩),
                           (makeId 5 1, ⟨105, none, [], []⟩)],
                 edges := [⟨makeId 5 0, makeId 5 1, 0⟩], next := 2 })]),
      (6, [(4, { nodes := [(makeId 4 0, ⟨106, none, [], []⟩)], edges := [], next := 1 })])]
    nodeLookup := []
    interlayerEdges := [⟨21, 10, 60⟩, ⟨11, 10, 61⟩, ⟨21, 20, 62⟩, ⟨10, 11, 70⟩,
      ⟨12, 10, 71⟩, ⟨10, 20, 72⟩]
    dynInterlayerEdges := [⟨20, makeId 5 1, 63⟩]
    meshVertices := none
    meshFacesSet := false
    meshEdges := [(0, 10, 0), (1, 20, 2), (2, 21, 7)]
    nextMeshEdgeIdx := 3 }

/-- A concrete merge target: three static layers with a parent edge, a
dynamic node carrying a sibling edge, and a mesh with one mesh edge. -/
def demoMergeG : Graph :=
  let g1 := ((initGraph [2, 3, 4] 1).emplaceNode 2 10 1).2
  let g2 := (g1.emplaceNode 3 11 2).2
  let g3 := (g2.emplaceNode 2 12 3).2
  let g4 := (g3.insertEdge 11 10 5).2
  let g5 := (g4.emplaceNodeDyn 2 5 9 false).2
  let g6 := (g5.insertEdge 12 (makeId 5 0) 6).2
  let g7 := g6.setMesh (some 3) true false
  (g7.insertMeshEdge 10 1 false).2

/-! ### Association-list infrastructure -/

theorem alookup_append_some {β : Type} {l1 : List (Nat × β)} {k : Nat} {v : β}
    (l2 : List (Nat × β)) (h : alookup l1 k = some v) :
    alookup (l1 ++ l2) k = some v := by
  induction l1 with
  | nil => simp [alookup] at h
  | cons p rest ih =>
    obtain ⟨a, b⟩ := p
    by_cases hp : a = k
    · simp [alookup, hp] at h ⊢
      exact h
    · simp only [alookup, hp, if_false, List.cons_append] at h ⊢
      exact ih h

theorem alookup_append_none {β : Type} {l1 : List (Nat × β)} {k : Nat}
    (l2 : List (Nat × β)) (h : alookup l1 k = none) :
    alookup (l1 ++ l2) k = alookup l2 k := by
  induction l1 with
  | nil => simp
  | cons p rest ih =>
    obtain ⟨a, b⟩ := p
    by_cases hp : a = k
    · simp [alookup, hp] at h
    · simp only [alookup, hp, if_false, List.cons_append] at h ⊢
      exact ih h

theorem alookup_aupd {β : Type} (l : List (Nat × β)) (k : Nat) (f : β → β) (k' : Nat) :
    alookup (aupd l k f) k' =
      if k' = k then (alookup l k).map f else alookup l k' := by
  induction l with
  | nil =>
    by_cases h : k' = k <;> simp [aupd, alookup, h]
  | cons p rest ih =>
    obtain ⟨a, b⟩ := p
    by_cases hp : a = k
    · by_cases hk : k' = k
      · have hpk' : a = k' := by rw [hp, hk]
        simp [aupd, alookup, hp, hk, hpk']
      · have hpk' : ¬ a = k' := by rw [hp]; exact fun hh => hk hh.symm
        have hk2 : ¬ k = k' := fun hh => hk hh.symm
        simp [aupd, alookup, hp, hk, hpk', hk2]
    · by_cases hq : a = k'
      · have hk : ¬ k' = k := fun hh => hp (hq.trans hh)
        simp [aupd, alookup, hp, hq, hk]
      · simp [aupd, alookup, hp, hq, ih]

theorem aupd_id {β : Type} {l : List (Nat × β)} {k : Nat} {f : β → β} {v : β}
    (h : alookup l k = some v) (hf : f v = v) : aupd l k f = l := by
  induction l with
  | nil => simp [alookup] at h
  | cons p rest ih =>
    obtain ⟨a, b⟩ := p
    by_cases hp : a = k
    · simp only [alookup, hp, if_true, Option.some_inj] at h
      simp [aupd, hp, h, hf]
    · simp only [alookup, hp, if_false] at h
      simp [aupd, hp, ih h]

theorem aupd_absent {β : Type} {l : List (Nat × β)} {k : Nat} (f : β → β)
    (h : alookup l k = none) : aupd l k f = l := by
  induction l with
  | nil => simp [aupd]
  | cons p rest ih =>
    obtain ⟨a, b⟩ := p
    by_cases hp : a = k
    · simp [alookup, hp] at h
    · simp only [alookup, hp, if_false] at h
      simp [aupd, hp, ih h]

theorem aerase_append_fresh {β : Type} {l : List (Nat × β)} {k : Nat} (v : β)
    (h : alookup l k = none) : aerase (l ++ [(k, v)]) k = l := by
  induction l with
  | nil => simp [aerase]
  | cons p rest ih =>
    obtain ⟨a, b⟩ := p
    by_cases hp : a = k
    · simp [alookup, hp] at h
    · simp only [alookup, hp, if_false] at h
      simp [aerase, hp, ih h]

theorem alookup_aerase_ne {β : Type} (l : List (Nat × β)) (k k' : Nat) (h : k' ≠ k) :
    alookup (aerase l k) k' = alookup l k' := by
  induction l with
  | nil => simp [aerase]
  | cons p rest ih =>
    obtain ⟨a, b⟩ := p
    by_cases hp : a = k
    · have hpk' : ¬ a = k' := by rw [hp]; exact fun hh => h hh.symm
      have h2 : ¬ k = k' := fun hh => h hh.symm
      simp [aerase, alookup, hp, hpk', h2]
    · by_cases hq : a = k'
      · subst hq
        simp [aerase, alookup, hp, ih]
      · simp [aerase, alookup, hp, hq, ih]

theorem aset_present_same {β : Type} {l : List (Nat × β)} {k : Nat} {v : β}
    (h : alookup l k = some v) : aset l k v = l := by
  unfold aset
  rw [h]
  simp only [Option.isSome_some, if_true]
  exact aupd_id h rfl

theorem alookup_aset_absent {β : Type} {l : List (Nat × β)} {k : Nat} (v : β)
    (h : alookup l k = none) :
    aset l k v = l ++ [(k, v)] := by
  unfold aset
  rw [h]
  simp

theorem keys_aupd {β : Type} (l : List (Nat × β)) (k : Nat) (f : β → β) :
    (aupd l k f).map Prod.fst = l.map Prod.fst := by
  induction l with
  | nil => rfl
  | cons p rest ih =>
    unfold aupd
    split_ifs with h
    · simp
    · simp [ih]

theorem isSome_alookup_aupd {β : Type} (l : List (Nat × β)) (k k' : Nat)
    (f : β → β) :
    (alookup (aupd l k f) k').isSome = (alookup l k').isSome := by
  rw [alookup_aupd]
  split_ifs with h <;> simp [h]

theorem aerase_absent {β : Type} {l : List (Nat × β)} {k : Nat}
    (h : alookup l k = none) : aerase l k = l := by
  induction l with
  | nil => rfl
  | cons p rest ih =>
    unfold aerase
    unfold alookup at h
    split_ifs with hp
    · rw [hp] at h; simp at h
    · rw [ih]
      rw [if_neg hp] at h
      exact h

theorem alookup_none_iff_keys {β : Type} (l : List (Nat × β)) (k : Nat) :
    alookup l k = none ↔ k ∉ l.map Prod.fst := by
  induction l with
  | nil => simp [alookup]
  | cons p rest ih =>
    unfold alookup
    split_ifs with hp
    · simp [hp]
    · simp only [List.map_cons, List.mem_cons]
      rw [ih]
      constructor
      · intro hn hm
        rcases hm with hm | hm
        · exact hp hm.symm
        · exact hn hm
      · intro hn hm
        exact hn (Or.inr hm)

theorem alookup_aerase_self_of_nodup {β : Type} {l : List (Nat × β)} {k : Nat}
    (h : (l.map Prod.fst).Nodup) : alookup (aerase l k) k = none := by
  induction l with
  | nil => rfl
  | cons p rest ih =>
    unfold aerase
    simp only [List.map_cons, List.nodup_cons] at h
    split_ifs with hp
    · exact (alookup_none_iff_keys rest k).mpr (hp ▸ h.1)
    · unfold alookup
      rw [if_neg hp]
      exact ih h.2

theorem keys_aerase_sublist {β : Type} (l : List (Nat × β)) (k : Nat) :
    ((aerase l k).map Prod.fst).Sublist (l.map Prod.fst) := by
  induction l with
  | nil => exact List.Sublist.refl _
  | cons p rest ih =>
    unfold aerase
    split_ifs with hp
    · simp
    · simpa using List.Sublist.cons₂ p.1 ih

theorem nodup_aerase {β : Type} {l : List (Nat × β)} (k : Nat)
    (h : (l.map Prod.fst).Nodup) : ((aerase l k).map Prod.fst).Nodup :=
  h.sublist (keys_aerase_sublist l k)

theorem nodup_aset {β : Type} {l : List (Nat × β)} {k : Nat} (v : β)
    (h : (l.map Prod.fst).Nodup) : ((aset l k v).map Prod.fst).Nodup := by
  unfold aset
  split_ifs with hs
  · rw [keys_aupd]; exact h
  · rw [List.map_append]
    refine List.Nodup.append h (by simp) ?_
    intro a ha hb
    simp only [List.map_cons, List.map_nil, List.mem_singleton] at hb
    subst hb
    have : alookup l a = none := by
      cases hl : alookup l a with
      | none => rfl
      | some w => rw [hl] at hs; simp at hs
    exact (alookup_none_iff_keys l a).mp this ha

/-! ### Claim C9 -/

/-- Claim C9: `hasLayer(id)` called with the configured mesh layer id returns
true iff both mesh vertices and mesh faces are currently set (it reports mesh
presence, not a static layer); for every other id it returns whether a
configured static layer with that id exists. -/
theorem claim_C9_hasLayer_mesh_vs_static (g : Graph) (id : LayerId) :
    g.hasLayerB id = true ↔
      (if id = g.meshLayerId then
        g.meshVertices.isSome = true ∧ g.meshFacesSet = true
       else (alookup g.layers id).isSome = true) := by
  unfold Graph.hasLayerB Graph.hasMeshB
  by_cases h : id = g.meshLayerId <;> simp [h]

/-! ### Mesh-edge removal preserves everything but the mesh-edge table -/

theorem removeMeshEdge_core (g : Graph) (s : NodeId) (v : Nat) :
    (g.removeMeshEdge s v).2.layers = g.layers ∧
    (g.removeMeshEdge s v).2.dynLayers = g.dynLayers ∧
    (g.removeMeshEdge s v).2.nodeLookup = g.nodeLookup ∧
    (g.removeMeshEdge s v).2.meshVertices = g.meshVertices ∧
    (g.removeMeshEdge s v).2.meshFacesSet = g.meshFacesSet ∧
    (g.removeMeshEdge s v).2.interlayerEdges = g.interlayerEdges ∧
    (g.removeMeshEdge s v).2.dynInterlayerEdges = g.dynInterlayerEdges := by
  unfold Graph.removeMeshEdge
  split <;> simp

theorem meshRemoveFold_core (l : List (Nat × NodeId × Nat)) (g : Graph) :
    (l.foldl (fun acc me => (acc.removeMeshEdge me.2.1 me.2.2).2) g).layers = g.layers ∧
    (l.foldl (fun acc me => (acc.removeMeshEdge me.2.1 me.2.2).2) g).dynLayers = g.dynLayers ∧
    (l.foldl (fun acc me => (acc.removeMeshEdge me.2.1 me.2.2).2) g).nodeLookup = g.nodeLookup ∧
    (l.foldl (fun acc me => (acc.removeMeshEdge me.2.1 me.2.2).2) g).meshVertices = g.meshVertices ∧
    (l.foldl (fun acc me => (acc.removeMeshEdge me.2.1 me.2.2).2) g).meshFacesSet = g.meshFacesSet ∧
    (l.foldl (fun acc me => (acc.removeMeshEdge me.2.1 me.2.2).2) g).interlayerEdges = g.interlayerEdges ∧
    (l.foldl (fun acc me => (acc.removeMeshEdge me.2.1 me.2.2).2) g).dynInterlayerEdges = g.dynInterlayerEdges := by
  induction l generalizing g with
  | nil => simp
  | cons me rest ih =>
    simp only [List.foldl_cons]
    have h1 := removeMeshEdge_core g me.2.1 me.2.2
    have h2 := ih ((g.removeMeshEdge me.2.1 me.2.2).2)
    exact ⟨h2.1.trans h1.1, (h2.2.1).trans h1.2.1, (h2.2.2.1).trans h1.2.2.1,
      (h2.2.2.2.1).trans h1.2.2.2.1, (h2.2.2.2.2.1).trans h1.2.2.2.2.1,
      (h2.2.2.2.2.2.1).trans h1.2.2.2.2.2.1, (h2.2.2.2.2.2.2).trans h1.2.2.2.2.2.2⟩

theorem setMesh_some_core (g : Graph) (n : Nat) (f b : Bool) :
    (g.setMesh (some n) f b).layers = g.layers ∧
    (g.setMesh (some n) f b).dynLayers = g.dynLayers ∧
    (g.setMesh (some n) f b).nodeLookup = g.nodeLookup ∧
    (g.setMesh (some n) f b).meshVertices = some n := by
  unfold Graph.setMesh
  cases b with
  | true => simp
  | false =>
    simp only [Bool.false_eq_true, if_false]
    have h := meshRemoveFold_core
      (List.filter (fun me => n ≤ me.2.2) g.meshEdges)
      { g with meshVertices := some n, meshFacesSet := f }
    exact ⟨h.1, h.2.1, h.2.2.1, h.2.2.2.1⟩

/-! ### Claim C10 -/

/-- Claim C10: `numNodes()` is the sum of all static-layer node counts, all
dynamic-layer node counts, and the current mesh's vertex count (zero when no
mesh is set); in particular installing a vertex cloud of size `n` changes the
reported count to the node totals plus `n` although no graph node was
inserted (the node index is untouched). -/
theorem claim_C10_numNodes (g : Graph) (n : Nat) (f b : Bool) :
    (g.numNodes = g.staticNodeCount + g.numDynamicNodes +
      (match g.meshVertices with
       | none => 0
       | some m => m)) ∧
    (g.setMesh (some n) f b).numNodes = g.staticNodeCount + g.numDynamicNodes + n ∧
    (g.setMesh (some n) f b).nodeLookup = g.nodeLookup := by
  have h := setMesh_some_core g n f b
  refine ⟨rfl, ?_, h.2.2.1⟩
  unfold Graph.numNodes Graph.numDynamicNodes Graph.staticNodeCount
  rw [h.1, h.2.1, h.2.2.2]

/-! ### Claim C6 -/

theorem removeMeshEdge_meshEdges (g : Graph) (s : NodeId) (v : Nat) :
    (g.removeMeshEdge s v).2.meshEdges =
      g.meshEdges.filter (fun me => !(me.2.1 == s && me.2.2 == v)) := by
  unfold Graph.removeMeshEdge
  by_cases h : g.hasMeshEdgeB s v
  · simp [h]
  · simp only [h, Bool.false_eq_true, if_false]
    refine (List.filter_eq_self.mpr ?_).symm
    intro me hme
    unfold Graph.hasMeshEdgeB at h
    rw [List.any_eq_true] at h
    push_neg at h
    have := h me hme
    simp only [Bool.not_eq_true] at this
    simp [this]

theorem meshRemoveFold_meshEdges (l : List (Nat × NodeId × Nat)) (g : Graph) :
    (l.foldl (fun acc me => (acc.removeMeshEdge me.2.1 me.2.2).2) g).meshEdges =
      g.meshEdges.filter
        (fun me => !(l.any (fun bb => me.2.1 == bb.2.1 && me.2.2 == bb.2.2))) := by
  induction l generalizing g with
  | nil => simp
  | cons bb bs ih =>
    simp only [List.foldl_cons]
    rw [ih, removeMeshEdge_meshEdges, List.filter_filter]
    refine List.filter_congr ?_
    intro me _
    simp only [List.any_cons, Bool.not_or, Bool.and_comm]

/-- Claim C6: `setMesh` with null vertices clears all mesh edges and unsets
the mesh; with non-empty vertices and `invalidate_all_edges = true` it clears
all mesh edges; with `invalidate_all_edges = false` it removes exactly the
mesh edges whose vertex index is at least the new mesh's vertex count, and no
other mesh edge. -/
theorem claim_C6_setMesh (g : Graph) (f ia : Bool) (n : Nat) :
    ((g.setMesh none f ia).meshEdges = [] ∧
      (g.setMesh none f ia).meshVertices = none ∧
      (g.setMesh none f ia).meshFacesSet = false) ∧
    (g.setMesh (some n) f true).meshEdges = [] ∧
    (g.setMesh (some n) f false).meshEdges =
      g.meshEdges.filter (fun me => decide (me.2.2 < n)) := by
  refine ⟨⟨rfl, rfl, rfl⟩, rfl, ?_⟩
  have hrw : (g.setMesh (some n) f false).meshEdges =
      ((g.meshEdges.filter (fun (me : Nat × NodeId × Nat) => decide (n ≤ me.2.2))).foldl
        (fun (acc : Graph) (me : Nat × NodeId × Nat) => (acc.removeMeshEdge me.2.1 me.2.2).2)
        { g with meshVertices := some n, meshFacesSet := f }).meshEdges := rfl
  rw [hrw, meshRemoveFold_meshEdges]
  show g.meshEdges.filter _ = g.meshEdges.filter _
  refine List.filter_congr ?_
  intro me hme
  by_cases hv : me.2.2 < n
  · have hfalse : (g.meshEdges.filter (fun bb => n ≤ bb.2.2)).any
        (fun bb => me.2.1 == bb.2.1 && me.2.2 == bb.2.2) = false := by
      rw [List.any_eq_false]
      intro bb hbb
      have hge : n ≤ bb.2.2 := by
        have := List.of_mem_filter hbb
        simpa using this
      intro hcontra
      rw [Bool.and_eq_true, beq_iff_eq, beq_iff_eq] at hcontra
      rw [hcontra.2] at hv
      exact absurd hge (Nat.not_le.mpr hv)
    simp [hfalse, hv]
  · have hmem : me ∈ g.meshEdges.filter (fun bb => n ≤ bb.2.2) := by
      refine List.mem_filter.mpr ⟨hme, ?_⟩
      simpa using Nat.le_of_not_lt hv
    have htrue : (g.meshEdges.filter (fun bb => n ≤ bb.2.2)).any
        (fun bb => me.2.1 == bb.2.1 && me.2.2 == bb.2.2) = true := by
      rw [List.any_eq_true]
      exact ⟨me, hmem, by simp⟩
    simp [htrue, hv]

/-! ### Claims C1, C2, C3: concrete evaluations exhibiting the divergences -/

/-- Claim C1 (evaluation at the failing input): removing the dynamic node of
the demo scenario returns true, yet the sibling interlayer edge between node
10 and the removed id is still stored in the dynamic interlayer set, and node
10's sibling field still references the removed id — `removeNode` unwinds
mesh edges, the parent edge and child edges, but not sibling references. -/
theorem claim_C1_removeNode_sibling_leak :
    (demoLinked.removeNode demoDyn).1 = true ∧
    containsEdge demoRemoved.dynInterlayerEdges 10 demoDyn = true ∧
    (demoRemoved.getNodeRec ⟨2, 0, false⟩ 10).map NodeRec.siblings = some [demoDyn] ∧
    alookup demoRemoved.nodeLookup demoDyn = none := by
  decide

/-- Claim C2 (evaluation at the failing input): after the dynamic node of the
demo scenario is removed (leaving its sibling edge dangling in the dynamic
interlayer set), re-creating the same id as a static node in layer 3 and
re-inserting the edge stores the same unordered pair in the static interlayer
set as well — the pair is now stored in two containers at once. -/
theorem claim_C2_edge_in_two_containers :
    containsEdge
      (((demoRemoved.emplaceNode 3 demoDyn 0).2.insertEdge 10 demoDyn 0).2.interlayerEdges)
      10 demoDyn = true ∧
    containsEdge
      (((demoRemoved.emplaceNode 3 demoDyn 0).2.insertEdge 10 demoDyn 0).2.dynInterlayerEdges)
      10 demoDyn = true := by
  decide

/-- Claim C3 (evaluation at the failing input): rewiring the sibling edge
(10, dynamic node) onto the new pair (10, 20) — both of whose endpoints are
static — stores the rewired edge in the DYNAMIC interlayer set, because the
source selects the destination container from `new_source_key.dynamic ||
target_key.dynamic`, consulting the OLD target key (line 892) instead of the
new one. -/
theorem claim_C3_rewire_wrong_container :
    containsEdge
      (demoRewireBase.rewireInterlayerEdge 10 demoDyn 10 20).dynInterlayerEdges 10 20 = true ∧
    containsEdge
      (demoRewireBase.rewireInterlayerEdge 10 demoDyn 10 20).interlayerEdges 10 20 = false ∧
    (alookup demoRewireBase.nodeLookup 10).map LayerKey.dyn = some false ∧
    (alookup demoRewireBase.nodeLookup 20).map LayerKey.dyn = some false := by
  decide

/-! ### Structural lemmas about node mutation -/

theorem modifyNode_fields (g : Graph) (k : LayerKey) (id : NodeId) (f : NodeRec → NodeRec) :
    (g.modifyNode k id f).nodeLookup = g.nodeLookup ∧
    (g.modifyNode k id f).interlayerEdges = g.interlayerEdges ∧
    (g.modifyNode k id f).dynInterlayerEdges = g.dynInterlayerEdges ∧
    (g.modifyNode k id f).meshVertices = g.meshVertices ∧
    (g.modifyNode k id f).meshFacesSet = g.meshFacesSet ∧
    (g.modifyNode k id f).meshEdges = g.meshEdges ∧
    (g.modifyNode k id f).nextMeshEdgeIdx = g.nextMeshEdgeIdx ∧
    (g.modifyNode k id f).meshLayerId = g.meshLayerId := by
  unfold Graph.modifyNode
  split <;> simp

theorem modifyNode_eq_false {k : LayerKey} (g : Graph) (id : NodeId)
    (f : NodeRec → NodeRec) (h : k.dyn = false) :
    g.modifyNode k id f =
      { g with layers := (aupd g.layers k.layer
          (fun l => { l with nodes := aupd l.nodes id f })) } := by
  unfold Graph.modifyNode
  rw [h]
  simp

theorem modifyNode_eq_true {k : LayerKey} (g : Graph) (id : NodeId)
    (f : NodeRec → NodeRec) (h : k.dyn = true) :
    g.modifyNode k id f =
      { g with dynLayers := (aupd g.dynLayers k.layer
          (fun grp => aupd grp k.pfx
            (fun dl => { dl with nodes := aupd dl.nodes id f }))) } := by
  unfold Graph.modifyNode
  rw [h]
  simp

theorem getNodeRec_eq_false {k : LayerKey} (g : Graph) (id : NodeId) (h : k.dyn = false) :
    g.getNodeRec k id =
      (match alookup g.layers k.layer with
       | none => none
       | some l => alookup l.nodes id) := by
  unfold Graph.getNodeRec
  rw [h]
  simp

theorem getNodeRec_eq_true {k : LayerKey} (g : Graph) (id : NodeId) (h : k.dyn = true) :
    g.getNodeRec k id =
      (match alookup g.dynLayers k.layer with
       | none => none
       | some grp =>
         match alookup grp k.pfx with
         | none => none
         | some dl => alookup dl.nodes id) := by
  unfold Graph.getNodeRec
  rw [h]
  simp

theorem layerEdges_eq_false {k : LayerKey} (g : Graph) (h : k.dyn = false) :
    g.layerEdges k =
      (match alookup g.layers k.layer with
       | none => []
       | some l => l.edges) := by
  unfold Graph.layerEdges
  rw [h]
  simp

theorem layerEdges_eq_true {k : LayerKey} (g : Graph) (h : k.dyn = true) :
    g.layerEdges k =
      (match alookup g.dynLayers k.layer with
       | none => []
       | some grp =>
         match alookup grp k.pfx with
         | none => []
         | some dl => dl.edges) := by
  unfold Graph.layerEdges
  rw [h]
  simp

theorem getNodeRec_modifyNode (g : Graph) (k : LayerKey) (id : NodeId)
    (f : NodeRec → NodeRec) (k' : LayerKey) (id' : NodeId) :
    (g.modifyNode k id f).getNodeRec k' id' =
      if keyEq k' k = true ∧ id' = id then (g.getNodeRec k' id').map f
      else g.getNodeRec k' id' := by
  cases hkd : k.dyn with
  | false =>
    rw [modifyNode_eq_false g id f hkd]
    cases hk'd : k'.dyn with
    | true =>
      have hkey : keyEq k' k = false := by simp [keyEq, hkd, hk'd]
      rw [getNodeRec_eq_true _ id' hk'd, getNodeRec_eq_true _ id' hk'd]
      simp [hkey]
    | false =>
      rw [getNodeRec_eq_false _ id' hk'd, getNodeRec_eq_false _ id' hk'd]
      simp only
      by_cases hl : k'.layer = k.layer
      · have hkey : keyEq k' k = true := by simp [keyEq, hkd, hk'd, hl]
        simp only [hkey, true_and]
        cases hg : alookup g.layers k.layer with
        | none => simp [alookup_aupd, hl, hg]
        | some l => by_cases hid : id' = id <;> simp [alookup_aupd, hl, hg, hid]
      · have hkey : keyEq k' k = false := by simp [keyEq, hkd, hk'd, hl]
        simp only [hkey, Bool.false_eq_true, false_and, if_false]
        simp [alookup_aupd, hl]
  | true =>
    rw [modifyNode_eq_true g id f hkd]
    cases hk'd : k'.dyn with
    | false =>
      have hkey : keyEq k' k = false := by simp [keyEq, hkd, hk'd]
      rw [getNodeRec_eq_false _ id' hk'd, getNodeRec_eq_false _ id' hk'd]
      simp [hkey]
    | true =>
      rw [getNodeRec_eq_true _ id' hk'd, getNodeRec_eq_true _ id' hk'd]
      simp only
      by_cases hl : k'.layer = k.layer
      · by_cases hpx : k'.pfx = k.pfx
        · have hkey : keyEq k' k = true := by simp [keyEq, hkd, hk'd, hl, hpx]
          simp only [hkey, true_and]
          cases hg : alookup g.dynLayers k.layer with
          | none => simp [alookup_aupd, hl, hg]
          | some grp =>
            cases hgp : alookup grp k.pfx with
            | none => simp [alookup_aupd, hl, hpx, hg, hgp]
            | some dl =>
              by_cases hid : id' = id <;> simp [alookup_aupd, hl, hpx, hg, hgp, hid]
        · have hkey : keyEq k' k = false := by simp [keyEq, hkd, hk'd, hl, hpx]
          simp only [hkey, Bool.false_eq_true, false_and, if_false]
          cases hg : alookup g.dynLayers k.layer with
          | none => simp [alookup_aupd, hl, hg]
          | some grp => simp [alookup_aupd, hl, hpx, hg]
      · have hkey : keyEq k' k = false := by simp [keyEq, hkd, hk'd, hl]
        simp only [hkey, Bool.false_eq_true, false_and, if_false]
        simp [alookup_aupd, hl]

theorem layerEdges_modifyNode (g : Graph) (k : LayerKey) (id : NodeId)
    (f : NodeRec → NodeRec) (k' : LayerKey) :
    (g.modifyNode k id f).layerEdges k' = g.layerEdges k' := by
  cases hkd : k.dyn with
  | false =>
    rw [modifyNode_eq_false g id f hkd]
    cases hk'd : k'.dyn with
    | true => rw [layerEdges_eq_true _ hk'd, layerEdges_eq_true _ hk'd]
    | false =>
      rw [layerEdges_eq_false _ hk'd, layerEdges_eq_false _ hk'd]
      simp only
      by_cases hl : k'.layer = k.layer
      · cases hg : alookup g.layers k.layer with
        | none => simp [alookup_aupd, hl, hg]
        | some l => simp [alookup_aupd, hl, hg]
      · simp [alookup_aupd, hl]
  | true =>
    rw [modifyNode_eq_true g id f hkd]
    cases hk'd : k'.dyn with
    | false => rw [layerEdges_eq_false _ hk'd, layerEdges_eq_false _ hk'd]
    | true =>
      rw [layerEdges_eq_true _ hk'd, layerEdges_eq_true _ hk'd]
      simp only
      by_cases hl : k'.layer = k.layer
      · cases hg : alookup g.dynLayers k.layer with
        | none => simp [alookup_aupd, hl, hg]
        | some grp =>
          by_cases hpx : k'.pfx = k.pfx
          · cases hgp : alookup grp k.pfx with
            | none => simp [alookup_aupd, hl, hpx, hg, hgp]
            | some dl => simp [alookup_aupd, hl, hpx, hg, hgp]
          · simp [alookup_aupd, hl, hpx, hg]
      · simp [alookup_aupd, hl]

theorem keyEq_refl (k : LayerKey) : keyEq k k = true := by
  simp [keyEq]

theorem keyEq_false_of_layer_ne {a b : LayerKey} (h : a.layer ≠ b.layer) :
    keyEq a b = false := by
  simp [keyEq]
  intro _ hc
  exact absurd hc h

theorem insertSet_mem (l : List NodeId) (x : NodeId) : x ∈ insertSet l x := by
  unfold insertSet
  by_cases h : x ∈ l <;> simp [h]

theorem getNodeRec_setInter (g : Graph) (x : List EdgeRec) (k : LayerKey) (i : NodeId) :
    ({ g with interlayerEdges := x } : Graph).getNodeRec k i = g.getNodeRec k i := rfl

theorem getNodeRec_setDynInter (g : Graph) (x : List EdgeRec) (k : LayerKey) (i : NodeId) :
    ({ g with dynInterlayerEdges := x } : Graph).getNodeRec k i = g.getNodeRec k i := rfl

theorem addAncestry_parent_case {g : Graph} {s t : NodeId} {sk tk : LayerKey}
    {sn tn : NodeRec} (hsn : g.getNodeRec sk s = some sn) (htn : g.getNodeRec tk t = some tn)
    (hp : sk.isParent tk = true) (hnp : tn.parent = none) :
    g.addAncestry s t sk tk =
      some ((g.modifyNode sk s (fun n => { n with children := insertSet n.children t })).modifyNode
        tk t (fun n => { n with parent := some s })) := by
  unfold Graph.addAncestry
  rw [hsn, htn]
  simp [hp, hnp]

theorem addAncestry_none_of_parent {g : Graph} {s t : NodeId} {sk tk : LayerKey}
    (h : (sk.isParent tk = true ∧
            ∃ tn, g.getNodeRec tk t = some tn ∧ tn.parent.isSome = true) ∨
         (tk.isParent sk = true ∧ sk.isParent tk = false ∧
            ∃ sn, g.getNodeRec sk s = some sn ∧ sn.parent.isSome = true)) :
    g.addAncestry s t sk tk = none := by
  unfold Graph.addAncestry
  cases hsn : g.getNodeRec sk s with
  | none => rfl
  | some sn =>
    cases htn : g.getNodeRec tk t with
    | none => rfl
    | some tn =>
      rcases h with ⟨hp, tn', htn', hps⟩ | ⟨hp, hnp, sn', hsn', hps⟩
      · rw [htn] at htn'
        cases htn'
        simp [hp, hps]
      · rw [hsn] at hsn'
        cases hsn'
        simp [hp, hnp, hps]

/-! ### Claim C4 -/

/-- Claim C4: in a graph whose interlayer edges and ancestry bookkeeping are
coherent, for distinct existing nodes `a` (static, coarser layer) and `b`
(finer layer) where `b` has no parent, `insertEdge(a, b)` returns true, sets
`b`'s parent to `a`, and adds `b` to `a`'s children; and whenever an
`insertEdge` call would imply a parent/child relation but the implied child
already has a parent, `insertEdge` returns false and leaves the graph
entirely unchanged. -/
theorem claim_C4_insertEdge_ancestry :
    (∀ (g : Graph) (a b : NodeId) (ka kb : LayerKey) (na nb : NodeRec) (info : Attrs),
      g.ancestryCoherent →
      alookup g.nodeLookup a = some ka →
      alookup g.nodeLookup b = some kb →
      ka.dyn = false →
      kb.layer < ka.layer →
      g.getNodeRec ka a = some na →
      g.getNodeRec kb b = some nb →
      nb.parent = none →
      (g.insertEdge a b info).1 = true ∧
      (g.insertEdge a b info).2.getNodeRec kb b =
        some { nb with parent := some a } ∧
      (∃ na', (g.insertEdge a b info).2.getNodeRec ka a = some na' ∧ b ∈ na'.children)) ∧
    (∀ (g : Graph) (a b : NodeId) (ka kb : LayerKey) (info : Attrs),
      alookup g.nodeLookup a = some ka →
      alookup g.nodeLookup b = some kb →
      ((ka.isParent kb = true ∧ ∃ nb, g.getNodeRec kb b = some nb ∧ nb.parent.isSome = true) ∨
       (kb.isParent ka = true ∧ ∃ na, g.getNodeRec ka a = some na ∧ na.parent.isSome = true)) →
      g.insertEdge a b info = (false, g)) := by
  constructor
  · intro g a b ka kb na nb info hco ha hb hkd hlt hna hnb hnp
    have hlne : kb.layer ≠ ka.layer := Nat.ne_of_lt hlt
    have hkey : keyEq ka kb = false := keyEq_false_of_layer_ne (fun hh => hlne hh.symm)
    have hnoedge : g.edgeStored ka kb a b = false := by
      unfold Graph.edgeStored
      rw [hkey]
      simp only [Bool.false_eq_true, if_false]
      have hcontains : ∀ (c : List EdgeRec),
          (∀ e ∈ c, e ∈ g.interlayerEdges ∨ e ∈ g.dynInterlayerEdges) →
          containsEdge c a b = false := by
        intro c hc
        rw [containsEdge, List.any_eq_false]
        intro e he
        intro hmatch
        obtain ⟨sk', tk', hs', ht', hcoh1, hcoh2⟩ := hco e (hc e he)
        rw [edgeMatches, Bool.or_eq_true, Bool.and_eq_true, Bool.and_eq_true] at hmatch
        rcases hmatch with ⟨hes, het⟩ | ⟨hes, het⟩
        · rw [beq_iff_eq] at hes het
          rw [hes] at hs'
          rw [het] at ht'
          rw [ha] at hs'
          rw [hb] at ht'
          cases hs'
          cases ht'
          obtain ⟨n, hn, hpar⟩ := hcoh1 hlt
          rw [het] at hn
          rw [hnb] at hn
          cases hn
          rw [hnp] at hpar
          exact Option.noConfusion hpar
        · rw [beq_iff_eq] at hes het
          rw [hes] at hs'
          rw [het] at ht'
          rw [hb] at hs'
          rw [ha] at ht'
          cases hs'
          cases ht'
          obtain ⟨n, hn, hpar⟩ := hcoh2 hlt
          rw [hes] at hn
          rw [hnb] at hn
          cases hn
          rw [hnp] at hpar
          exact Option.noConfusion hpar
      cases hdd : ka.dyn || kb.dyn with
      | true =>
        simp only [if_true]
        exact hcontains _ (fun e he => Or.inr he)
      | false =>
        simp only [Bool.false_eq_true, if_false]
        exact hcontains _ (fun e he => Or.inl he)
    have hip : ka.isParent kb = true := by
      unfold LayerKey.isParent
      exact decide_eq_true hlt
    have hadd := addAncestry_parent_case hna hnb hip hnp
    have hres : g.insertEdge a b info =
        (true,
          (if (ka.dyn || kb.dyn) = true then
            { ((g.modifyNode ka a (fun n => { n with children := insertSet n.children b })).modifyNode
                kb b (fun n => { n with parent := some a })) with
              dynInterlayerEdges :=
                ((g.modifyNode ka a (fun n => { n with children := insertSet n.children b })).modifyNode
                  kb b (fun n => { n with parent := some a })).dynInterlayerEdges ++ [⟨a, b, info⟩] }
          else
            { ((g.modifyNode ka a (fun n => { n with children := insertSet n.children b })).modifyNode
                kb b (fun n => { n with parent := some a })) with
              interlayerEdges :=
                ((g.modifyNode ka a (fun n => { n with children := insertSet n.children b })).modifyNode
                  kb b (fun n => { n with parent := some a })).interlayerEdges ++ [⟨a, b, info⟩] })) := by
      unfold Graph.insertEdge
      rw [ha, hb]
      simp only [hnoedge, Bool.false_eq_true, if_false, hkey, hadd]
      cases hdd : ka.dyn || kb.dyn <;> simp
    have hgetb : ∀ (gx : Graph), gx =
        ((g.modifyNode ka a (fun n => { n with children := insertSet n.children b })).modifyNode
          kb b (fun n => { n with parent := some a })) →
        gx.getNodeRec kb b = some { nb with parent := some a } := by
      intro gx hgx
      subst hgx
      rw [getNodeRec_modifyNode]
      have : keyEq kb kb = true ∧ b = b := ⟨keyEq_refl kb, rfl⟩
      rw [if_pos this]
      rw [getNodeRec_modifyNode]
      have hkba : keyEq kb ka = false := keyEq_false_of_layer_ne hlne
      simp only [hkba, Bool.false_eq_true, false_and, if_false]
      rw [hnb]
      rfl
    have hgeta : ∀ (gx : Graph), gx =
        ((g.modifyNode ka a (fun n => { n with children := insertSet n.children b })).modifyNode
          kb b (fun n => { n with parent := some a })) →
        ∃ na', gx.getNodeRec ka a = some na' ∧ b ∈ na'.children := by
      intro gx hgx
      subst hgx
      rw [getNodeRec_modifyNode]
      have hkab : keyEq ka kb = false := hkey
      simp only [hkab, Bool.false_eq_true, false_and, if_false]
      rw [getNodeRec_modifyNode]
      have : keyEq ka ka = true ∧ a = a := ⟨keyEq_refl ka, rfl⟩
      rw [if_pos this]
      rw [hna]
      exact ⟨_, rfl, insertSet_mem na.children b⟩
    rw [hres]
    cases hdd : ka.dyn || kb.dyn with
    | true =>
      simp only [if_true]
      refine ⟨by trivial, ?_, ?_⟩
      · rw [getNodeRec_setDynInter]
        exact hgetb _ rfl
      · rw [getNodeRec_setDynInter] at *
        obtain ⟨na', h1, h2⟩ := hgeta _ rfl
        exact ⟨na', by rw [getNodeRec_setDynInter]; exact h1, h2⟩
    | false =>
      simp only [Bool.false_eq_true, if_false]
      refine ⟨by trivial, ?_, ?_⟩
      · rw [getNodeRec_setInter]
        exact hgetb _ rfl
      · obtain ⟨na', h1, h2⟩ := hgeta _ rfl
        exact ⟨na', by rw [getNodeRec_setInter]; exact h1, h2⟩
  · intro g a b ka kb info ha hb h
    have hlne : ka.layer ≠ kb.layer := by
      rcases h with ⟨hp, _⟩ | ⟨hp, _⟩
      · unfold LayerKey.isParent at hp
        exact fun hh => absurd (of_decide_eq_true hp) (by rw [hh]; exact Nat.lt_irrefl _)
      · unfold LayerKey.isParent at hp
        exact fun hh => absurd (of_decide_eq_true hp) (by rw [hh]; exact Nat.lt_irrefl _)
    have hkey : keyEq ka kb = false := keyEq_false_of_layer_ne hlne
    unfold Graph.insertEdge
    rw [ha, hb]
    by_cases hes : g.edgeStored ka kb a b
    · simp [hes]
    · have hnone : g.addAncestry a b ka kb = none := by
        rcases h with ⟨hp, nb, hnb, hps⟩ | ⟨hp, na, hna, hps⟩
        · exact addAncestry_none_of_parent (Or.inl ⟨hp, nb, hnb, hps⟩)
        · have hnp : ka.isParent kb = false := by
            unfold LayerKey.isParent at hp ⊢
            have := of_decide_eq_true hp
            exact decide_eq_false (Nat.not_lt.mpr (Nat.le_of_lt this))
          exact addAncestry_none_of_parent (Or.inr ⟨hp, hnp, na, hna, hps⟩)
      simp [hes, hkey, hnone]

/-- Witness for claim C4 at a concrete input: inserting the edge from coarser
node 20 to finer node 10 succeeds and records the ancestry, and a second
insert from coarser node 30 onto the already-parented node 10 fails without
mutating the graph. -/
theorem claim_C4_witness :
    ((demoC4.insertEdge 20 10 0).1 = true ∧
      (demoC4.insertEdge 20 10 0).2.getNodeRec ⟨2, 0, false⟩ 10 =
        some { attrs := 0, parent := some 20, children := [], siblings := [] } ∧
      (∃ na', (demoC4.insertEdge 20 10 0).2.getNodeRec ⟨3, 0, false⟩ 20 = some na' ∧
        10 ∈ na'.children)) ∧
    demoC4b.insertEdge 30 10 0 = (false, demoC4b) := by
  have hco : demoC4.ancestryCoherent := by
    intro e he
    have h1 : demoC4.interlayerEdges = [] := by decide
    have h2 : demoC4.dynInterlayerEdges = [] := by decide
    rw [h1, h2] at he
    rcases he with h | h <;> exact absurd h (List.not_mem_nil e)
  constructor
  · exact claim_C4_insertEdge_ancestry.1 demoC4 20 10 ⟨3, 0, false⟩ ⟨2, 0, false⟩
      { attrs := 0, parent := none, children := [], siblings := [] }
      { attrs := 0, parent := none, children := [], siblings := [] } 0 hco
      (by decide) (by decide) (by decide) (by decide) (by decide) (by decide) (by decide)
  · exact claim_C4_insertEdge_ancestry.2 demoC4b 30 10 ⟨3, 0, false⟩ ⟨2, 0, false⟩ 0
      (by decide) (by decide)
      (Or.inl ⟨by decide,
        { attrs := 0, parent := some 20, children := [], siblings := [] },
        by decide, by decide⟩)

/-! ### Claim C7 -/

theorem createDynamicLayer_fields (g : Graph) (lid : LayerId) (p : Pfx) :
    (g.createDynamicLayer lid p).nodeLookup = g.nodeLookup ∧
    (g.createDynamicLayer lid p).layers = g.layers ∧
    (g.createDynamicLayer lid p).interlayerEdges = g.interlayerEdges ∧
    (g.createDynamicLayer lid p).dynInterlayerEdges = g.dynInterlayerEdges ∧
    (g.createDynamicLayer lid p).meshEdges = g.meshEdges ∧
    (g.createDynamicLayer lid p).nextMeshEdgeIdx = g.nextMeshEdgeIdx ∧
    (g.createDynamicLayer lid p).meshVertices = g.meshVertices ∧
    (g.createDynamicLayer lid p).meshFacesSet = g.meshFacesSet ∧
    (g.createDynamicLayer lid p).meshLayerId = g.meshLayerId := by
  unfold Graph.createDynamicLayer
  by_cases h : g.hasDynLayer lid p = true
  · simp [h]
  · simp only [h, Bool.false_eq_true, if_false]
    split <;> simp

theorem hasDynLayer_of_lookups {g : Graph} {lid : LayerId} {p : Pfx}
    {grp : List (Pfx × DynLayer)} {dl : DynLayer}
    (hg : alookup g.dynLayers lid = some grp) (hp : alookup grp p = some dl) :
    g.hasDynLayer lid p = true := by
  unfold Graph.hasDynLayer
  simp [hg, hp]

theorem hasDynLayer_elim {g : Graph} {lid : LayerId} {p : Pfx}
    (h : g.hasDynLayer lid p = true) :
    ∃ grp dl, alookup g.dynLayers lid = some grp ∧ alookup grp p = some dl := by
  unfold Graph.hasDynLayer at h
  cases hg : alookup g.dynLayers lid with
  | none => rw [hg] at h; exact absurd h (by simp)
  | some grp =>
    rw [hg] at h
    replace h : (alookup grp p).isSome = true := h
    cases hp : alookup grp p with
    | none => rw [hp] at h; simp at h
    | some dl => exact ⟨grp, dl, rfl, hp⟩

theorem dynNext_eq {g : Graph} {lid : LayerId} {p : Pfx} {grp : List (Pfx × DynLayer)}
    {dl : DynLayer} (hg : alookup g.dynLayers lid = some grp)
    (hp : alookup grp p = some dl) : g.dynNext lid p = dl.next := by
  unfold Graph.dynNext
  simp [hg, hp]

theorem createDynamicLayer_get {g : Graph} {lid : LayerId} {p : Pfx}
    (h : g.hasDynLayer lid p = false) :
    ∃ grp, alookup (g.createDynamicLayer lid p).dynLayers lid = some grp ∧
      alookup grp p = some ⟨[], [], 0⟩ := by
  unfold Graph.createDynamicLayer
  rw [h]
  simp only [Bool.false_eq_true, if_false]
  cases hg : alookup g.dynLayers lid with
  | some grp =>
    have hpn : alookup grp p = none := by
      unfold Graph.hasDynLayer at h
      rw [hg] at h
      replace h : (alookup grp p).isSome = false := h
      cases hpp : alookup grp p with
      | none => rfl
      | some dl => rw [hpp] at h; simp at h
    refine ⟨grp ++ [(p, ⟨[], [], 0⟩)], ?_, ?_⟩
    · simp only [hg, Option.isSome_some, if_true]
      rw [alookup_aupd, if_pos rfl, hg]
      rfl
    · rw [alookup_append_none _ hpn]
      simp [alookup]
  | none =>
    refine ⟨[(p, ⟨[], [], 0⟩)], ?_, by simp [alookup]⟩
    simp only [hg, Option.isSome_none, Bool.false_eq_true, if_false]
    rw [alookup_aupd, if_pos rfl]
    have h2 : alookup (({ g with
        dynLayers := g.dynLayers ++ [(lid, ([] : List (Pfx × DynLayer)))] } : Graph).dynLayers)
        lid = some [] := by
      simp only
      rw [alookup_append_none _ hg]
      simp [alookup]
    rw [h2]
    rfl

theorem createDynamicLayer_has (g : Graph) (lid : LayerId) (p : Pfx) :
    (g.createDynamicLayer lid p).hasDynLayer lid p = true := by
  by_cases h : g.hasDynLayer lid p = true
  · unfold Graph.createDynamicLayer
    rw [h]
    simpa using h
  · have h' : g.hasDynLayer lid p = false := by
      cases hx : g.hasDynLayer lid p
      · rfl
      · exact absurd hx h
    obtain ⟨grp, hg, hp⟩ := createDynamicLayer_get h'
    exact hasDynLayer_of_lookups hg hp

theorem emplaceNodeDyn_eq {g : Graph} {lid : LayerId} {p : Pfx} {attrs : Attrs} {ae : Bool}
    (hcol : (alookup g.nodeLookup
      (makeId p (if g.hasDynLayer lid p = true then g.dynNext lid p else 0))).isSome = false) :
    g.emplaceNodeDyn lid p attrs ae =
      (true,
        { (if g.hasDynLayer lid p = true then g else g.createDynamicLayer lid p) with
          dynLayers := (aupd
            (if g.hasDynLayer lid p = true then g else g.createDynamicLayer lid p).dynLayers lid
            (fun grp => aupd grp p (dynEmplaceStep
              (makeId p (if g.hasDynLayer lid p = true then g.dynNext lid p else 0)) attrs ae
              ((if g.hasDynLayer lid p = true then g
                else g.createDynamicLayer lid p).dynNext lid p) p))),
          nodeLookup :=
            (if g.hasDynLayer lid p = true then g
             else g.createDynamicLayer lid p).nodeLookup ++
            [(makeId p (if g.hasDynLayer lid p = true then g.dynNext lid p else 0),
              ⟨lid, p, true⟩)] }) := by
  unfold Graph.emplaceNodeDyn
  simp only [hcol, Bool.false_eq_true, if_false]

theorem emplaceNodeDyn_fields {g : Graph} {lid : LayerId} {p : Pfx} {attrs : Attrs}
    {ae : Bool}
    (hcol : (alookup g.nodeLookup
      (makeId p (if g.hasDynLayer lid p = true then g.dynNext lid p else 0))).isSome = false) :
    (g.emplaceNodeDyn lid p attrs ae).1 = true ∧
    (g.emplaceNodeDyn lid p attrs ae).2.dynLayers =
      aupd (if g.hasDynLayer lid p = true then g else g.createDynamicLayer lid p).dynLayers lid
        (fun grp => aupd grp p (dynEmplaceStep
          (makeId p (if g.hasDynLayer lid p = true then g.dynNext lid p else 0)) attrs ae
          ((if g.hasDynLayer lid p = true then g
            else g.createDynamicLayer lid p).dynNext lid p) p)) ∧
    (g.emplaceNodeDyn lid p attrs ae).2.nodeLookup =
      (if g.hasDynLayer lid p = true then g
       else g.createDynamicLayer lid p).nodeLookup ++
      [(makeId p (if g.hasDynLayer lid p = true then g.dynNext lid p else 0),
        ⟨lid, p, true⟩)] ∧
    (g.emplaceNodeDyn lid p attrs ae).2.interlayerEdges =
      (if g.hasDynLayer lid p = true then g
       else g.createDynamicLayer lid p).interlayerEdges ∧
    (g.emplaceNodeDyn lid p attrs ae).2.dynInterlayerEdges =
      (if g.hasDynLayer lid p = true then g
       else g.createDynamicLayer lid p).dynInterlayerEdges := by
  rw [emplaceNodeDyn_eq hcol]
  exact ⟨rfl, rfl, rfl, rfl, rfl⟩

/-- Claim C7: the dynamic `emplaceNode` creates the dynamic layer instance on
demand, derives the new node id from the prefix and the instance's sequence
counter, returns false with no mutation when that id already exists anywhere
in the graph, and (with `add_edge`) stores the predecessor-linking edge
inside the dynamic layer's own edge container while leaving both interlayer
edge sets untouched. -/
theorem claim_C7_emplaceNodeDyn :
    (∀ (g : Graph) (lid : LayerId) (p : Pfx) (attrs : Attrs) (ae : Bool),
      (alookup g.nodeLookup
        (makeId p (if g.hasDynLayer lid p = true then g.dynNext lid p else 0))).isSome = true →
      g.emplaceNodeDyn lid p attrs ae = (false, g)) ∧
    (∀ (g : Graph) (lid : LayerId) (p : Pfx) (attrs : Attrs) (ae : Bool),
      (alookup g.nodeLookup
        (makeId p (if g.hasDynLayer lid p = true then g.dynNext lid p else 0))).isSome = false →
      (g.emplaceNodeDyn lid p attrs ae).1 = true ∧
      (g.emplaceNodeDyn lid p attrs ae).2.hasDynLayer lid p = true ∧
      alookup (g.emplaceNodeDyn lid p attrs ae).2.nodeLookup
        (makeId p (if g.hasDynLayer lid p = true then g.dynNext lid p else 0)) =
        some ⟨lid, p, true⟩) ∧
    (∀ (g : Graph) (lid : LayerId) (p : Pfx) (attrs : Attrs) (ae : Bool),
      (g.emplaceNodeDyn lid p attrs ae).2.interlayerEdges = g.interlayerEdges ∧
      (g.emplaceNodeDyn lid p attrs ae).2.dynInterlayerEdges = g.dynInterlayerEdges) ∧
    (∀ (g : Graph) (lid : LayerId) (p : Pfx) (attrs : Attrs),
      g.hasDynLayer lid p = true →
      0 < g.dynNext lid p →
      (g.getNodeRec ⟨lid, p, true⟩ (makeId p (g.dynNext lid p - 1))).isSome = true →
      (alookup g.nodeLookup (makeId p (g.dynNext lid p))).isSome = false →
      containsEdge
        ((g.emplaceNodeDyn lid p attrs true).2.layerEdges ⟨lid, p, true⟩)
        (makeId p (g.dynNext lid p - 1)) (makeId p (g.dynNext lid p)) = true) := by
  refine ⟨?_, ?_, ?_, ?_⟩
  · intro g lid p attrs ae hcol
    unfold Graph.emplaceNodeDyn
    simp [hcol]
  · intro g lid p attrs ae hcol
    obtain ⟨hT, hD, hN, _, _⟩ := @emplaceNodeDyn_fields g lid p attrs ae hcol
    refine ⟨hT, ?_, ?_⟩
    · have h1 : (if g.hasDynLayer lid p = true then g
          else g.createDynamicLayer lid p).hasDynLayer lid p = true := by
        by_cases h : g.hasDynLayer lid p = true
        · rw [if_pos h]; exact h
        · rw [if_neg h]; exact createDynamicLayer_has g lid p
      obtain ⟨grp, dl, hg, hp⟩ := hasDynLayer_elim h1
      unfold Graph.hasDynLayer
      rw [hD, alookup_aupd, if_pos rfl, hg]
      simp [alookup_aupd, hp]
    · rw [hN]
      have hnl : (if g.hasDynLayer lid p = true then g
          else g.createDynamicLayer lid p).nodeLookup = g.nodeLookup := by
        by_cases h : g.hasDynLayer lid p = true
        · rw [if_pos h]
        · rw [if_neg h]; exact (createDynamicLayer_fields g lid p).1
      rw [hnl]
      have hnone : alookup g.nodeLookup
          (makeId p (if g.hasDynLayer lid p = true then g.dynNext lid p else 0)) = none := by
        cases hx : alookup g.nodeLookup
            (makeId p (if g.hasDynLayer lid p = true then g.dynNext lid p else 0)) with
        | none => rfl
        | some v => rw [hx] at hcol; simp at hcol
      rw [alookup_append_none _ hnone]
      simp [alookup]
  · intro g lid p attrs ae
    by_cases hcol : (alookup g.nodeLookup
        (makeId p (if g.hasDynLayer lid p = true then g.dynNext lid p else 0))).isSome = true
    · unfold Graph.emplaceNodeDyn
      simp [hcol]
    · have hcol' : (alookup g.nodeLookup
          (makeId p (if g.hasDynLayer lid p = true then g.dynNext lid p else 0))).isSome = false := by
        cases hx : (alookup g.nodeLookup
            (makeId p (if g.hasDynLayer lid p = true then g.dynNext lid p else 0))).isSome
        · rfl
        · exact absurd hx hcol
      obtain ⟨_, _, _, hI, hDI⟩ := @emplaceNodeDyn_fields g lid p attrs ae hcol'
      constructor
      · rw [hI]
        by_cases h : g.hasDynLayer lid p = true
        · rw [if_pos h]
        · rw [if_neg h]; exact (createDynamicLayer_fields g lid p).2.2.1
      · rw [hDI]
        by_cases h : g.hasDynLayer lid p = true
        · rw [if_pos h]
        · rw [if_neg h]; exact (createDynamicLayer_fields g lid p).2.2.2.1
  · intro g lid p attrs hasL hseq hprev hcol
    have hcol2 : (alookup g.nodeLookup
        (makeId p (if g.hasDynLayer lid p = true then g.dynNext lid p else 0))).isSome = false := by
      rw [if_pos hasL]
      exact hcol
    obtain ⟨_, hD, _, _, _⟩ := @emplaceNodeDyn_fields g lid p attrs true hcol2
    simp only [hasL, eq_self_iff_true, if_true] at hD
    obtain ⟨grp, dl, hg, hp⟩ := hasDynLayer_elim hasL
    have hprevdl : ∃ v, alookup dl.nodes (makeId p (g.dynNext lid p - 1)) = some v := by
      rw [getNodeRec_eq_true _ _ rfl] at hprev
      rw [hg] at hprev
      have h2 : (match alookup grp p with
          | none => none
          | some dl => alookup dl.nodes (makeId p (g.dynNext lid p - 1))).isSome = true := hprev
      rw [hp] at h2
      replace h2 : (alookup dl.nodes (makeId p (g.dynNext lid p - 1))).isSome = true := h2
      cases hx : alookup dl.nodes (makeId p (g.dynNext lid p - 1)) with
      | none => rw [hx] at h2; simp at h2
      | some v => exact ⟨v, rfl⟩
    obtain ⟨v, hv⟩ := hprevdl
    have hlay : (g.emplaceNodeDyn lid p attrs true).2.layerEdges ⟨lid, p, true⟩ =
        (dynEmplaceStep (makeId p (g.dynNext lid p)) attrs true (g.dynNext lid p) p dl).edges := by
      rw [layerEdges_eq_true _ rfl, hD]
      simp [alookup_aupd, hg, hp]
    rw [hlay]
    unfold dynEmplaceStep
    simp [hseq, alookup_append_some _ hv, containsEdge, List.any_append, edgeMatches]

/-- Witness for claim C7 at concrete inputs: a colliding id makes the
dynamic emplace fail without mutation; a fresh emplace succeeds, creates the
instance and registers the derived id; and a linked emplace stores the
predecessor edge in the dynamic layer's own container. -/
theorem claim_C7_witness :
    demoC7col.emplaceNodeDyn 2 5 7 false = (false, demoC7col) ∧
    (demoBase.emplaceNodeDyn 2 5 7 false).1 = true ∧
    (demoBase.emplaceNodeDyn 2 5 7 false).2.hasDynLayer 2 5 = true ∧
    alookup (demoBase.emplaceNodeDyn 2 5 7 false).2.nodeLookup
      (makeId 5 (if demoBase.hasDynLayer 2 5 = true then demoBase.dynNext 2 5 else 0)) =
      some ⟨2, 5, true⟩ ∧
    containsEdge ((demoBase.emplaceNodeDyn 2 5 7 true).2.layerEdges ⟨2, 5, true⟩)
      (makeId 5 (demoBase.dynNext 2 5 - 1)) (makeId 5 (demoBase.dynNext 2 5)) = true := by
  refine ⟨?_, ?_, ?_, ?_, ?_⟩
  · exact claim_C7_emplaceNodeDyn.1 demoC7col 2 5 7 false (by decide)
  · exact (claim_C7_emplaceNodeDyn.2.1 demoBase 2 5 7 false (by decide)).1
  · exact (claim_C7_emplaceNodeDyn.2.1 demoBase 2 5 7 false (by decide)).2.1
  · exact (claim_C7_emplaceNodeDyn.2.1 demoBase 2 5 7 false (by decide)).2.2
  · exact claim_C7_emplaceNodeDyn.2.2.2 demoBase 2 5 7 (by decide) (by decide)
      (by decide) (by decide)

/-! ### The mesh-edge id counter never decreases -/

theorem nextIdx_modifyNode (g : Graph) (k : LayerKey) (id : NodeId) (f : NodeRec → NodeRec) :
    (g.modifyNode k id f).nextMeshEdgeIdx = g.nextMeshEdgeIdx :=
  (modifyNode_fields g k id f).2.2.2.2.2.2.1

theorem nextIdx_foldl_eq {α : Type} (f : Graph → α → Graph) (l : List α) (g : Graph)
    (h : ∀ acc x, (f acc x).nextMeshEdgeIdx = acc.nextMeshEdgeIdx) :
    (l.foldl f g).nextMeshEdgeIdx = g.nextMeshEdgeIdx := by
  induction l generalizing g with
  | nil => rfl
  | cons x xs ih => rw [List.foldl_cons, ih (f g x), h g x]

theorem nextIdx_foldl_le {α : Type} (f : Graph → α → Graph) (l : List α) (g : Graph)
    (h : ∀ acc x, acc.nextMeshEdgeIdx ≤ (f acc x).nextMeshEdgeIdx) :
    g.nextMeshEdgeIdx ≤ (l.foldl f g).nextMeshEdgeIdx := by
  induction l generalizing g with
  | nil => exact Nat.le_refl _
  | cons x xs ih => exact Nat.le_trans (h g x) (ih (f g x))

theorem nextIdx_removeAncestry (g : Graph) (s t : NodeId) (sk tk : LayerKey) :
    (g.removeAncestry s t sk tk).nextMeshEdgeIdx = g.nextMeshEdgeIdx := by
  unfold Graph.removeAncestry
  split_ifs <;> rw [nextIdx_modifyNode, nextIdx_modifyNode]

theorem addAncestry_some_nextIdx {g : Graph} {s t : NodeId} {sk tk : LayerKey} {g' : Graph}
    (h : g.addAncestry s t sk tk = some g') :
    g'.nextMeshEdgeIdx = g.nextMeshEdgeIdx := by
  unfold Graph.addAncestry at h
  split at h
  · split_ifs at h <;>
      (injection h with h; subst h; rw [nextIdx_modifyNode, nextIdx_modifyNode])
  · exact absurd h (by simp)

theorem nextIdx_removeInterlayerEdge (g : Graph) (s t : NodeId) (sk tk : LayerKey) :
    (g.removeInterlayerEdge s t sk tk).nextMeshEdgeIdx = g.nextMeshEdgeIdx := by
  unfold Graph.removeInterlayerEdge
  split_ifs <;> simp [nextIdx_removeAncestry]

theorem nextIdx_removeInterlayerEdge2 (g : Graph) (s t : NodeId) :
    (g.removeInterlayerEdge2 s t).nextMeshEdgeIdx = g.nextMeshEdgeIdx := by
  unfold Graph.removeInterlayerEdge2
  split
  · exact nextIdx_removeInterlayerEdge _ _ _ _ _
  · rfl

theorem nextIdx_layerInsertEdge (g : Graph) (k : LayerKey) (s t : NodeId) (i : Attrs) :
    (g.layerInsertEdge k s t i).2.nextMeshEdgeIdx = g.nextMeshEdgeIdx := by
  unfold Graph.layerInsertEdge
  split
  · split
    · rfl
    · split
      · rfl
      · split_ifs <;> rfl
  · split
    · rfl
    · split_ifs <;> rfl

theorem nextIdx_insertEdge (g : Graph) (s t : NodeId) (i : Attrs) :
    (g.insertEdge s t i).2.nextMeshEdgeIdx = g.nextMeshEdgeIdx := by
  unfold Graph.insertEdge
  split
  · split_ifs with h1 h2 h3
    · rfl
    · exact nextIdx_layerInsertEdge _ _ _ _ _
    · split
      · rfl
      · rename_i g1 heq
        simp [addAncestry_some_nextIdx heq]
    · split
      · rfl
      · rename_i g1 heq
        simp [addAncestry_some_nextIdx heq]
  · rfl

theorem nextIdx_removeEdge (g : Graph) (s t : NodeId) :
    (g.removeEdge s t).2.nextMeshEdgeIdx = g.nextMeshEdgeIdx := by
  unfold Graph.removeEdge
  split
  · split_ifs <;> first | rfl | simp [nextIdx_removeInterlayerEdge]
  · rfl

theorem nextIdx_removeMeshEdge_le (g : Graph) (s : NodeId) (v : Nat) :
    g.nextMeshEdgeIdx ≤ (g.removeMeshEdge s v).2.nextMeshEdgeIdx := by
  unfold Graph.removeMeshEdge
  split_ifs <;> simp

theorem nextIdx_layerRemoveNode (g : Graph) (k : LayerKey) (id : NodeId) :
    (g.layerRemoveNode k id).nextMeshEdgeIdx = g.nextMeshEdgeIdx := by
  unfold Graph.layerRemoveNode
  split_ifs <;> rfl

theorem nextIdx_removeNode_le (g : Graph) (id : NodeId) :
    g.nextMeshEdgeIdx ≤ (g.removeNode id).2.nextMeshEdgeIdx := by
  unfold Graph.removeNode
  split
  · exact Nat.le_refl _
  · simp only
    have hmesh : ∀ (l : List Nat), g.nextMeshEdgeIdx ≤
        (l.foldl (fun acc v => (acc.removeMeshEdge id v).2) g).nextMeshEdgeIdx :=
      fun l => nextIdx_foldl_le _ l g (fun acc v => nextIdx_removeMeshEdge_le acc id v)
    have hrest : ∀ (gg : Graph) (key : LayerKey),
        ((match gg.getNodeRec key id with
          | none => gg
          | some n =>
            (n.children.foldl (fun acc c => acc.removeInterlayerEdge2 id c)
              (match n.parent with
               | some p => gg.removeInterlayerEdge2 id p
               | none => gg))).layerRemoveNode key id).nextMeshEdgeIdx =
          gg.nextMeshEdgeIdx := by
      intro gg key
      rw [nextIdx_layerRemoveNode]
      split
      · rfl
      · rw [nextIdx_foldl_eq]
        · split
          · rw [nextIdx_removeInterlayerEdge2]
          · rfl
        · intro acc c
          exact nextIdx_removeInterlayerEdge2 acc id c
    exact Nat.le_trans (hmesh _) (Nat.le_of_eq (hrest _ _).symm)

theorem nextIdx_emplaceNode (g : Graph) (lid : LayerId) (id : NodeId) (attrs : Attrs) :
    (g.emplaceNode lid id attrs).2.nextMeshEdgeIdx = g.nextMeshEdgeIdx := by
  unfold Graph.emplaceNode
  split
  · rfl
  · split_ifs <;> rfl

theorem nextIdx_createDynamicLayer (g : Graph) (lid : LayerId) (p : Pfx) :
    (g.createDynamicLayer lid p).nextMeshEdgeIdx = g.nextMeshEdgeIdx :=
  (createDynamicLayer_fields g lid p).2.2.2.2.2.1

theorem nextIdx_emplaceNodeDyn (g : Graph) (lid : LayerId) (p : Pfx) (attrs : Attrs)
    (ae : Bool) :
    (g.emplaceNodeDyn lid p attrs ae).2.nextMeshEdgeIdx = g.nextMeshEdgeIdx := by
  by_cases h : (alookup g.nodeLookup
      (makeId p (if g.hasDynLayer lid p = true then g.dynNext lid p else 0))).isSome = true
  · unfold Graph.emplaceNodeDyn
    simp [h]
  · have h' : (alookup g.nodeLookup
        (makeId p (if g.hasDynLayer lid p = true then g.dynNext lid p else 0))).isSome = false := by
      cases hx : (alookup g.nodeLookup
          (makeId p (if g.hasDynLayer lid p = true then g.dynNext lid p else 0))).isSome
      · rfl
      · exact absurd hx h
    rw [emplaceNodeDyn_eq h']
    show (if g.hasDynLayer lid p = true then g
      else g.createDynamicLayer lid p).nextMeshEdgeIdx = g.nextMeshEdgeIdx
    by_cases h2 : g.hasDynLayer lid p = true
    · rw [if_pos h2]
    · rw [if_neg h2]
      exact nextIdx_createDynamicLayer g lid p

theorem nextIdx_insertMeshEdge_le (g : Graph) (s : NodeId) (v : Nat) (ai : Bool) :
    g.nextMeshEdgeIdx ≤ (g.insertMeshEdge s v ai).2.nextMeshEdgeIdx := by
  unfold Graph.insertMeshEdge
  split_ifs <;> simp

theorem nextIdx_setMesh_le (g : Graph) (vs : Option Nat) (f ia : Bool) :
    g.nextMeshEdgeIdx ≤ (g.setMesh vs f ia).nextMeshEdgeIdx := by
  unfold Graph.setMesh
  split
  · exact Nat.le_refl _
  · rename_i n
    dsimp only
    split_ifs
    · exact Nat.le_refl _
    · exact nextIdx_foldl_le _
        (List.filter (fun me => decide (n ≤ me.2.2)) g.meshEdges)
        { g with meshVertices := some n, meshFacesSet := f }
        (fun acc me => nextIdx_removeMeshEdge_le acc me.2.1 me.2.2)

theorem nextIdx_invalidateMeshVertex_le (g : Graph) (v : Nat) :
    g.nextMeshEdgeIdx ≤ (g.invalidateMeshVertex v).nextMeshEdgeIdx := by
  unfold Graph.invalidateMeshVertex
  exact nextIdx_foldl_le _ _ _ (fun acc s => nextIdx_removeMeshEdge_le acc s v)

theorem nextIdx_rewire (g : Graph) (s t ns nt : NodeId) :
    (g.rewireInterlayerEdge s t ns nt).nextMeshEdgeIdx = g.nextMeshEdgeIdx := by
  have hgetd : ∀ (gg : Graph) (a b : LayerKey),
      ((gg.addAncestry ns nt a b).getD gg).nextMeshEdgeIdx = gg.nextMeshEdgeIdx := by
    intro gg a b
    cases ha : gg.addAncestry ns nt a b with
    | none => rfl
    | some gx => simpa using addAncestry_some_nextIdx ha
  unfold Graph.rewireInterlayerEdge
  split_ifs with h1
  · rfl
  · split
    · dsimp only
      split_ifs with h2 <;>
        first
          | exact nextIdx_removeInterlayerEdge _ _ _ _ _
          | (split <;> simp [hgetd, nextIdx_removeAncestry])
    · rfl

theorem nextIdx_mergeLayerStatic (g : Graph) (lid : LayerId) (other : Layer) (u : Bool) :
    (g.mergeLayerStatic lid other u).nextMeshEdgeIdx = g.nextMeshEdgeIdx := by
  unfold Graph.mergeLayerStatic
  rw [nextIdx_foldl_eq]
  intro acc pr
  unfold statMergeStep
  split
  · split_ifs <;> simp [nextIdx_modifyNode]
  · rfl

theorem nextIdx_mergeLayerDyn (g : Graph) (lid : LayerId) (p : Pfx) (other : DynLayer)
    (u : Bool) :
    (g.mergeLayerDyn lid p other u).nextMeshEdgeIdx = g.nextMeshEdgeIdx := by
  unfold Graph.mergeLayerDyn
  simp only
  rw [nextIdx_foldl_eq]
  intro acc pr
  unfold dynMergeStep
  split
  · split_ifs <;> simp [nextIdx_modifyNode]
  · rfl

theorem nextIdx_dynPhase (g other : Graph) (ud : Bool) :
    (g.mergeDynPhase other ud).nextMeshEdgeIdx = g.nextMeshEdgeIdx := by
  unfold Graph.mergeDynPhase
  apply nextIdx_foldl_eq
  intro acc grp
  unfold dynPhaseStep
  apply nextIdx_foldl_eq
  intro acc2 pl
  unfold dynInstStep
  rw [nextIdx_mergeLayerDyn]
  split_ifs
  · rfl
  · rw [nextIdx_createDynamicLayer]

theorem nextIdx_statPhase (g other : Graph) (um : List (LayerId × Bool)) :
    (g.mergeStatPhase other um).nextMeshEdgeIdx = g.nextMeshEdgeIdx := by
  unfold Graph.mergeStatPhase
  apply nextIdx_foldl_eq
  intro acc il
  unfold statPhaseStep
  split_ifs
  · rw [nextIdx_mergeLayerStatic]
  · rfl

theorem nextIdx_removePhase_le (g : Graph) (rids : List NodeId) :
    g.nextMeshEdgeIdx ≤ (g.mergeRemovePhase rids).nextMeshEdgeIdx := by
  unfold Graph.mergeRemovePhase
  exact nextIdx_foldl_le _ rids g (fun acc id => nextIdx_removeNode_le acc id)

theorem nextIdx_interPhase (g : Graph) (es : List EdgeRec) :
    (g.mergeInterPhase es).nextMeshEdgeIdx = g.nextMeshEdgeIdx := by
  unfold Graph.mergeInterPhase
  exact nextIdx_foldl_eq _ es g
    (fun acc e => nextIdx_insertEdge acc e.source e.target e.info)

theorem nextIdx_meshPhase_le (g : Graph) (mes : List (Nat × NodeId × Nat)) (ai : Bool) :
    g.nextMeshEdgeIdx ≤ (g.mergeMeshPhase mes ai).nextMeshEdgeIdx := by
  unfold Graph.mergeMeshPhase
  exact nextIdx_foldl_le _ mes g
    (fun (acc : Graph) (me : Nat × NodeId × Nat) =>
      nextIdx_insertMeshEdge_le acc me.2.1 me.2.2 ai)

theorem statPhaseStepR_eq (um : List (LayerId × Bool)) (a : Graph) (r : List NodeId)
    (il : LayerId × Layer) :
    statPhaseStepR um (a, r) il =
      (statPhaseStep um a il,
       if a.hasLayerB il.1 = true then r ++ il.2.removed else r) := by
  unfold statPhaseStepR statPhaseStep
  simp only
  split_ifs with hL
  · rfl
  · rfl

theorem statPhaseR_fst (um : List (LayerId × Bool)) :
    ∀ (ls : List (LayerId × Layer)) (a : Graph) (r : List NodeId),
    (List.foldl (statPhaseStepR um) (a, r) ls).1 =
      List.foldl (statPhaseStep um) a ls := by
  intro ls
  induction ls with
  | nil => intro a r; rfl
  | cons il tl ih =>
    intro a r
    rw [List.foldl_cons, List.foldl_cons, statPhaseStepR_eq]
    exact ih _ _

theorem mergeStatPhaseR_fst (g other : Graph) (um : List (LayerId × Bool)) :
    (g.mergeStatPhaseR other um).1 = g.mergeStatPhase other um := by
  unfold Graph.mergeStatPhaseR Graph.mergeStatPhase
  exact statPhaseR_fst um other.layers g []

theorem statPhaseR_snd_mem (um : List (LayerId × Bool)) :
    ∀ (ls : List (LayerId × Layer)) (a : Graph) (r : List NodeId) (id : NodeId),
    id ∈ (List.foldl (statPhaseStepR um) (a, r) ls).2 →
    id ∈ r ∨ ∃ il, il ∈ ls ∧ id ∈ il.2.removed := by
  intro ls
  induction ls with
  | nil => intro a r id h; exact Or.inl h
  | cons il tl ih =>
    intro a r id h
    rw [List.foldl_cons, statPhaseStepR_eq] at h
    rcases ih _ _ id h with hr | ⟨il2, hil2, hid2⟩
    · by_cases hL : a.hasLayerB il.1 = true
      · rw [if_pos hL] at hr
        rcases List.mem_append.mp hr with h1 | h2
        · exact Or.inl h1
        · exact Or.inr ⟨il, List.mem_cons_self il tl, h2⟩
      · rw [if_neg hL] at hr
        exact Or.inl hr
    · exact Or.inr ⟨il2, List.mem_cons_of_mem il hil2, hid2⟩

theorem mem_foldl_append_removed :
    ∀ (ls : List (LayerId × Layer)) (acc : List NodeId) (id : NodeId),
    (id ∈ acc ∨ ∃ il, il ∈ ls ∧ id ∈ il.2.removed) →
    id ∈ ls.foldl (fun a il => a ++ il.2.removed) acc := by
  intro ls
  induction ls with
  | nil =>
    intro acc id h
    rcases h with h | ⟨il, hil, _⟩
    · exact h
    · exact absurd hil (by simp)
  | cons il tl ih =>
    intro acc id h
    rw [List.foldl_cons]
    refine ih _ id ?_
    rcases h with h | ⟨il2, hil2, hid2⟩
    · exact Or.inl (List.mem_append.mpr (Or.inl h))
    · rcases List.mem_cons.mp hil2 with he | ht
      · exact Or.inl (List.mem_append.mpr (Or.inr (he ▸ hid2)))
      · exact Or.inr ⟨il2, ht, hid2⟩

theorem statPhaseR_sub_removedIds (g other : Graph) (um : List (LayerId × Bool)) :
    ∀ id ∈ (g.mergeStatPhaseR other um).2, id ∈ other.removedIds := by
  intro id hid
  unfold Graph.mergeStatPhaseR at hid
  rcases statPhaseR_snd_mem um other.layers g [] id hid with h | ⟨il, hil, hid2⟩
  · exact absurd h (by simp)
  · unfold Graph.removedIds
    exact mem_foldl_append_removed other.layers [] id (Or.inr ⟨il, hil, hid2⟩)

theorem nextIdx_mergeGraph_le (g other : Graph) (aim cm : Bool)
    (um : List (LayerId × Bool)) (ud : Bool) :
    g.nextMeshEdgeIdx ≤ (g.mergeGraph other aim cm um ud).nextMeshEdgeIdx := by
  unfold Graph.mergeGraph
  refine Nat.le_trans ?_ (nextIdx_meshPhase_le _ _ _)
  have hclear : ∀ (gg : Graph),
      (if cm = true then gg.clearMeshEdgesG else gg).nextMeshEdgeIdx =
        gg.nextMeshEdgeIdx := by
    intro gg
    split_ifs <;> rfl
  rw [hclear, nextIdx_interPhase, nextIdx_interPhase]
  refine Nat.le_trans ?_ (nextIdx_removePhase_le _ _)
  rw [mergeStatPhaseR_fst, nextIdx_statPhase, nextIdx_dynPhase]

theorem nextIdx_mergeNodes (g : Graph) (nFrom nTo : NodeId) :
    (g.mergeNodes nFrom nTo).2.nextMeshEdgeIdx = g.nextMeshEdgeIdx := by
  unfold Graph.mergeNodes
  split
  · split_ifs
    · rfl
    · rfl
    · split
      · rfl
      · simp only
        rw [nextIdx_foldl_eq]
        · split
          · rw [nextIdx_rewire]
          · rfl
        · intro acc c
          exact nextIdx_rewire acc nFrom c nTo c
  · rfl

theorem nextIdx_updateFromLayer (g : Graph) (lid : LayerId) (l : Layer)
    (es : List EdgeRec) :
    (g.updateFromLayer lid l es).2.nextMeshEdgeIdx = g.nextMeshEdgeIdx := by
  unfold Graph.updateFromLayer
  split
  · rfl
  · simp only
    rw [nextIdx_foldl_eq, nextIdx_foldl_eq]
    · intro acc pr
      split
      · rw [nextIdx_modifyNode]
      · rfl
    · intro acc e
      split
      · rfl
      · split_ifs
        · rfl
        · rw [nextIdx_layerInsertEdge]

theorem nextIdx_applyOp_le (g : Graph) (op : Op) :
    g.nextMeshEdgeIdx ≤ (applyOp g op).nextMeshEdgeIdx := by
  cases op with
  | emplace lid id attrs => exact Nat.le_of_eq (nextIdx_emplaceNode g lid id attrs).symm
  | emplaceDyn lid p attrs ae => exact Nat.le_of_eq (nextIdx_emplaceNodeDyn g lid p attrs ae).symm
  | insEdge s t i => exact Nat.le_of_eq (nextIdx_insertEdge g s t i).symm
  | remEdge s t => exact Nat.le_of_eq (nextIdx_removeEdge g s t).symm
  | remNode id => exact nextIdx_removeNode_le g id
  | insMeshEdge s v ai => exact nextIdx_insertMeshEdge_le g s v ai
  | remMeshEdge s v => exact nextIdx_removeMeshEdge_le g s v
  | setMeshOp vs f ia => exact nextIdx_setMesh_le g vs f ia
  | invalidateVertex v => exact nextIdx_invalidateMeshVertex_le g v
  | createDynLayer lid p => exact Nat.le_of_eq (nextIdx_createDynamicLayer g lid p).symm
  | merge other aim cm um ud => exact nextIdx_mergeGraph_le g other aim cm um ud
  | mergeN a b => exact Nat.le_of_eq (nextIdx_mergeNodes g a b).symm
  | updateLayer lid l es => exact Nat.le_of_eq (nextIdx_updateFromLayer g lid l es).symm
  | clearOp => exact Nat.le_refl _

theorem nextIdx_runOps_le (g : Graph) (ops : List Op) :
    g.nextMeshEdgeIdx ≤ (runOps g ops).nextMeshEdgeIdx :=
  nextIdx_foldl_le _ _ _ nextIdx_applyOp_le

theorem insertMeshEdge_true_eq {g : Graph} {s : NodeId} {v : Nat} {ai : Bool}
    (h : (g.insertMeshEdge s v ai).1 = true) :
    g.insertMeshEdge s v ai =
      (true, { g with meshEdges := g.meshEdges ++ [(g.nextMeshEdgeIdx, s, v)],
                      nextMeshEdgeIdx := g.nextMeshEdgeIdx + 1 }) := by
  unfold Graph.insertMeshEdge at h ⊢
  split_ifs at h ⊢
  rfl

/-! ### Claim C8 -/

/-- Claim C8: every successful `insertMeshEdge` assigns the current value of
the mesh-edge counter as the edge id and increments the counter; the counter
never decreases under any public operation; hence ids assigned by successive
successful inserts strictly increase and an id, once assigned, is never
assigned to a later mesh edge — even after the first edge is removed. -/
theorem claim_C8_meshEdge_ids :
    (∀ (g : Graph) (s : NodeId) (v : Nat) (ai : Bool),
      (g.insertMeshEdge s v ai).1 = true →
      (g.nextMeshEdgeIdx, s, v) ∈ (g.insertMeshEdge s v ai).2.meshEdges ∧
      (g.insertMeshEdge s v ai).2.nextMeshEdgeIdx = g.nextMeshEdgeIdx + 1) ∧
    (∀ (g : Graph) (ops : List Op),
      g.nextMeshEdgeIdx ≤ (runOps g ops).nextMeshEdgeIdx) ∧
    (∀ (g : Graph) (s : NodeId) (v : Nat) (ai : Bool) (ops : List Op)
      (s' : NodeId) (v' : Nat) (ai' : Bool),
      (g.insertMeshEdge s v ai).1 = true →
      ((runOps (g.insertMeshEdge s v ai).2 ops).insertMeshEdge s' v' ai').1 = true →
      g.nextMeshEdgeIdx < (runOps (g.insertMeshEdge s v ai).2 ops).nextMeshEdgeIdx) := by
  refine ⟨?_, nextIdx_runOps_le, ?_⟩
  · intro g s v ai h
    rw [insertMeshEdge_true_eq h]
    exact ⟨by simp, rfl⟩
  · intro g s v ai ops s' v' ai' h1 _
    have h2 : (g.insertMeshEdge s v ai).2.nextMeshEdgeIdx = g.nextMeshEdgeIdx + 1 := by
      rw [insertMeshEdge_true_eq h1]
    have h3 := nextIdx_runOps_le (g.insertMeshEdge s v ai).2 ops
    rw [h2] at h3
    exact Nat.lt_of_lt_of_le (Nat.lt_succ_self _) h3

/-- Witness for claim C8 at a concrete input: two successful mesh-edge
inserts around an intervening removal assign strictly increasing ids. -/
theorem claim_C8_witness :
    (let g0 := { demoBase with meshVertices := some 4, meshFacesSet := true }
     (g0.insertMeshEdge 10 0 false).1 = true ∧
     ((runOps (g0.insertMeshEdge 10 0 false).2 [Op.remMeshEdge 10 0]).insertMeshEdge
        10 0 false).1 = true ∧
     g0.nextMeshEdgeIdx <
       (runOps (g0.insertMeshEdge 10 0 false).2 [Op.remMeshEdge 10 0]).nextMeshEdgeIdx) := by
  refine ⟨by decide, by decide, ?_⟩
  exact claim_C8_meshEdge_ids.2.2
    { demoBase with meshVertices := some 4, meshFacesSet := true }
    10 0 false [Op.remMeshEdge 10 0] 10 0 false (by decide) (by decide)

/-! ### Merge idempotence toolbox: generic fold and congruence lemmas -/

theorem foldl_keeps {σ α β : Type _} (f : σ → β) (step : σ → α → σ)
    (h : ∀ S x, f (step S x) = f S) :
    ∀ (l : List α) (S : σ), f (l.foldl step S) = f S := by
  intro l
  induction l with
  | nil => intro S; rfl
  | cons x xs ih => intro S; rw [List.foldl_cons, ih, h]

theorem foldl_pres {σ α : Type _} (P : σ → Prop) (step : σ → α → σ)
    (h : ∀ S x, P S → P (step S x)) :
    ∀ (l : List α) (S : σ), P S → P (l.foldl step S) := by
  intro l
  induction l with
  | nil => intro S hS; exact hS
  | cons x xs ih => intro S hS; rw [List.foldl_cons]; exact ih _ (h S x hS)

theorem foldl_establish {σ α : Type _} (P : α → σ → Prop) (step : σ → α → σ)
    (est : ∀ S x, P x (step S x))
    (pres : ∀ S x y, P x S → P x (step S y)) :
    ∀ (l : List α) (S : σ), ∀ x ∈ l, P x (l.foldl step S) := by
  intro l
  induction l with
  | nil => intro S x hx; exact absurd hx (List.not_mem_nil x)
  | cons y ys ih =>
    intro S x hx
    rw [List.foldl_cons]
    rcases List.mem_cons.mp hx with hx | hx
    · subst hx
      exact foldl_pres (P x) step (fun S2 y2 h2 => pres S2 x y2 h2) ys (step S x) (est S x)
    · exact ih (step S y) x hx

theorem foldl_id {σ α : Type _} (step : σ → α → σ) (l : List α) (S : σ)
    (h : ∀ x ∈ l, step S x = S) : l.foldl step S = S := by
  induction l with
  | nil => rfl
  | cons x xs ih =>
    rw [List.foldl_cons, h x (List.mem_cons_self x xs)]
    exact ih (fun y hy => h y (List.mem_cons_of_mem x hy))

theorem getNodeRec_congr {a b : Graph} (h1 : a.layers = b.layers)
    (h2 : a.dynLayers = b.dynLayers) (k : LayerKey) (id : NodeId) :
    a.getNodeRec k id = b.getNodeRec k id := by
  unfold Graph.getNodeRec
  rw [h1, h2]

theorem hasDynLayer_congr {a b : Graph} (h : a.dynLayers = b.dynLayers)
    (lid : LayerId) (p : Pfx) : a.hasDynLayer lid p = b.hasDynLayer lid p := by
  unfold Graph.hasDynLayer
  rw [h]

theorem dynNext_congr {a b : Graph} (h : a.dynLayers = b.dynLayers)
    (lid : LayerId) (p : Pfx) : a.dynNext lid p = b.dynNext lid p := by
  unfold Graph.dynNext
  rw [h]

theorem layerEdges_congr {a b : Graph} (h1 : a.layers = b.layers)
    (h2 : a.dynLayers = b.dynLayers) (k : LayerKey) :
    a.layerEdges k = b.layerEdges k := by
  unfold Graph.layerEdges
  rw [h1, h2]

theorem edgeStored_congr {a b : Graph} (h1 : a.layers = b.layers)
    (h2 : a.dynLayers = b.dynLayers) (h3 : a.interlayerEdges = b.interlayerEdges)
    (h4 : a.dynInterlayerEdges = b.dynInterlayerEdges) (sk tk : LayerKey) (s t : NodeId) :
    a.edgeStored sk tk s t = b.edgeStored sk tk s t := by
  unfold Graph.edgeStored
  rw [layerEdges_congr h1 h2, h3, h4]

theorem layerInsOk_congr {a b : Graph} (h1 : a.layers = b.layers)
    (h2 : a.dynLayers = b.dynLayers) (k : LayerKey) (s t : NodeId) :
    a.layerInsOk k s t = b.layerInsOk k s t := by
  unfold Graph.layerInsOk
  rw [h1, h2]

theorem hasLayerB_congr {a b : Graph} (h1 : a.layers = b.layers)
    (h2 : a.meshLayerId = b.meshLayerId) (h3 : a.meshVertices = b.meshVertices)
    (h4 : a.meshFacesSet = b.meshFacesSet) (lid : LayerId) :
    a.hasLayerB lid = b.hasLayerB lid := by
  unfold Graph.hasLayerB Graph.hasMeshB
  rw [h1, h2, h3, h4]

theorem hasDynLayer_bind (g : Graph) (lid : LayerId) (p : Pfx) :
    g.hasDynLayer lid p =
      ((alookup g.dynLayers lid).bind (fun grp => alookup grp p)).isSome := by
  unfold Graph.hasDynLayer
  cases alookup g.dynLayers lid <;> rfl

theorem dynNext_bind (g : Graph) (lid : LayerId) (p : Pfx) :
    g.dynNext lid p =
      (((alookup g.dynLayers lid).bind (fun grp => alookup grp p)).map
        DynLayer.next).getD 0 := by
  unfold Graph.dynNext
  cases alookup g.dynLayers lid with
  | none => rfl
  | some grp =>
    simp only [Option.some_bind]
    cases alookup grp p <;> rfl

theorem getNodeRec_dynB {k : LayerKey} (g : Graph) (id : NodeId) (h : k.dyn = true) :
    g.getNodeRec k id =
      ((alookup g.dynLayers k.layer).bind (fun grp => alookup grp k.pfx)).bind
        (fun dl => alookup dl.nodes id) := by
  rw [getNodeRec_eq_true g id h]
  cases alookup g.dynLayers k.layer with
  | none => rfl
  | some grp =>
    simp only [Option.some_bind]
    cases alookup grp k.pfx <;> rfl

theorem getNodeRec_statB {k : LayerKey} (g : Graph) (id : NodeId) (h : k.dyn = false) :
    g.getNodeRec k id = (alookup g.layers k.layer).bind (fun l => alookup l.nodes id) := by
  rw [getNodeRec_eq_false g id h]
  cases alookup g.layers k.layer <;> rfl

theorem alookup_aset_self {β : Type} (l : List (Nat × β)) (k : Nat) (v : β) :
    alookup (aset l k v) k = some v := by
  unfold aset
  split_ifs with hs
  · rw [alookup_aupd, if_pos rfl]
    cases h : alookup l k with
    | none => rw [h] at hs; simp at hs
    | some w => simp
  · have hn : alookup l k = none := by
      cases h : alookup l k with
      | none => rfl
      | some w => rw [h] at hs; simp at hs
    rw [alookup_append_none _ hn]
    simp [alookup]

theorem alookup_aset_ne {β : Type} (l : List (Nat × β)) (k k' : Nat) (v : β)
    (h : k' ≠ k) : alookup (aset l k v) k' = alookup l k' := by
  unfold aset
  split_ifs with hs
  · rw [alookup_aupd, if_neg h]
  · cases hl : alookup l k' with
    | some w => rw [alookup_append_some _ hl]
    | none =>
      rw [alookup_append_none _ hl]
      simp [alookup]
      exact fun hh => h hh.symm

theorem containsEdge_append_of {l : List EdgeRec} (l2 : List EdgeRec) {s t : NodeId}
    (h : containsEdge l s t = true) : containsEdge (l ++ l2) s t = true := by
  unfold containsEdge at h ⊢
  rw [List.any_append, h]
  rfl

theorem containsEdge_append_self (l : List EdgeRec) (s t : NodeId) (i : Attrs) :
    containsEdge (l ++ [⟨s, t, i⟩]) s t = true := by
  unfold containsEdge
  rw [List.any_append]
  simp [edgeMatches]

theorem nodeLookup_modifyNode (g : Graph) (k : LayerKey) (id : NodeId)
    (f : NodeRec → NodeRec) : (g.modifyNode k id f).nodeLookup = g.nodeLookup :=
  (modifyNode_fields g k id f).1

theorem hasDynLayer_modifyNode (g : Graph) (k : LayerKey) (id : NodeId)
    (f : NodeRec → NodeRec) (lid : LayerId) (p : Pfx) :
    (g.modifyNode k id f).hasDynLayer lid p = g.hasDynLayer lid p := by
  cases hkd : k.dyn with
  | false => rw [modifyNode_eq_false g id f hkd]; rfl
  | true =>
    rw [modifyNode_eq_true g id f hkd]
    rw [hasDynLayer_bind, hasDynLayer_bind]
    simp only
    rw [alookup_aupd]
    by_cases hl : lid = k.layer
    · rw [if_pos hl, hl]
      cases hg : alookup g.dynLayers k.layer with
      | none => rfl
      | some grp =>
        simp only [Option.map_some', Option.some_bind]
        rw [isSome_alookup_aupd]
    · rw [if_neg hl]

theorem dynNext_modifyNode (g : Graph) (k : LayerKey) (id : NodeId)
    (f : NodeRec → NodeRec) (lid : LayerId) (p : Pfx) :
    (g.modifyNode k id f).dynNext lid p = g.dynNext lid p := by
  cases hkd : k.dyn with
  | false => rw [modifyNode_eq_false g id f hkd]; rfl
  | true =>
    rw [modifyNode_eq_true g id f hkd]
    rw [dynNext_bind, dynNext_bind]
    simp only
    rw [alookup_aupd]
    by_cases hl : lid = k.layer
    · rw [if_pos hl, hl]
      cases hg : alookup g.dynLayers k.layer with
      | none => rfl
      | some grp =>
        simp only [Option.map_some', Option.some_bind]
        rw [alookup_aupd]
        by_cases hp : p = k.pfx
        · rw [if_pos hp, hp]
          cases hgp : alookup grp k.pfx with
          | none => rfl
          | some dl => rfl
        · rw [if_neg hp]
    · rw [if_neg hl]

theorem layersIsSome_modifyNode (g : Graph) (k : LayerKey) (id : NodeId)
    (f : NodeRec → NodeRec) (lid : LayerId) :
    (alookup (g.modifyNode k id f).layers lid).isSome = (alookup g.layers lid).isSome := by
  cases hkd : k.dyn with
  | false =>
    rw [modifyNode_eq_false g id f hkd]
    simp only
    rw [isSome_alookup_aupd]
  | true => rw [modifyNode_eq_true g id f hkd]

theorem modifyNode_isSome (g : Graph) (k : LayerKey) (id : NodeId)
    (f : NodeRec → NodeRec) (k' : LayerKey) (id' : NodeId) :
    ((g.modifyNode k id f).getNodeRec k' id').isSome = (g.getNodeRec k' id').isSome := by
  rw [getNodeRec_modifyNode]
  split_ifs <;> simp

theorem modifyNode_attrs {f : NodeRec → NodeRec} (hf : ∀ n, (f n).attrs = n.attrs)
    (g : Graph) (k : LayerKey) (id : NodeId) (k' : LayerKey) (id' : NodeId) :
    ((g.modifyNode k id f).getNodeRec k' id').map NodeRec.attrs =
      (g.getNodeRec k' id').map NodeRec.attrs := by
  rw [getNodeRec_modifyNode]
  split_ifs with h
  · cases g.getNodeRec k' id' <;> simp [hf]
  · rfl

theorem modifyNode_pres_prop {Q : NodeRec → Prop} {f : NodeRec → NodeRec}
    (hf : ∀ n, Q n → Q (f n)) {g : Graph} {k' : LayerKey} {id' : NodeId}
    (k : LayerKey) (id : NodeId)
    (h : ∃ n, g.getNodeRec k' id' = some n ∧ Q n) :
    ∃ n2, (g.modifyNode k id f).getNodeRec k' id' = some n2 ∧ Q n2 := by
  obtain ⟨n, hn, hq⟩ := h
  rw [getNodeRec_modifyNode]
  split_ifs with hc
  · exact ⟨f n, by rw [hn]; rfl, hf n hq⟩
  · exact ⟨n, hn, hq⟩

theorem hasLayerB_modifyNode (g : Graph) (k : LayerKey) (id : NodeId)
    (f : NodeRec → NodeRec) (lid : LayerId) :
    (g.modifyNode k id f).hasLayerB lid = g.hasLayerB lid := by
  unfold Graph.hasLayerB Graph.hasMeshB
  rw [(modifyNode_fields g k id f).2.2.2.1, (modifyNode_fields g k id f).2.2.2.2.1,
    (modifyNode_fields g k id f).2.2.2.2.2.2.2]
  split_ifs with h
  · exact layersIsSome_modifyNode g k id f lid
  · rfl

theorem alookup2_aupd {β : Type} (dyn : List (Nat × List (Nat × β))) (L P : Nat)
    (F : β → β) (lid p : Nat) :
    (alookup (aupd dyn L (fun grp => aupd grp P F)) lid).bind (fun grp => alookup grp p) =
      if lid = L ∧ p = P then
        ((alookup dyn lid).bind (fun grp => alookup grp p)).map F
      else (alookup dyn lid).bind (fun grp => alookup grp p) := by
  rw [alookup_aupd]
  by_cases hl : lid = L
  · subst hl
    rw [if_pos rfl]
    cases hg : alookup dyn lid with
    | none => split_ifs <;> rfl
    | some grp =>
      simp only [Option.map_some', Option.some_bind]
      by_cases hp : p = P
      · subst hp
        simp [alookup_aupd]
      · simp [alookup_aupd, hp]
  · rw [if_neg hl, if_neg (fun hc => hl hc.1)]

theorem layerEdges_dynB {k : LayerKey} (g : Graph) (h : k.dyn = true) :
    g.layerEdges k =
      (((alookup g.dynLayers k.layer).bind (fun grp => alookup grp k.pfx)).map
        DynLayer.edges).getD [] := by
  rw [layerEdges_eq_true g h]
  cases alookup g.dynLayers k.layer with
  | none => rfl
  | some grp =>
    simp only [Option.some_bind]
    cases alookup grp k.pfx <;> rfl

theorem layerEdges_statB {k : LayerKey} (g : Graph) (h : k.dyn = false) :
    g.layerEdges k = ((alookup g.layers k.layer).map Layer.edges).getD [] := by
  rw [layerEdges_eq_false g h]
  cases alookup g.layers k.layer <;> rfl

theorem layerInsOk_dynB {k : LayerKey} (g : Graph) (s t : NodeId) (h : k.dyn = true) :
    g.layerInsOk k s t =
      (((alookup g.dynLayers k.layer).bind (fun grp => alookup grp k.pfx)).map
        (fun dl => (alookup dl.nodes s).isSome && (alookup dl.nodes t).isSome &&
          !containsEdge dl.edges s t)).getD false := by
  unfold Graph.layerInsOk
  rw [h, if_pos rfl]
  cases alookup g.dynLayers k.layer with
  | none => rfl
  | some grp =>
    simp only [Option.some_bind]
    cases alookup grp k.pfx <;> rfl

theorem layerInsOk_statB {k : LayerKey} (g : Graph) (s t : NodeId) (h : k.dyn = false) :
    g.layerInsOk k s t =
      ((alookup g.layers k.layer).map
        (fun l => (alookup l.nodes s).isSome && (alookup l.nodes t).isSome &&
          !containsEdge l.edges s t)).getD false := by
  unfold Graph.layerInsOk
  rw [h]
  simp only [Bool.false_eq_true, if_false]
  cases alookup g.layers k.layer <;> rfl

theorem obsPres_refl (g : Graph) : ObsPres g g :=
  ⟨rfl, rfl, rfl, rfl, fun _ _ => rfl, fun _ _ => rfl, fun _ => rfl, fun _ => rfl,
    fun _ _ => rfl, fun _ _ => rfl, fun _ _ h => h, fun _ _ _ h => h, fun _ _ h => h,
    fun _ _ h => h, fun _ _ h => h⟩

theorem obsPres_trans {a b c : Graph} (h1 : ObsPres a b) (h2 : ObsPres b c) :
    ObsPres a c := by
  obtain ⟨p1, p2, p3, p4, p5, p6, p7, p8, p9, p10, p11, p12, p13, p14, p15⟩ := h1
  obtain ⟨q1, q2, q3, q4, q5, q6, q7, q8, q9, q10, q11, q12, q13, q14, q15⟩ := h2
  exact ⟨q1.trans p1, q2.trans p2, q3.trans p3, q4.trans p4,
    fun l p => (q5 l p).trans (p5 l p), fun l p => (q6 l p).trans (p6 l p),
    fun l => (q7 l).trans (p7 l), fun l => (q8 l).trans (p8 l),
    fun k i => (q9 k i).trans (p9 k i), fun k i => (q10 k i).trans (p10 k i),
    fun k i h => q11 k i (p11 k i h), fun k s t h => q12 k s t (p12 k s t h),
    fun s t h => q13 s t (p13 s t h), fun s t h => q14 s t (p14 s t h),
    fun s v h => q15 s v (p15 s v h)⟩

theorem obsPres_modifyNode {f : NodeRec → NodeRec} (hfa : ∀ n, (f n).attrs = n.attrs)
    (hfp : ∀ n, n.parent.isSome = true → ((f n).parent).isSome = true)
    (g : Graph) (k : LayerKey) (id : NodeId) : ObsPres g (g.modifyNode k id f) := by
  refine ⟨nodeLookup_modifyNode g k id f, (modifyNode_fields g k id f).2.2.2.1,
    (modifyNode_fields g k id f).2.2.2.2.1, (modifyNode_fields g k id f).2.2.2.2.2.2.2,
    hasDynLayer_modifyNode g k id f, dynNext_modifyNode g k id f,
    layersIsSome_modifyNode g k id f, hasLayerB_modifyNode g k id f,
    modifyNode_isSome g k id f, modifyNode_attrs hfa g k id,
    fun k2 i h => modifyNode_pres_prop hfp k id h,
    fun k2 s t h => ?_, fun s t h => ?_, fun s t h => ?_, fun s v h => ?_⟩
  · rw [layerEdges_modifyNode]
    exact h
  · rw [(modifyNode_fields g k id f).2.1]
    exact h
  · rw [(modifyNode_fields g k id f).2.2.1]
    exact h
  · unfold Graph.hasMeshEdgeB
    rw [(modifyNode_fields g k id f).2.2.2.2.2.1]
    exact h

theorem getNodeRec_statEdgeUpd (g : Graph) (L : LayerId) (es : List EdgeRec)
    (k : LayerKey) (i : NodeId) :
    ({ g with layers := (aupd g.layers L
        (fun l => { l with edges := l.edges ++ es })) } : Graph).getNodeRec k i =
      g.getNodeRec k i := by
  cases hkd : k.dyn with
  | true => rw [getNodeRec_dynB _ i hkd, getNodeRec_dynB _ i hkd]
  | false =>
    rw [getNodeRec_statB _ i hkd, getNodeRec_statB _ i hkd]
    simp only
    rw [alookup_aupd]
    split_ifs with hl
    · cases hg : alookup g.layers k.layer with
      | none => rw [hl] at hg; rw [hg]; rfl
      | some l => rw [hl] at hg; rw [hg]; rfl
    · rfl

theorem layerEdges_statEdgeUpd_mono (g : Graph) (L : LayerId) (es : List EdgeRec)
    (k : LayerKey) (s t : NodeId)
    (h : containsEdge (g.layerEdges k) s t = true) :
    containsEdge (({ g with layers := (aupd g.layers L
        (fun l => { l with edges := l.edges ++ es })) } : Graph).layerEdges k) s t = true := by
  cases hkd : k.dyn with
  | true =>
    rw [layerEdges_dynB _ hkd]
    rw [layerEdges_dynB _ hkd] at h
    exact h
  | false =>
    rw [layerEdges_statB _ hkd] at h ⊢
    simp only
    rw [alookup_aupd]
    split_ifs with hl
    · rw [hl] at h
      cases hg : alookup g.layers L with
      | none => rw [hg] at h; exact absurd h (by simp [containsEdge])
      | some l =>
        rw [hg] at h
        simp only [Option.map_some', Option.getD_some] at h ⊢
        exact containsEdge_append_of es h
    · exact h

theorem obsPres_statEdgeUpd (g : Graph) (L : LayerId) (es : List EdgeRec) :
    ObsPres g { g with layers := (aupd g.layers L
      (fun l => { l with edges := l.edges ++ es })) } := by
  refine ⟨rfl, rfl, rfl, rfl, fun _ _ => rfl, fun _ _ => rfl,
    fun lid => isSome_alookup_aupd g.layers L lid _,
    fun lid => ?_,
    fun k i => by rw [getNodeRec_statEdgeUpd],
    fun k i => by rw [getNodeRec_statEdgeUpd],
    fun k i h => by rw [getNodeRec_statEdgeUpd]; exact h,
    fun k s t h => layerEdges_statEdgeUpd_mono g L es k s t h,
    fun s t h => h, fun s t h => h, fun s v h => h⟩
  unfold Graph.hasLayerB Graph.hasMeshB
  split_ifs with hm
  · exact isSome_alookup_aupd g.layers L lid _
  · rfl

theorem getNodeRec_dynEdgeUpd (g : Graph) (L : LayerId) (P : Pfx) (es : List EdgeRec)
    (k : LayerKey) (i : NodeId) :
    ({ g with dynLayers := (aupd g.dynLayers L (fun grp => aupd grp P
        (fun dl => { dl with edges := dl.edges ++ es }))) } : Graph).getNodeRec k i =
      g.getNodeRec k i := by
  cases hkd : k.dyn with
  | false => rw [getNodeRec_statB _ i hkd, getNodeRec_statB _ i hkd]
  | true =>
    rw [getNodeRec_dynB _ i hkd, getNodeRec_dynB _ i hkd]
    simp only
    rw [alookup2_aupd]
    split_ifs with hc
    · cases hch : (alookup g.dynLayers k.layer).bind (fun grp => alookup grp k.pfx) with
      | none => rfl
      | some dl => rfl
    · rfl

theorem hasDynLayer_dynEdgeUpd (g : Graph) (L : LayerId) (P : Pfx) (es : List EdgeRec)
    (lid : LayerId) (p : Pfx) :
    ({ g with dynLayers := (aupd g.dynLayers L (fun grp => aupd grp P
        (fun dl => { dl with edges := dl.edges ++ es }))) } : Graph).hasDynLayer lid p =
      g.hasDynLayer lid p := by
  rw [hasDynLayer_bind, hasDynLayer_bind]
  simp only
  rw [alookup2_aupd]
  split_ifs with hc
  · cases (alookup g.dynLayers lid).bind (fun grp => alookup grp p) <;> rfl
  · rfl

theorem dynNext_dynEdgeUpd (g : Graph) (L : LayerId) (P : Pfx) (es : List EdgeRec)
    (lid : LayerId) (p : Pfx) :
    ({ g with dynLayers := (aupd g.dynLayers L (fun grp => aupd grp P
        (fun dl => { dl with edges := dl.edges ++ es }))) } : Graph).dynNext lid p =
      g.dynNext lid p := by
  rw [dynNext_bind, dynNext_bind]
  simp only
  rw [alookup2_aupd]
  split_ifs with hc
  · cases (alookup g.dynLayers lid).bind (fun grp => alookup grp p) <;> rfl
  · rfl

theorem layerEdges_dynEdgeUpd_mono (g : Graph) (L : LayerId) (P : Pfx)
    (es : List EdgeRec) (k : LayerKey) (s t : NodeId)
    (h : containsEdge (g.layerEdges k) s t = true) :
    containsEdge (({ g with dynLayers := (aupd g.dynLayers L (fun grp => aupd grp P
        (fun dl => { dl with edges := dl.edges ++ es }))) } : Graph).layerEdges k) s t =
      true := by
  cases hkd : k.dyn with
  | false =>
    rw [layerEdges_statB _ hkd] at h ⊢
    exact h
  | true =>
    rw [layerEdges_dynB _ hkd] at h ⊢
    simp only
    rw [alookup2_aupd]
    split_ifs with hc
    · cases hch : (alookup g.dynLayers k.layer).bind (fun grp => alookup grp k.pfx) with
      | none => rw [hch] at h; exact absurd h (by simp [containsEdge])
      | some dl =>
        rw [hch] at h
        simp only [Option.map_some', Option.getD_some] at h ⊢
        exact containsEdge_append_of es h
    · exact h

theorem obsPres_dynEdgeUpd (g : Graph) (L : LayerId) (P : Pfx) (es : List EdgeRec) :
    ObsPres g { g with dynLayers := (aupd g.dynLayers L (fun grp => aupd grp P
      (fun dl => { dl with edges := dl.edges ++ es }))) } := by
  refine ⟨rfl, rfl, rfl, rfl,
    fun lid p => hasDynLayer_dynEdgeUpd g L P es lid p,
    fun lid p => dynNext_dynEdgeUpd g L P es lid p,
    fun lid => rfl, fun lid => rfl,
    fun k i => by rw [getNodeRec_dynEdgeUpd],
    fun k i => by rw [getNodeRec_dynEdgeUpd],
    fun k i h => by rw [getNodeRec_dynEdgeUpd]; exact h,
    fun k s t h => layerEdges_dynEdgeUpd_mono g L P es k s t h,
    fun s t h => h, fun s t h => h, fun s v h => h⟩

theorem obsPres_interAppend (g : Graph) (es : List EdgeRec) :
    ObsPres g { g with interlayerEdges := g.interlayerEdges ++ es } := by
  refine ⟨rfl, rfl, rfl, rfl, fun _ _ => rfl, fun _ _ => rfl, fun _ => rfl, fun _ => rfl,
    fun k i => rfl, fun k i => rfl, fun k i h => h,
    fun k s t h => ?_, fun s t h => containsEdge_append_of es h, fun s t h => h,
    fun s v h => h⟩
  rw [layerEdges_congr rfl rfl]
  exact h

theorem obsPres_dynInterAppend (g : Graph) (es : List EdgeRec) :
    ObsPres g { g with dynInterlayerEdges := g.dynInterlayerEdges ++ es } := by
  refine ⟨rfl, rfl, rfl, rfl, fun _ _ => rfl, fun _ _ => rfl, fun _ => rfl, fun _ => rfl,
    fun k i => rfl, fun k i => rfl, fun k i h => h,
    fun k s t h => ?_, fun s t h => h, fun s t h => containsEdge_append_of es h,
    fun s v h => h⟩
  rw [layerEdges_congr rfl rfl]
  exact h

theorem addAncestry_shape {g g' : Graph} {s t : NodeId} {sk tk : LayerKey}
    (h : g.addAncestry s t sk tk = some g') :
    ∃ (k1 k2 : LayerKey) (i1 i2 : NodeId) (f1 f2 : NodeRec → NodeRec),
      g' = (g.modifyNode k1 i1 f1).modifyNode k2 i2 f2 ∧
      (∀ n, (f1 n).attrs = n.attrs) ∧ (∀ n, (f2 n).attrs = n.attrs) ∧
      (∀ n, n.parent.isSome = true → ((f1 n).parent).isSome = true) ∧
      (∀ n, n.parent.isSome = true → ((f2 n).parent).isSome = true) := by
  unfold Graph.addAncestry at h
  cases hsn : g.getNodeRec sk s with
  | none => rw [hsn] at h; exact absurd h (by simp)
  | some sn =>
    cases htn : g.getNodeRec tk t with
    | none => rw [hsn, htn] at h; exact absurd h (by simp)
    | some tn =>
      rw [hsn, htn] at h
      simp only at h
      split_ifs at h with h1 h2 h3 h4
      · injection h with h
        exact ⟨sk, tk, s, t,
          (fun n => { n with children := insertSet n.children t }),
          (fun n => { n with parent := some s }), h.symm, fun n => rfl, fun n => rfl,
          fun n hn => hn, fun n hn => rfl⟩
      · injection h with h
        exact ⟨tk, sk, t, s,
          (fun n => { n with children := insertSet n.children s }),
          (fun n => { n with parent := some t }), h.symm, fun n => rfl, fun n => rfl,
          fun n hn => hn, fun n hn => rfl⟩
      · injection h with h
        exact ⟨sk, tk, s, t,
          (fun n => { n with siblings := insertSet n.siblings t }),
          (fun n => { n with siblings := insertSet n.siblings s }), h.symm,
          fun n => rfl, fun n => rfl, fun n hn => hn, fun n hn => hn⟩

theorem obsPres_addAncestry {g g' : Graph} {s t : NodeId} {sk tk : LayerKey}
    (h : g.addAncestry s t sk tk = some g') : ObsPres g g' := by
  obtain ⟨k1, k2, i1, i2, f1, f2, hg, ha1, ha2, hp1, hp2⟩ := addAncestry_shape h
  subst hg
  exact obsPres_trans (obsPres_modifyNode ha1 hp1 g k1 i1)
    (obsPres_modifyNode ha2 hp2 (g.modifyNode k1 i1 f1) k2 i2)

theorem layerInsertEdge_snd_cases (g : Graph) (k : LayerKey) (s t : NodeId) (i : Attrs) :
    (g.layerInsertEdge k s t i).2 = g ∨
    (∃ L, (g.layerInsertEdge k s t i).2 =
      { g with layers := (aupd g.layers L
        (fun l => { l with edges := l.edges ++ [⟨s, t, i⟩] })) }) ∨
    (∃ L P, (g.layerInsertEdge k s t i).2 =
      { g with dynLayers := (aupd g.dynLayers L (fun grp => aupd grp P
        (fun dl => { dl with edges := dl.edges ++ [⟨s, t, i⟩] }))) }) := by
  unfold Graph.layerInsertEdge
  split_ifs with hkd
  · cases alookup g.dynLayers k.layer with
    | none => exact Or.inl rfl
    | some grp =>
      simp only
      cases alookup grp k.pfx with
      | none => exact Or.inl rfl
      | some dl =>
        simp only
        split_ifs with hc
        · exact Or.inr (Or.inr ⟨k.layer, k.pfx, rfl⟩)
        · exact Or.inl rfl
  · cases alookup g.layers k.layer with
    | none => exact Or.inl rfl
    | some l =>
      simp only
      split_ifs with hc
      · exact Or.inr (Or.inl ⟨k.layer, rfl⟩)
      · exact Or.inl rfl

theorem obsPres_layerInsertEdge (g : Graph) (k : LayerKey) (s t : NodeId) (i : Attrs) :
    ObsPres g (g.layerInsertEdge k s t i).2 := by
  rcases layerInsertEdge_snd_cases g k s t i with hc | ⟨L, hc⟩ | ⟨L, P, hc⟩
  · rw [hc]; exact obsPres_refl g
  · rw [hc]; exact obsPres_statEdgeUpd g L [⟨s, t, i⟩]
  · rw [hc]; exact obsPres_dynEdgeUpd g L P [⟨s, t, i⟩]

theorem obsPres_insertEdge (g : Graph) (s t : NodeId) (i : Attrs) :
    ObsPres g (g.insertEdge s t i).2 := by
  unfold Graph.insertEdge
  cases hs : alookup g.nodeLookup s with
  | none => exact obsPres_refl g
  | some sk =>
    cases ht : alookup g.nodeLookup t with
    | none => exact obsPres_refl g
    | some tk =>
      simp only
      split_ifs with h1 h2 h3
      · exact obsPres_refl g
      · exact obsPres_layerInsertEdge g sk s t i
      · cases ha : g.addAncestry s t sk tk with
        | none => exact obsPres_refl g
        | some g1 =>
          exact obsPres_trans (obsPres_addAncestry ha)
            (obsPres_dynInterAppend g1 [⟨s, t, i⟩])
      · cases ha : g.addAncestry s t sk tk with
        | none => exact obsPres_refl g
        | some g1 =>
          exact obsPres_trans (obsPres_addAncestry ha)
            (obsPres_interAppend g1 [⟨s, t, i⟩])

theorem insertMeshEdge_snd_cases (g : Graph) (s : NodeId) (v : Nat) (ai : Bool) :
    (g.insertMeshEdge s v ai).2 = g ∨
    (g.insertMeshEdge s v ai).2 =
      { g with meshEdges := g.meshEdges ++ [(g.nextMeshEdgeIdx, s, v)],
               nextMeshEdgeIdx := g.nextMeshEdgeIdx + 1 } := by
  unfold Graph.insertMeshEdge
  split_ifs with h1 h2 h3
  · exact Or.inl rfl
  · exact Or.inl rfl
  · exact Or.inl rfl
  · exact Or.inr rfl

theorem obsPres_insertMeshEdge (g : Graph) (s : NodeId) (v : Nat) (ai : Bool) :
    ObsPres g (g.insertMeshEdge s v ai).2 := by
  rcases insertMeshEdge_snd_cases g s v ai with hc | hc
  · rw [hc]; exact obsPres_refl g
  · rw [hc]
    refine ⟨rfl, rfl, rfl, rfl, fun _ _ => rfl, fun _ _ => rfl, fun _ => rfl, fun _ => rfl,
      fun k i => rfl, fun k i => rfl, fun k i h => h,
      fun k a b h => ?_, fun a b h => h, fun a b h => h, fun a b h => ?_⟩
    · rw [layerEdges_congr rfl rfl]
      exact h
    · unfold Graph.hasMeshEdgeB at h ⊢
      simp only [List.any_append, h, Bool.true_or]

theorem getNodeRec_some_attrs {b a : Graph}
    (h9 : ∀ k i, (a.getNodeRec k i).isSome = (b.getNodeRec k i).isSome)
    (h10 : ∀ k i, (a.getNodeRec k i).map NodeRec.attrs = (b.getNodeRec k i).map NodeRec.attrs)
    {k : LayerKey} {i : NodeId} {n : NodeRec} (hn : b.getNodeRec k i = some n) :
    ∃ n2, a.getNodeRec k i = some n2 ∧ n2.attrs = n.attrs := by
  have h1 := h9 k i
  rw [hn] at h1
  simp only [Option.isSome_some] at h1
  obtain ⟨n2, hn2⟩ := Option.isSome_iff_exists.mp h1
  have h2 := h10 k i
  rw [hn, hn2] at h2
  simp only [Option.map_some'] at h2
  injection h2 with h2
  exact ⟨n2, hn2, h2⟩

theorem edgeStored_mono {b a : Graph}
    (h12 : ∀ k s t, containsEdge (b.layerEdges k) s t = true →
      containsEdge (a.layerEdges k) s t = true)
    (h13 : ∀ s t, containsEdge b.interlayerEdges s t = true →
      containsEdge a.interlayerEdges s t = true)
    (h14 : ∀ s t, containsEdge b.dynInterlayerEdges s t = true →
      containsEdge a.dynInterlayerEdges s t = true)
    (sk tk : LayerKey) (s t : NodeId) (h : b.edgeStored sk tk s t = true) :
    a.edgeStored sk tk s t = true := by
  unfold Graph.edgeStored at h ⊢
  split_ifs at h ⊢ with hk hd
  · exact h12 _ _ _ h
  · exact h14 _ _ h
  · exact h13 _ _ h

theorem layerInsOk_false_mono {b a : Graph}
    (h5 : ∀ lid p, a.hasDynLayer lid p = b.hasDynLayer lid p)
    (h7 : ∀ lid, (alookup a.layers lid).isSome = (alookup b.layers lid).isSome)
    (h9 : ∀ k i, (a.getNodeRec k i).isSome = (b.getNodeRec k i).isSome)
    (h12 : ∀ k s t, containsEdge (b.layerEdges k) s t = true →
      containsEdge (a.layerEdges k) s t = true)
    (k : LayerKey) (s t : NodeId) (h : b.layerInsOk k s t = false) :
    a.layerInsOk k s t = false := by
  cases hkd : k.dyn with
  | true =>
    rw [layerInsOk_dynB _ s t hkd] at h ⊢
    cases hcha : (alookup a.dynLayers k.layer).bind (fun grp => alookup grp k.pfx) with
    | none => rfl
    | some dla =>
      have hsome : ((alookup b.dynLayers k.layer).bind
          (fun grp => alookup grp k.pfx)).isSome = true := by
        rw [← hasDynLayer_bind, ← h5, hasDynLayer_bind, hcha]
        rfl
      cases hchb : (alookup b.dynLayers k.layer).bind (fun grp => alookup grp k.pfx) with
      | none => rw [hchb] at hsome; exact absurd hsome (by simp)
      | some dlb =>
        rw [hchb] at h
        simp only [Option.map_some', Option.getD_some] at h ⊢
        have hsS : (alookup dla.nodes s).isSome = (alookup dlb.nodes s).isSome := by
          have hq := h9 k s
          rw [getNodeRec_dynB a s hkd, getNodeRec_dynB b s hkd, hcha, hchb] at hq
          exact hq
        have htS : (alookup dla.nodes t).isSome = (alookup dlb.nodes t).isSome := by
          have hq := h9 k t
          rw [getNodeRec_dynB a t hkd, getNodeRec_dynB b t hkd, hcha, hchb] at hq
          exact hq
        have hcE : containsEdge dlb.edges s t = true →
            containsEdge dla.edges s t = true := by
          intro hce
          have hq := h12 k s t
          rw [layerEdges_dynB a hkd, layerEdges_dynB b hkd, hcha, hchb] at hq
          exact hq hce
        rw [hsS, htS]
        cases hx : (alookup dlb.nodes s).isSome
        · simp [hx]
        · cases hy : (alookup dlb.nodes t).isSome
          · simp [hx, hy]
          · rw [hx, hy] at h
            simp only [Bool.true_and] at h
            have hzb : containsEdge dlb.edges s t = true := by
              cases hz : containsEdge dlb.edges s t
              · rw [hz] at h; simp at h
              · rfl
            have hza := hcE hzb
            simp [hza]
  | false =>
    rw [layerInsOk_statB _ s t hkd] at h ⊢
    cases hcha : alookup a.layers k.layer with
    | none => rfl
    | some la =>
      have hsome : (alookup b.layers k.layer).isSome = true := by
        rw [← h7, hcha]
        rfl
      cases hchb : alookup b.layers k.layer with
      | none => rw [hchb] at hsome; exact absurd hsome (by simp)
      | some lb =>
        rw [hchb] at h
        simp only [Option.map_some', Option.getD_some] at h ⊢
        have hsS : (alookup la.nodes s).isSome = (alookup lb.nodes s).isSome := by
          have hq := h9 k s
          rw [getNodeRec_statB a s hkd, getNodeRec_statB b s hkd, hcha, hchb] at hq
          exact hq
        have htS : (alookup la.nodes t).isSome = (alookup lb.nodes t).isSome := by
          have hq := h9 k t
          rw [getNodeRec_statB a t hkd, getNodeRec_statB b t hkd, hcha, hchb] at hq
          exact hq
        have hcE : containsEdge lb.edges s t = true →
            containsEdge la.edges s t = true := by
          intro hce
          have hq := h12 k s t
          rw [layerEdges_statB a hkd, layerEdges_statB b hkd, hcha, hchb] at hq
          exact hq hce
        rw [hsS, htS]
        cases hx : (alookup lb.nodes s).isSome
        · simp [hx]
        · cases hy : (alookup lb.nodes t).isSome
          · simp [hx, hy]
          · rw [hx, hy] at h
            simp only [Bool.true_and] at h
            have hzb : containsEdge lb.edges s t = true := by
              cases hz : containsEdge lb.edges s t
              · rw [hz] at h; simp at h
              · rfl
            have hza := hcE hzb
            simp [hza]

theorem edgeSettled_obsPres {b a : Graph} (h : ObsPres b a) {s t : NodeId}
    (hs : EdgeSettled s t b) : EdgeSettled s t a := by
  obtain ⟨p1, p2, p3, p4, p5, p6, p7, p8, p9, p10, p11, p12, p13, p14, p15⟩ := h
  unfold EdgeSettled at hs ⊢
  rw [p1]
  cases hks : alookup b.nodeLookup s with
  | none => cases hkt : alookup b.nodeLookup t <;> exact trivial
  | some sk =>
    cases hkt : alookup b.nodeLookup t with
    | none => exact trivial
    | some tk =>
      rw [hks, hkt] at hs
      rcases hs with hst | ⟨hk, hok⟩ | ⟨hk, hb⟩
      · exact Or.inl (edgeStored_mono p12 p13 p14 sk tk s t hst)
      · exact Or.inr (Or.inl ⟨hk, layerInsOk_false_mono p5 p7 p9 p12 sk s t hok⟩)
      · refine Or.inr (Or.inr ⟨hk, ?_⟩)
        rcases hb with hb | hb | ⟨hp, n, hn, hps⟩ | ⟨hnp, hp, n, hn, hps⟩
        · exact Or.inl (by rw [p9]; exact hb)
        · exact Or.inr (Or.inl (by rw [p9]; exact hb))
        · exact Or.inr (Or.inr (Or.inl ⟨hp, p11 tk t ⟨n, hn, hps⟩⟩))
        · exact Or.inr (Or.inr (Or.inr ⟨hnp, hp, p11 sk s ⟨n, hn, hps⟩⟩))

theorem meshSettled_obsPres {b a : Graph} (h : ObsPres b a) {s : NodeId} {v : Nat}
    {aim : Bool} (hm : MeshSettled s v aim b) : MeshSettled s v aim a := by
  obtain ⟨p1, p2, p3, p4, p5, p6, p7, p8, p9, p10, p11, p12, p13, p14, p15⟩ := h
  rcases hm with hm | ⟨haim, hinv⟩ | hm
  · exact Or.inl (by unfold Graph.hasNodeB; rw [p1]; exact hm)
  · exact Or.inr (Or.inl ⟨haim, by rw [p2]; exact hinv⟩)
  · exact Or.inr (Or.inr (p15 s v hm))

theorem dynAbs1_obsPres {b a : Graph} (h : ObsPres b a) {lid : LayerId} {p : Pfx}
    {dl : DynLayer} {ud : Bool} (hd : DynAbs1 lid p dl ud b) : DynAbs1 lid p dl ud a := by
  obtain ⟨p1, p2, p3, p4, p5, p6, p7, p8, p9, p10, p11, p12, p13, p14, p15⟩ := h
  obtain ⟨h1, h2, h3⟩ := hd
  refine ⟨by rw [p5]; exact h1, by rw [p6]; exact h2, ?_⟩
  intro nr hnr
  obtain ⟨n, hn, hattr⟩ := h3 nr hnr
  obtain ⟨n2, hn2, ha2⟩ := getNodeRec_some_attrs p9 p10 hn
  exact ⟨n2, hn2, fun hud => by rw [ha2]; exact hattr hud⟩

theorem statAbs1_obsPres {b a : Graph} (h : ObsPres b a) {lid : LayerId} {L : Layer}
    {flag : Bool} (hs : StatAbs1 lid L flag b) : StatAbs1 lid L flag a := by
  obtain ⟨p1, p2, p3, p4, p5, p6, p7, p8, p9, p10, p11, p12, p13, p14, p15⟩ := h
  intro hguard
  rw [p8 lid] at hguard
  obtain ⟨c1, c2⟩ := hs hguard
  constructor
  · intro habs nr hnr
    rw [p7 lid] at habs
    rw [p1]
    exact c1 habs nr hnr
  · intro hpres nr hnr
    rw [p7 lid] at hpres
    obtain ⟨n, hn, hattr⟩ := c2 hpres nr hnr
    obtain ⟨n2, hn2, ha2⟩ := getNodeRec_some_attrs p9 p10 hn
    exact ⟨n2, hn2, fun hf => by rw [ha2]; exact hattr hf⟩

theorem layerInsOk_false_insert {g : Graph} {k : LayerKey} {s t : NodeId} (i : Attrs)
    (h : g.layerInsOk k s t = false) : g.layerInsertEdge k s t i = (false, g) := by
  unfold Graph.layerInsertEdge
  unfold Graph.layerInsOk at h
  split_ifs with hkd
  · rw [if_pos hkd] at h
    cases hg : alookup g.dynLayers k.layer with
    | none => rfl
    | some grp =>
      rw [hg] at h
      simp only at h ⊢
      cases hp : alookup grp k.pfx with
      | none => rfl
      | some dl =>
        rw [hp] at h
        simp only at h ⊢
        rw [h]
        simp
  · rw [if_neg hkd] at h
    cases hg : alookup g.layers k.layer with
    | none => rfl
    | some l =>
      rw [hg] at h
      simp only at h ⊢
      rw [h]
      simp

theorem layerInsertEdge_ok_props {g : Graph} {k : LayerKey} {s t : NodeId} (i : Attrs)
    (hok : g.layerInsOk k s t = true) :
    (g.layerInsertEdge k s t i).2.nodeLookup = g.nodeLookup ∧
    containsEdge ((g.layerInsertEdge k s t i).2.layerEdges k) s t = true := by
  unfold Graph.layerInsertEdge
  unfold Graph.layerInsOk at hok
  split_ifs with hkd
  · rw [if_pos hkd] at hok
    cases hg : alookup g.dynLayers k.layer with
    | none => rw [hg] at hok; exact absurd hok (by simp)
    | some grp =>
      rw [hg] at hok
      simp only at hok ⊢
      cases hp : alookup grp k.pfx with
      | none => rw [hp] at hok; exact absurd hok (by simp)
      | some dl =>
        rw [hp] at hok
        simp only at hok ⊢
        rw [if_pos hok]
        refine ⟨rfl, ?_⟩
        rw [layerEdges_dynB _ hkd]
        simp only
        rw [alookup2_aupd, if_pos ⟨rfl, rfl⟩, hg]
        simp only [Option.some_bind, hp, Option.map_some', Option.getD_some]
        exact containsEdge_append_self dl.edges s t i
  · rw [if_neg hkd] at hok
    cases hg : alookup g.layers k.layer with
    | none => rw [hg] at hok; exact absurd hok (by simp)
    | some l =>
      rw [hg] at hok
      simp only at hok ⊢
      rw [if_pos hok]
      refine ⟨rfl, ?_⟩
      have hkdF : k.dyn = false := by
        cases hx : k.dyn
        · rfl
        · exact absurd hx hkd
      rw [layerEdges_statB _ hkdF]
      simp only
      rw [alookup_aupd, if_pos rfl, hg]
      simp only [Option.map_some', Option.getD_some]
      exact containsEdge_append_self l.edges s t i

theorem addBlocked_none {S : Graph} {s t : NodeId} {sk tk : LayerKey}
    (h : AddBlocked S s t sk tk) : S.addAncestry s t sk tk = none := by
  unfold Graph.addAncestry
  cases hsn : S.getNodeRec sk s with
  | none => cases S.getNodeRec tk t <;> rfl
  | some sn =>
    cases htn : S.getNodeRec tk t with
    | none => rfl
    | some tn =>
      simp only
      rcases h with hb | hb | ⟨hp, n, hn, hps⟩ | ⟨hnp, hp, n, hn, hps⟩
      · rw [hsn] at hb
        exact absurd hb (by simp)
      · rw [htn] at hb
        exact absurd hb (by simp)
      · rw [htn] at hn
        injection hn with hn
        subst hn
        rw [if_pos hp, if_pos hps]
      · rw [hsn] at hn
        injection hn with hn
        subst hn
        rw [if_neg (by simp [hnp]), if_pos hp, if_pos hps]

theorem addAncestry_none_blocked {S : Graph} {s t : NodeId} {sk tk : LayerKey}
    (h : S.addAncestry s t sk tk = none) : AddBlocked S s t sk tk := by
  unfold Graph.addAncestry at h
  cases hsn : S.getNodeRec sk s with
  | none => exact Or.inl (by rw [hsn]; rfl)
  | some sn =>
    cases htn : S.getNodeRec tk t with
    | none => exact Or.inr (Or.inl (by rw [htn]; rfl))
    | some tn =>
      rw [hsn, htn] at h
      simp only at h
      by_cases h1 : sk.isParent tk = true
      · rw [if_pos h1] at h
        by_cases h2 : tn.parent.isSome = true
        · exact Or.inr (Or.inr (Or.inl ⟨h1, tn, htn, h2⟩))
        · rw [if_neg h2] at h
          exact absurd h (by simp)
      · rw [if_neg h1] at h
        by_cases h3 : tk.isParent sk = true
        · rw [if_pos h3] at h
          by_cases h4 : sn.parent.isSome = true
          · have hF : sk.isParent tk = false := by
              cases hx : sk.isParent tk
              · rfl
              · exact absurd hx h1
            exact Or.inr (Or.inr (Or.inr ⟨hF, h3, sn, hsn, h4⟩))
          · rw [if_neg h4] at h
            exact absurd h (by simp)
        · rw [if_neg h3] at h
          exact absurd h (by simp)

theorem insertEdge_settled {S : Graph} {s t : NodeId} (i : Attrs)
    (h : EdgeSettled s t S) : S.insertEdge s t i = (false, S) := by
  unfold Graph.insertEdge
  unfold EdgeSettled at h
  cases hks : alookup S.nodeLookup s with
  | none => cases hkt : alookup S.nodeLookup t <;> rfl
  | some sk =>
    cases hkt : alookup S.nodeLookup t with
    | none => rfl
    | some tk =>
      rw [hks, hkt] at h
      simp only
      rcases h with hst | ⟨hk, hok⟩ | ⟨hk, hb⟩
      · rw [if_pos hst]
      · by_cases hst : S.edgeStored sk tk s t = true
        · rw [if_pos hst]
        · rw [if_neg hst, if_pos hk]
          exact layerInsOk_false_insert i hok
      · by_cases hst : S.edgeStored sk tk s t = true
        · rw [if_pos hst]
        · rw [if_neg hst, if_neg (by simp [hk]), addBlocked_none hb]

theorem insertEdge_establish (g : Graph) (s t : NodeId) (i : Attrs) :
    EdgeSettled s t (g.insertEdge s t i).2 := by
  unfold Graph.insertEdge
  cases hks : alookup g.nodeLookup s with
  | none =>
    cases hkt : alookup g.nodeLookup t with
    | none =>
      show EdgeSettled s t g
      unfold EdgeSettled
      rw [hks, hkt]
      exact trivial
    | some tk =>
      show EdgeSettled s t g
      unfold EdgeSettled
      rw [hks, hkt]
      exact trivial
  | some sk =>
    cases hkt : alookup g.nodeLookup t with
    | none =>
      show EdgeSettled s t g
      unfold EdgeSettled
      rw [hks, hkt]
      exact trivial
    | some tk =>
      simp only
      split_ifs with h1 h2 h3
      · show EdgeSettled s t g
        unfold EdgeSettled
        rw [hks, hkt]
        exact Or.inl h1
      · by_cases hok : g.layerInsOk sk s t = true
        · obtain ⟨hnl, hce⟩ := layerInsertEdge_ok_props i hok
          unfold EdgeSettled
          rw [hnl, hks, hkt]
          refine Or.inl ?_
          unfold Graph.edgeStored
          rw [if_pos h2]
          exact hce
        · have hokF : g.layerInsOk sk s t = false := by
            cases hx : g.layerInsOk sk s t
            · rfl
            · exact absurd hx hok
          rw [layerInsOk_false_insert i hokF]
          show EdgeSettled s t g
          unfold EdgeSettled
          rw [hks, hkt]
          exact Or.inr (Or.inl ⟨h2, hokF⟩)
      · cases ha : g.addAncestry s t sk tk with
        | none =>
          show EdgeSettled s t g
          unfold EdgeSettled
          rw [hks, hkt]
          have hkF : keyEq sk tk = false := by
            cases hx : keyEq sk tk
            · rfl
            · exact absurd hx h2
          exact Or.inr (Or.inr ⟨hkF, addAncestry_none_blocked ha⟩)
        | some g1 =>
          show EdgeSettled s t
            { g1 with dynInterlayerEdges := g1.dynInterlayerEdges ++ [⟨s, t, i⟩] }
          unfold EdgeSettled
          have hnl : g1.nodeLookup = g.nodeLookup := (obsPres_addAncestry ha).1
          simp only
          rw [hnl, hks, hkt]
          refine Or.inl ?_
          unfold Graph.edgeStored
          rw [if_neg (by simp [show keyEq sk tk = false by
            cases hx : keyEq sk tk
            · rfl
            · exact absurd hx h2]), if_pos h3]
          exact containsEdge_append_self g1.dynInterlayerEdges s t i
      · cases ha : g.addAncestry s t sk tk with
        | none =>
          show EdgeSettled s t g
          unfold EdgeSettled
          rw [hks, hkt]
          have hkF : keyEq sk tk = false := by
            cases hx : keyEq sk tk
            · rfl
            · exact absurd hx h2
          exact Or.inr (Or.inr ⟨hkF, addAncestry_none_blocked ha⟩)
        | some g1 =>
          show EdgeSettled s t
            { g1 with interlayerEdges := g1.interlayerEdges ++ [⟨s, t, i⟩] }
          unfold EdgeSettled
          have hnl : g1.nodeLookup = g.nodeLookup := (obsPres_addAncestry ha).1
          simp only
          rw [hnl, hks, hkt]
          refine Or.inl ?_
          unfold Graph.edgeStored
          rw [if_neg (by simp [show keyEq sk tk = false by
            cases hx : keyEq sk tk
            · rfl
            · exact absurd hx h2]), if_neg h3]
          exact containsEdge_append_self g1.interlayerEdges s t i

theorem insertMeshEdge_settled {S : Graph} {s : NodeId} {v : Nat} {ai : Bool}
    (h : MeshSettled s v ai S) : S.insertMeshEdge s v ai = (false, S) := by
  unfold Graph.insertMeshEdge
  split_ifs with a1 a2 a3
  · rfl
  · rfl
  · rfl
  · exfalso
    rcases h with hm | ⟨hai, hinv⟩ | hm
    · exact a1 (by rw [hm]; rfl)
    · refine a2 ?_
      subst hai
      cases hx : S.meshVertices with
      | none => rfl
      | some n =>
        rw [hx] at hinv
        simp only [Bool.not_false, Bool.true_and]
        exact decide_eq_true hinv
    · exact a3 hm

theorem insertMeshEdge_establish (g : Graph) (s : NodeId) (v : Nat) (ai : Bool) :
    MeshSettled s v ai (g.insertMeshEdge s v ai).2 := by
  unfold Graph.insertMeshEdge
  split_ifs with a1 a2 a3
  · exact Or.inl (by simpa using a1)
  · have hai : ai = false := by
      cases hx : ai
      · rfl
      · rw [hx] at a2; simp at a2
    refine Or.inr (Or.inl ⟨hai, ?_⟩)
    cases hx : g.meshVertices with
    | none => trivial
    | some n =>
      rw [hai, hx] at a2
      simp only [Bool.not_false, Bool.true_and, decide_eq_true_eq] at a2
      exact a2
  · exact Or.inr (Or.inr a3)
  · refine Or.inr (Or.inr ?_)
    unfold Graph.hasMeshEdgeB
    simp [List.any_append]

theorem obsPres_interPhase (g : Graph) (es : List EdgeRec) :
    ObsPres g (g.mergeInterPhase es) := by
  unfold Graph.mergeInterPhase
  exact foldl_pres (ObsPres g) _
    (fun T e hT => obsPres_trans hT (obsPres_insertEdge T e.source e.target e.info)) es g
    (obsPres_refl g)

theorem obsPres_meshPhase (g : Graph) (mes : List (Nat × NodeId × Nat)) (ai : Bool) :
    ObsPres g (g.mergeMeshPhase mes ai) := by
  unfold Graph.mergeMeshPhase
  exact foldl_pres (ObsPres g) _
    (fun T me hT => obsPres_trans hT (obsPres_insertMeshEdge T me.2.1 me.2.2 ai)) mes g
    (obsPres_refl g)

theorem mergeInterPhase_establish (S : Graph) (es : List EdgeRec) :
    ∀ e ∈ es, EdgeSettled e.source e.target (S.mergeInterPhase es) := by
  unfold Graph.mergeInterPhase
  exact foldl_establish (fun (e : EdgeRec) (T : Graph) => EdgeSettled e.source e.target T)
    (fun (acc : Graph) (e : EdgeRec) => (acc.insertEdge e.source e.target e.info).2)
    (fun T e => insertEdge_establish T e.source e.target e.info)
    (fun T e e2 hp => edgeSettled_obsPres (obsPres_insertEdge T e2.source e2.target e2.info) hp)
    es S

theorem mergeMeshPhase_establish (S : Graph) (mes : List (Nat × NodeId × Nat)) (ai : Bool) :
    ∀ me ∈ mes, MeshSettled me.2.1 me.2.2 ai (S.mergeMeshPhase mes ai) := by
  unfold Graph.mergeMeshPhase
  exact foldl_establish (fun (me : Nat × NodeId × Nat) (T : Graph) => MeshSettled me.2.1 me.2.2 ai T)
    (fun (acc : Graph) (me : Nat × NodeId × Nat) => (acc.insertMeshEdge me.2.1 me.2.2 ai).2)
    (fun T me => insertMeshEdge_establish T me.2.1 me.2.2 ai)
    (fun T me me2 hp => meshSettled_obsPres (obsPres_insertMeshEdge T me2.2.1 me2.2.2 ai) hp)
    mes S

theorem mergeInterPhase_id {S : Graph} {es : List EdgeRec}
    (h : ∀ e ∈ es, EdgeSettled e.source e.target S) : S.mergeInterPhase es = S := by
  unfold Graph.mergeInterPhase
  refine foldl_id _ es S (fun e he => ?_)
  unfold interStep
  rw [insertEdge_settled e.info (h e he)]

theorem mergeMeshPhase_id {S : Graph} {mes : List (Nat × NodeId × Nat)} {ai : Bool}
    (h : ∀ me ∈ mes, MeshSettled me.2.1 me.2.2 ai S) : S.mergeMeshPhase mes ai = S := by
  unfold Graph.mergeMeshPhase
  refine foldl_id _ mes S (fun me hme => ?_)
  unfold meshStep
  rw [insertMeshEdge_settled (h me hme)]

theorem alookup_aerase_none {β : Type} {l : List (Nat × β)} {i : Nat} (k : Nat)
    (h : alookup l i = none) : alookup (aerase l k) i = none :=
  (alookup_none_iff_keys _ _).mpr
    (fun hm => (alookup_none_iff_keys _ _).mp h ((keys_aerase_sublist l k).subset hm))

theorem getNodeRec_some_attrs_at {b a : Graph} {k : LayerKey} {i : NodeId} {n : NodeRec}
    (h9 : (a.getNodeRec k i).isSome = (b.getNodeRec k i).isSome)
    (h10 : (a.getNodeRec k i).map NodeRec.attrs = (b.getNodeRec k i).map NodeRec.attrs)
    (hn : b.getNodeRec k i = some n) :
    ∃ n2, a.getNodeRec k i = some n2 ∧ n2.attrs = n.attrs := by
  rw [hn] at h9
  simp only [Option.isSome_some] at h9
  obtain ⟨n2, hn2⟩ := Option.isSome_iff_exists.mp h9
  rw [hn, hn2] at h10
  simp only [Option.map_some'] at h10
  injection h10 with h10
  exact ⟨n2, hn2, h10⟩

theorem nodeLookup_removeAncestry (g : Graph) (s t : NodeId) (sk tk : LayerKey) :
    (g.removeAncestry s t sk tk).nodeLookup = g.nodeLookup := by
  unfold Graph.removeAncestry
  split_ifs <;> rw [nodeLookup_modifyNode, nodeLookup_modifyNode]

theorem nodeLookup_removeInterlayerEdge (g : Graph) (s t : NodeId) (sk tk : LayerKey) :
    (g.removeInterlayerEdge s t sk tk).nodeLookup = g.nodeLookup := by
  unfold Graph.removeInterlayerEdge
  split_ifs <;> exact nodeLookup_removeAncestry g s t sk tk

theorem nodeLookup_removeInterlayerEdge2 (g : Graph) (s t : NodeId) :
    (g.removeInterlayerEdge2 s t).nodeLookup = g.nodeLookup := by
  unfold Graph.removeInterlayerEdge2
  cases alookup g.nodeLookup s with
  | none => rfl
  | some sk =>
    cases alookup g.nodeLookup t with
    | none => rfl
    | some tk => exact nodeLookup_removeInterlayerEdge g s t sk tk

theorem nodeLookup_layerRemoveNode (g : Graph) (key : LayerKey) (id : NodeId) :
    (g.layerRemoveNode key id).nodeLookup = g.nodeLookup := by
  unfold Graph.layerRemoveNode
  split_ifs <;> rfl

theorem remPres_of_fields {rid : NodeId} {b a : Graph} (h1 : a.nodeLookup = b.nodeLookup)
    (h2 : a.layers = b.layers) (h3 : a.dynLayers = b.dynLayers)
    (h4 : a.meshVertices = b.meshVertices) (h5 : a.meshFacesSet = b.meshFacesSet)
    (h6 : a.meshLayerId = b.meshLayerId) : RemPres rid b a :=
  ⟨fun i _ => by rw [h1], fun i h => by rw [h1]; exact h, h4, h5, h6,
   hasDynLayer_congr h3, dynNext_congr h3, fun lid => by rw [h2],
   hasLayerB_congr h2 h6 h4 h5, fun k i _ => by rw [getNodeRec_congr h2 h3],
   fun k i _ => by rw [getNodeRec_congr h2 h3]⟩

theorem remPres_refl (rid : NodeId) (g : Graph) : RemPres rid g g :=
  remPres_of_fields rfl rfl rfl rfl rfl rfl

theorem remPres_trans {rid : NodeId} {a b c : Graph} (h1 : RemPres rid a b)
    (h2 : RemPres rid b c) : RemPres rid a c := by
  obtain ⟨p1, p2, p3, p4, p5, p6, p7, p8, p9, p10, p11⟩ := h1
  obtain ⟨q1, q2, q3, q4, q5, q6, q7, q8, q9, q10, q11⟩ := h2
  exact ⟨fun i hi => (q1 i hi).trans (p1 i hi), fun i h => q2 i (p2 i h),
    q3.trans p3, q4.trans p4, q5.trans p5,
    fun lid p => (q6 lid p).trans (p6 lid p), fun lid p => (q7 lid p).trans (p7 lid p),
    fun lid => (q8 lid).trans (p8 lid), fun lid => (q9 lid).trans (p9 lid),
    fun k i hi => (q10 k i hi).trans (p10 k i hi),
    fun k i hi => (q11 k i hi).trans (p11 k i hi)⟩

theorem remPres_removeMeshEdge (rid : NodeId) (g : Graph) (s : NodeId) (v : Nat) :
    RemPres rid g (g.removeMeshEdge s v).2 := by
  obtain ⟨c1, c2, c3, c4, c5, c6, c7⟩ := removeMeshEdge_core g s v
  have c8 : (g.removeMeshEdge s v).2.meshLayerId = g.meshLayerId := by
    unfold Graph.removeMeshEdge
    split <;> rfl
  exact remPres_of_fields c3 c1 c2 c4 c5 c8

theorem remPres_modifyNode {f : NodeRec → NodeRec} (hfa : ∀ n, (f n).attrs = n.attrs)
    (rid : NodeId) (g : Graph) (k : LayerKey) (id : NodeId) :
    RemPres rid g (g.modifyNode k id f) :=
  ⟨fun i _ => by rw [nodeLookup_modifyNode], fun i h => by rw [nodeLookup_modifyNode]; exact h,
   (modifyNode_fields g k id f).2.2.2.1, (modifyNode_fields g k id f).2.2.2.2.1,
   (modifyNode_fields g k id f).2.2.2.2.2.2.2,
   hasDynLayer_modifyNode g k id f, dynNext_modifyNode g k id f,
   layersIsSome_modifyNode g k id f, hasLayerB_modifyNode g k id f,
   fun k2 i _ => modifyNode_isSome g k id f k2 i,
   fun k2 i _ => modifyNode_attrs hfa g k id k2 i⟩

theorem remPres_removeAncestry (rid : NodeId) (g : Graph) (s t : NodeId)
    (sk tk : LayerKey) : RemPres rid g (g.removeAncestry s t sk tk) := by
  unfold Graph.removeAncestry
  split_ifs <;>
    (refine remPres_trans (remPres_modifyNode (fun n => ?_) rid g _ _)
      (remPres_modifyNode (fun n => ?_) rid _ _ _)) <;> rfl

theorem remPres_removeInterlayerEdge (rid : NodeId) (g : Graph) (s t : NodeId)
    (sk tk : LayerKey) : RemPres rid g (g.removeInterlayerEdge s t sk tk) := by
  unfold Graph.removeInterlayerEdge
  split_ifs <;>
    exact remPres_trans (remPres_removeAncestry rid g s t sk tk)
      (remPres_of_fields rfl rfl rfl rfl rfl rfl)

theorem remPres_removeInterlayerEdge2 (rid : NodeId) (g : Graph) (s t : NodeId) :
    RemPres rid g (g.removeInterlayerEdge2 s t) := by
  unfold Graph.removeInterlayerEdge2
  cases alookup g.nodeLookup s with
  | none => exact remPres_refl rid g
  | some sk =>
    cases alookup g.nodeLookup t with
    | none => exact remPres_refl rid g
    | some tk => exact remPres_removeInterlayerEdge rid g s t sk tk

theorem remPres_layerRemoveNode (g : Graph) (key : LayerKey) (rid : NodeId) :
    RemPres rid g (g.layerRemoveNode key rid) := by
  unfold Graph.layerRemoveNode
  split_ifs with hkd
  · have hrec : ∀ (k2 : LayerKey) (i : NodeId), i ≠ rid →
        ({ g with dynLayers := (aupd g.dynLayers key.layer
            (fun grp => aupd grp key.pfx
              (fun dl => { dl with nodes := aerase dl.nodes rid
                                   edges := dl.edges.filter
                                     (fun e => e.source ≠ rid ∧ e.target ≠ rid) }))) } :
          Graph).getNodeRec k2 i = g.getNodeRec k2 i := by
      intro k2 i hi
      cases hk2 : k2.dyn with
      | false => rw [getNodeRec_statB _ i hk2, getNodeRec_statB _ i hk2]
      | true =>
        rw [getNodeRec_dynB _ i hk2, getNodeRec_dynB _ i hk2]
        simp only
        rw [alookup2_aupd]
        split_ifs with hc
        · cases hch : (alookup g.dynLayers k2.layer).bind (fun grp => alookup grp k2.pfx) with
          | none => rfl
          | some dl =>
            simp only [Option.map_some', Option.some_bind]
            exact alookup_aerase_ne _ _ _ hi
        · rfl
    refine ⟨fun i _ => rfl, fun i h => h, rfl, rfl, rfl, ?_, ?_, fun lid => rfl,
      fun lid => rfl, fun k2 i hi => by rw [hrec k2 i hi],
      fun k2 i hi => by rw [hrec k2 i hi]⟩
    · intro lid p
      rw [hasDynLayer_bind, hasDynLayer_bind]
      simp only
      rw [alookup2_aupd]
      split_ifs with hc
      · cases (alookup g.dynLayers lid).bind (fun grp => alookup grp p) <;> rfl
      · rfl
    · intro lid p
      rw [dynNext_bind, dynNext_bind]
      simp only
      rw [alookup2_aupd]
      split_ifs with hc
      · cases (alookup g.dynLayers lid).bind (fun grp => alookup grp p) <;> rfl
      · rfl
  · have hrec : ∀ (k2 : LayerKey) (i : NodeId), i ≠ rid →
        ({ g with layers := (aupd g.layers key.layer
            (fun l => { l with nodes := aerase l.nodes rid
                               edges := l.edges.filter
                                 (fun e => e.source ≠ rid ∧ e.target ≠ rid) })) } :
          Graph).getNodeRec k2 i = g.getNodeRec k2 i := by
      intro k2 i hi
      cases hk2 : k2.dyn with
      | true => rw [getNodeRec_dynB _ i hk2, getNodeRec_dynB _ i hk2]
      | false =>
        rw [getNodeRec_statB _ i hk2, getNodeRec_statB _ i hk2]
        simp only
        rw [alookup_aupd]
        split_ifs with hc
        · rw [hc]
          cases hch : alookup g.layers key.layer with
          | none => rfl
          | some l =>
            simp only [Option.map_some', Option.some_bind]
            exact alookup_aerase_ne _ _ _ hi
        · rfl
    refine ⟨fun i _ => rfl, fun i h => h, rfl, rfl, rfl, fun lid p => rfl,
      fun lid p => rfl, fun lid => isSome_alookup_aupd g.layers key.layer lid _, ?_,
      fun k2 i hi => by rw [hrec k2 i hi], fun k2 i hi => by rw [hrec k2 i hi]⟩
    intro lid
    unfold Graph.hasLayerB Graph.hasMeshB
    split_ifs with hm
    · exact isSome_alookup_aupd g.layers key.layer lid _
    · rfl

theorem remPres_aerase (g : Graph) (rid : NodeId) :
    RemPres rid g { g with nodeLookup := aerase g.nodeLookup rid } :=
  ⟨fun i hi => alookup_aerase_ne _ _ _ hi, fun i h => alookup_aerase_none rid h,
   rfl, rfl, rfl, fun _ _ => rfl, fun _ _ => rfl, fun _ => rfl, fun _ => rfl,
   fun _ _ _ => rfl, fun _ _ _ => rfl⟩

theorem remPres_removeNode (g : Graph) (rid : NodeId) :
    RemPres rid g (g.removeNode rid).2 := by
  unfold Graph.removeNode
  split
  · exact remPres_refl rid g
  · simp only
    have hmesh : ∀ (l : List Nat), RemPres rid g
        (l.foldl (fun acc v => (acc.removeMeshEdge rid v).2) g) :=
      fun l => foldl_pres (RemPres rid g) _
        (fun S x hS => remPres_trans hS (remPres_removeMeshEdge rid S rid x)) l g
        (remPres_refl rid g)
    have hrest : ∀ (gg : Graph) (key : LayerKey), RemPres rid gg
        ((match gg.getNodeRec key rid with
          | none => gg
          | some n =>
            (n.children.foldl (fun acc c => acc.removeInterlayerEdge2 rid c)
              (match n.parent with
               | some p => gg.removeInterlayerEdge2 rid p
               | none => gg))).layerRemoveNode key rid) := by
      intro gg key
      split
      · exact remPres_layerRemoveNode gg key rid
      · rename_i n hn
        have hpar : RemPres rid gg
            (match n.parent with
             | some p => gg.removeInterlayerEdge2 rid p
             | none => gg) := by
          split
          · exact remPres_removeInterlayerEdge2 rid gg rid _
          · exact remPres_refl rid gg
        have hch : RemPres rid gg
            (n.children.foldl (fun acc c => acc.removeInterlayerEdge2 rid c)
              (match n.parent with
               | some p => gg.removeInterlayerEdge2 rid p
               | none => gg)) :=
          foldl_pres (RemPres rid gg) _
            (fun S c hS => remPres_trans hS (remPres_removeInterlayerEdge2 rid S rid c))
            n.children _ hpar
        exact remPres_trans hch (remPres_layerRemoveNode _ key rid)
    exact remPres_trans (remPres_trans (hmesh _) (hrest _ _)) (remPres_aerase _ rid)

theorem removeNode_absent {g : Graph} {rid : NodeId}
    (h : alookup g.nodeLookup rid = none) : g.removeNode rid = (false, g) := by
  unfold Graph.removeNode
  rw [h]

theorem removeNode_lookup_self (g : Graph) (rid : NodeId)
    (hnd : (g.nodeLookup.map Prod.fst).Nodup) :
    alookup (g.removeNode rid).2.nodeLookup rid = none := by
  unfold Graph.removeNode
  cases hk : alookup g.nodeLookup rid with
  | none => exact hk
  | some key =>
    simp only
    have h1 : ∀ (l : List Nat) (gg : Graph),
        (l.foldl (fun acc v => (acc.removeMeshEdge rid v).2) gg).nodeLookup =
          gg.nodeLookup :=
      fun l gg => foldl_keeps Graph.nodeLookup _
        (fun S x => (removeMeshEdge_core S rid x).2.2.1) l gg
    have h2 : ∀ (gg : Graph) (key2 : LayerKey),
        ((match gg.getNodeRec key2 rid with
          | none => gg
          | some n =>
            (n.children.foldl (fun acc c => acc.removeInterlayerEdge2 rid c)
              (match n.parent with
               | some p => gg.removeInterlayerEdge2 rid p
               | none => gg))).layerRemoveNode key2 rid).nodeLookup = gg.nodeLookup := by
      intro gg key2
      rw [nodeLookup_layerRemoveNode]
      split
      · rfl
      · rw [foldl_keeps Graph.nodeLookup _
          (fun S c => nodeLookup_removeInterlayerEdge2 S rid c)]
        split
        · rw [nodeLookup_removeInterlayerEdge2]
        · rfl
    refine alookup_aerase_self_of_nodup ?_
    rw [h2, h1]
    exact hnd

theorem nodup_removeNode (g : Graph) (rid : NodeId)
    (hnd : (g.nodeLookup.map Prod.fst).Nodup) :
    ((g.removeNode rid).2.nodeLookup.map Prod.fst).Nodup := by
  unfold Graph.removeNode
  cases hk : alookup g.nodeLookup rid with
  | none => exact hnd
  | some key =>
    simp only
    have h1 : ∀ (l : List Nat) (gg : Graph),
        (l.foldl (fun acc v => (acc.removeMeshEdge rid v).2) gg).nodeLookup =
          gg.nodeLookup :=
      fun l gg => foldl_keeps Graph.nodeLookup _
        (fun S x => (removeMeshEdge_core S rid x).2.2.1) l gg
    have h2 : ∀ (gg : Graph) (key2 : LayerKey),
        ((match gg.getNodeRec key2 rid with
          | none => gg
          | some n =>
            (n.children.foldl (fun acc c => acc.removeInterlayerEdge2 rid c)
              (match n.parent with
               | some p => gg.removeInterlayerEdge2 rid p
               | none => gg))).layerRemoveNode key2 rid).nodeLookup = gg.nodeLookup := by
      intro gg key2
      rw [nodeLookup_layerRemoveNode]
      split
      · rfl
      · rw [foldl_keeps Graph.nodeLookup _
          (fun S c => nodeLookup_removeInterlayerEdge2 S rid c)]
        split
        · rw [nodeLookup_removeInterlayerEdge2]
        · rfl
    refine nodup_aerase rid ?_
    rw [h2, h1]
    exact hnd

theorem foldl_keeps_mem {σ α β : Type _} (f : σ → β) (step : σ → α → σ) :
    ∀ (l : List α), (∀ S x, x ∈ l → f (step S x) = f S) →
      ∀ S, f (l.foldl step S) = f S := by
  intro l
  induction l with
  | nil => intro _ S; rfl
  | cons x xs ih =>
    intro h S
    rw [List.foldl_cons,
      ih (fun S2 y hy => h S2 y (List.mem_cons_of_mem x hy)) (step S x),
      h S x (List.mem_cons_self x xs)]

theorem foldl_pres_mem {σ α : Type _} (P : σ → Prop) (step : σ → α → σ) :
    ∀ (l : List α), (∀ S x, x ∈ l → P S → P (step S x)) →
      ∀ S, P S → P (l.foldl step S) := by
  intro l
  induction l with
  | nil => intro _ S hS; exact hS
  | cons x xs ih =>
    intro h S hS
    rw [List.foldl_cons]
    exact ih (fun S2 y hy => h S2 y (List.mem_cons_of_mem x hy)) (step S x)
      (h S x (List.mem_cons_self x xs) hS)

theorem modifyNode_id {g : Graph} {k : LayerKey} {id : NodeId} {f : NodeRec → NodeRec}
    {n : NodeRec} (hn : g.getNodeRec k id = some n) (hf : f n = n) :
    g.modifyNode k id f = g := by
  cases hkd : k.dyn with
  | false =>
    rw [getNodeRec_statB _ id hkd] at hn
    rw [modifyNode_eq_false g id f hkd]
    cases hg : alookup g.layers k.layer with
    | none => rw [hg] at hn; exact absurd hn (by simp)
    | some l =>
      rw [hg] at hn
      simp only [Option.some_bind] at hn
      have h1 : aupd l.nodes id f = l.nodes := aupd_id hn hf
      have h2 : aupd g.layers k.layer (fun l2 => { l2 with nodes := aupd l2.nodes id f }) =
          g.layers := aupd_id hg (by rw [h1])
      rw [h2]
  | true =>
    rw [getNodeRec_dynB _ id hkd] at hn
    rw [modifyNode_eq_true g id f hkd]
    cases hgd : alookup g.dynLayers k.layer with
    | none => rw [hgd] at hn; exact absurd hn (by simp)
    | some grp =>
      rw [hgd] at hn
      simp only [Option.some_bind] at hn
      cases hgp : alookup grp k.pfx with
      | none => rw [hgp] at hn; exact absurd hn (by simp)
      | some dl =>
        rw [hgp] at hn
        simp only [Option.some_bind] at hn
        have h1 : aupd dl.nodes id f = dl.nodes := aupd_id hn hf
        have h2 : aupd grp k.pfx (fun dl2 => { dl2 with nodes := aupd dl2.nodes id f }) =
            grp := aupd_id hgp (by rw [h1])
        have h3 : aupd g.dynLayers k.layer
            (fun grp2 => aupd grp2 k.pfx (fun dl2 => { dl2 with nodes := aupd dl2.nodes id f })) =
            g.dynLayers := aupd_id hgd h2
        rw [h3]

theorem statMergeStep_fields (lid : LayerId) (u : Bool) (S : Graph) (pr : Nat × NodeRec) :
    (statMergeStep lid u S pr).dynLayers = S.dynLayers ∧
    (statMergeStep lid u S pr).meshVertices = S.meshVertices ∧
    (statMergeStep lid u S pr).meshFacesSet = S.meshFacesSet ∧
    (statMergeStep lid u S pr).meshLayerId = S.meshLayerId := by
  unfold statMergeStep
  split
  · split_ifs
    · rw [modifyNode_eq_false S pr.1 _ rfl]
      exact ⟨rfl, rfl, rfl, rfl⟩
    · exact ⟨rfl, rfl, rfl, rfl⟩
  · exact ⟨rfl, rfl, rfl, rfl⟩

theorem statMergeStep_layersIsSome (lid : LayerId) (u : Bool) (S : Graph)
    (pr : Nat × NodeRec) (lid' : LayerId) :
    (alookup (statMergeStep lid u S pr).layers lid').isSome =
      (alookup S.layers lid').isSome := by
  unfold statMergeStep
  split
  · split_ifs
    · exact layersIsSome_modifyNode S _ pr.1 _ lid'
    · rfl
  · simp only
    exact isSome_alookup_aupd S.layers lid lid' _

theorem mergeLayerStatic_dynLayers (g : Graph) (lid : LayerId) (other : Layer) (u : Bool) :
    (g.mergeLayerStatic lid other u).dynLayers = g.dynLayers := by
  unfold Graph.mergeLayerStatic
  exact foldl_keeps Graph.dynLayers _ (fun S pr => (statMergeStep_fields lid u S pr).1)
    other.nodes g

theorem mergeLayerStatic_meshV (g : Graph) (lid : LayerId) (other : Layer) (u : Bool) :
    (g.mergeLayerStatic lid other u).meshVertices = g.meshVertices := by
  unfold Graph.mergeLayerStatic
  exact foldl_keeps Graph.meshVertices _ (fun S pr => (statMergeStep_fields lid u S pr).2.1)
    other.nodes g

theorem mergeLayerStatic_meshF (g : Graph) (lid : LayerId) (other : Layer) (u : Bool) :
    (g.mergeLayerStatic lid other u).meshFacesSet = g.meshFacesSet := by
  unfold Graph.mergeLayerStatic
  exact foldl_keeps Graph.meshFacesSet _ (fun S pr => (statMergeStep_fields lid u S pr).2.2.1)
    other.nodes g

theorem mergeLayerStatic_meshLid (g : Graph) (lid : LayerId) (other : Layer) (u : Bool) :
    (g.mergeLayerStatic lid other u).meshLayerId = g.meshLayerId := by
  unfold Graph.mergeLayerStatic
  exact foldl_keeps Graph.meshLayerId _ (fun S pr => (statMergeStep_fields lid u S pr).2.2.2)
    other.nodes g

theorem mergeLayerStatic_layersIsSome (g : Graph) (lid : LayerId) (other : Layer) (u : Bool)
    (lid' : LayerId) :
    (alookup (g.mergeLayerStatic lid other u).layers lid').isSome =
      (alookup g.layers lid').isSome := by
  unfold Graph.mergeLayerStatic
  exact foldl_keeps (fun S => (alookup S.layers lid').isSome) _
    (fun S pr => statMergeStep_layersIsSome lid u S pr lid') other.nodes g

theorem mergeLayerStatic_hasLayerB (g : Graph) (lid : LayerId) (other : Layer) (u : Bool)
    (lid' : LayerId) :
    (g.mergeLayerStatic lid other u).hasLayerB lid' = g.hasLayerB lid' := by
  unfold Graph.hasLayerB Graph.hasMeshB
  rw [mergeLayerStatic_meshLid g lid other u, mergeLayerStatic_meshV g lid other u,
    mergeLayerStatic_meshF g lid other u]
  split_ifs with hc
  · exact mergeLayerStatic_layersIsSome g lid other u lid'
  · rfl

theorem statMergeStep_lookup_ne (lid : LayerId) (u : Bool) (S : Graph) (pr : Nat × NodeRec)
    (i : NodeId) (hne : pr.1 ≠ i) :
    alookup (statMergeStep lid u S pr).nodeLookup i = alookup S.nodeLookup i := by
  unfold statMergeStep
  split
  · split_ifs
    · rw [nodeLookup_modifyNode]
    · rfl
  · simp only
    exact alookup_aset_ne _ _ _ _ (fun h => hne h.symm)

theorem mergeLayerStatic_lookup_ne (g : Graph) (lid : LayerId) (other : Layer) (u : Bool)
    (i : NodeId) (hi : ∀ pr ∈ other.nodes, pr.1 ≠ i) :
    alookup (g.mergeLayerStatic lid other u).nodeLookup i = alookup g.nodeLookup i := by
  unfold Graph.mergeLayerStatic
  exact foldl_keeps_mem (fun S => alookup S.nodeLookup i) _ other.nodes
    (fun S pr hpr => statMergeStep_lookup_ne lid u S pr i (hi pr hpr)) g

theorem statMergeStep_nodup (lid : LayerId) (u : Bool) (S : Graph) (pr : Nat × NodeRec)
    (h : (S.nodeLookup.map Prod.fst).Nodup) :
    ((statMergeStep lid u S pr).nodeLookup.map Prod.fst).Nodup := by
  unfold statMergeStep
  split
  · split_ifs
    · rw [nodeLookup_modifyNode]
      exact h
    · exact h
  · simp only
    exact nodup_aset _ h

theorem mergeLayerStatic_nodup (g : Graph) (lid : LayerId) (other : Layer) (u : Bool)
    (h : (g.nodeLookup.map Prod.fst).Nodup) :
    ((g.mergeLayerStatic lid other u).nodeLookup.map Prod.fst).Nodup := by
  unfold Graph.mergeLayerStatic
  exact foldl_pres (fun S => (S.nodeLookup.map Prod.fst).Nodup) _
    (fun S pr hS => statMergeStep_nodup lid u S pr hS) other.nodes g h

theorem statMergeStep_getNodeRec_ne (lid : LayerId) (u : Bool) (S : Graph)
    (pr : Nat × NodeRec) (k : LayerKey) (i : NodeId)
    (hcond : k.dyn = true ∨ k.layer ≠ lid ∨ pr.1 ≠ i) :
    (statMergeStep lid u S pr).getNodeRec k i = S.getNodeRec k i := by
  unfold statMergeStep
  split
  · split_ifs
    · have hno : ¬(keyEq k ⟨lid, 0, false⟩ = true ∧ i = pr.1) := by
        rcases hcond with hc | hc | hc
        · rintro ⟨hk, _⟩
          simp [keyEq, hc] at hk
        · rintro ⟨hk, _⟩
          simp [keyEq, hc] at hk
        · rintro ⟨_, hi⟩
          exact hc hi.symm
      rw [getNodeRec_modifyNode, if_neg hno]
    · rfl
  · cases hkd : k.dyn with
    | true => rw [getNodeRec_dynB _ i hkd, getNodeRec_dynB _ i hkd]
    | false =>
      rw [getNodeRec_statB _ i hkd, getNodeRec_statB _ i hkd]
      simp only
      rw [alookup_aupd]
      split_ifs with hl
      · have hne : pr.1 ≠ i := by
          rcases hcond with hc | hc | hc
          · rw [hkd] at hc
            exact absurd hc (by simp)
          · exact absurd hl hc
          · exact hc
        rw [hl]
        cases hg : alookup S.layers lid with
        | none => rfl
        | some l =>
          simp only [Option.map_some', Option.some_bind]
          cases hli : alookup l.nodes i with
          | some w => rw [alookup_append_some _ hli]
          | none =>
            rw [alookup_append_none _ hli]
            simp [alookup]
            exact hne
      · rfl

theorem mergeLayerStatic_getNodeRec_ne (g : Graph) (lid : LayerId) (other : Layer)
    (u : Bool) (k : LayerKey) (i : NodeId)
    (hcond : k.dyn = true ∨ k.layer ≠ lid ∨ (∀ pr ∈ other.nodes, pr.1 ≠ i)) :
    (g.mergeLayerStatic lid other u).getNodeRec k i = g.getNodeRec k i := by
  unfold Graph.mergeLayerStatic
  refine foldl_keeps_mem (fun S => S.getNodeRec k i) _ other.nodes
    (fun S pr hpr => statMergeStep_getNodeRec_ne lid u S pr k i ?_) g
  rcases hcond with hc | hc | hc
  · exact Or.inl hc
  · exact Or.inr (Or.inl hc)
  · exact Or.inr (Or.inr (hc pr hpr))

theorem statStep_establish (lid : LayerId) (u : Bool) (S : Graph) (pr : Nat × NodeRec)
    (hp : (alookup S.layers lid).isSome = true) :
    ∃ n, (statMergeStep lid u S pr).getNodeRec ⟨lid, 0, false⟩ pr.1 = some n ∧
      (u = true → n.attrs = pr.2.attrs) := by
  unfold statMergeStep
  cases hb : (alookup S.layers lid).bind (fun l => alookup l.nodes pr.1) with
  | some n0 =>
    simp only
    split_ifs with hu
    · refine ⟨{ n0 with attrs := pr.2.attrs }, ?_, fun _ => rfl⟩
      rw [getNodeRec_modifyNode, if_pos ⟨keyEq_refl _, rfl⟩]
      rw [getNodeRec_statB _ pr.1 rfl]
      simp only
      rw [hb]
      rfl
    · refine ⟨n0, ?_, fun hu2 => absurd hu2 hu⟩
      rw [getNodeRec_statB _ pr.1 rfl]
      simp only
      exact hb
  | none =>
    simp only
    refine ⟨⟨pr.2.attrs, none, [], []⟩, ?_, fun _ => rfl⟩
    rw [getNodeRec_statB _ pr.1 rfl]
    simp only
    rw [alookup_aupd, if_pos rfl]
    obtain ⟨l, hl⟩ := Option.isSome_iff_exists.mp hp
    rw [hl]
    rw [hl] at hb
    simp only [Option.some_bind] at hb
    simp only [Option.map_some', Option.some_bind]
    rw [alookup_append_none _ hb]
    simp [alookup]

theorem statNodes_establish_present (lid : LayerId) (u : Bool) :
    ∀ (ns : List (Nat × NodeRec)) (S : Graph),
      (ns.map Prod.fst).Nodup →
      (alookup S.layers lid).isSome = true →
      ∀ pr ∈ ns, ∃ n,
        (ns.foldl (statMergeStep lid u) S).getNodeRec ⟨lid, 0, false⟩ pr.1 = some n ∧
          (u = true → n.attrs = pr.2.attrs) := by
  intro ns
  induction ns with
  | nil => intro S _ _ pr hpr; exact absurd hpr (List.not_mem_nil pr)
  | cons q qs ih =>
    intro S hnd hp pr hpr
    simp only [List.map_cons, List.nodup_cons] at hnd
    rw [List.foldl_cons]
    rcases List.mem_cons.mp hpr with hpr | hpr
    · subst hpr
      obtain ⟨n, hn, ha⟩ := statStep_establish lid u S pr hp
      refine ⟨n, ?_, ha⟩
      rw [foldl_keeps_mem (fun T => T.getNodeRec ⟨lid, 0, false⟩ pr.1) _ qs
        (fun T pr2 hpr2 => statMergeStep_getNodeRec_ne lid u T pr2 _ pr.1
          (Or.inr (Or.inr
            (fun he => hnd.1 (he ▸ List.mem_map_of_mem Prod.fst hpr2))))) _]
      exact hn
    · have hp2 : (alookup (statMergeStep lid u S q).layers lid).isSome = true := by
        rw [statMergeStep_layersIsSome]
        exact hp
      exact ih (statMergeStep lid u S q) hnd.2 hp2 pr hpr

theorem statStep_absent_layers (lid : LayerId) (u : Bool) (S : Graph) (pr : Nat × NodeRec)
    (hp : alookup S.layers lid = none) :
    (statMergeStep lid u S pr).layers = S.layers ∧
    (statMergeStep lid u S pr).nodeLookup = aset S.nodeLookup pr.1 ⟨lid, 0, false⟩ := by
  unfold statMergeStep
  rw [hp]
  simp only [Option.none_bind]
  exact ⟨by rw [aupd_absent _ hp], trivial⟩

theorem statNodes_absent_establish (lid : LayerId) (u : Bool) :
    ∀ (ns : List (Nat × NodeRec)) (S : Graph),
      (ns.map Prod.fst).Nodup →
      alookup S.layers lid = none →
      ((ns.foldl (statMergeStep lid u) S).layers = S.layers ∧
       ∀ pr ∈ ns, alookup (ns.foldl (statMergeStep lid u) S).nodeLookup pr.1 =
         some ⟨lid, 0, false⟩) := by
  intro ns
  induction ns with
  | nil => intro S _ _; exact ⟨rfl, fun pr hpr => absurd hpr (List.not_mem_nil pr)⟩
  | cons q qs ih =>
    intro S hnd hp
    simp only [List.map_cons, List.nodup_cons] at hnd
    rw [List.foldl_cons]
    obtain ⟨hl1, hl2⟩ := statStep_absent_layers lid u S q hp
    have hp2 : alookup (statMergeStep lid u S q).layers lid = none := by
      rw [hl1]
      exact hp
    obtain ⟨ih1, ih2⟩ := ih (statMergeStep lid u S q) hnd.2 hp2
    refine ⟨by rw [ih1, hl1], ?_⟩
    intro pr hpr
    rcases List.mem_cons.mp hpr with hpr | hpr
    · subst hpr
      rw [foldl_keeps_mem (fun T => alookup T.nodeLookup pr.1) _ qs
        (fun T pr2 hpr2 => statMergeStep_lookup_ne lid u T pr2 pr.1
          (fun he => hnd.1 (he ▸ List.mem_map_of_mem Prod.fst hpr2))) _]
      rw [hl2]
      exact alookup_aset_self _ _ _
    · exact ih2 pr hpr

theorem mergeLayerStatic_absent {g : Graph} {lid : LayerId} {other : Layer} {u : Bool}
    (hnd : (other.nodes.map Prod.fst).Nodup) (hp : alookup g.layers lid = none) :
    (g.mergeLayerStatic lid other u).layers = g.layers ∧
    ∀ pr ∈ other.nodes,
      alookup (g.mergeLayerStatic lid other u).nodeLookup pr.1 = some ⟨lid, 0, false⟩ :=
  statNodes_absent_establish lid u other.nodes g hnd hp

theorem mergeLayerStatic_present {g : Graph} {lid : LayerId} {other : Layer} {u : Bool}
    (hnd : (other.nodes.map Prod.fst).Nodup) (hp : (alookup g.layers lid).isSome = true) :
    ∀ pr ∈ other.nodes, ∃ n,
      (g.mergeLayerStatic lid other u).getNodeRec ⟨lid, 0, false⟩ pr.1 = some n ∧
        (u = true → n.attrs = pr.2.attrs) :=
  statNodes_establish_present lid u other.nodes g hnd hp

theorem statPhaseStep_establish (um : List (LayerId × Bool)) (S : Graph)
    (il : LayerId × Layer) (hnd : (il.2.nodes.map Prod.fst).Nodup) :
    StatAbs1 il.1 il.2 ((alookup um il.1).getD true) (statPhaseStep um S il) := by
  unfold statPhaseStep
  split_ifs with hL
  · intro hguard
    by_cases hp : (alookup S.layers il.1).isSome = true
    · constructor
      · intro habs
        rw [mergeLayerStatic_layersIsSome] at habs
        rw [hp] at habs
        exact absurd habs (by simp)
      · intro _ nr hnr
        exact mergeLayerStatic_present hnd hp nr hnr
    · have hpn : alookup S.layers il.1 = none := by
        cases hx : alookup S.layers il.1 with
        | none => rfl
        | some w => rw [hx] at hp; simp at hp
      obtain ⟨hA, hB⟩ := mergeLayerStatic_absent hnd hpn
      constructor
      · intro _ nr hnr
        exact hB nr hnr
      · intro hpres
        rw [mergeLayerStatic_layersIsSome, hpn] at hpres
        exact absurd hpres (by simp)
  · intro hg
    exact absurd hg hL

theorem statAbs1_statPhaseStep (um : List (LayerId × Bool)) (S : Graph)
    (il' : LayerId × Layer) {lid : LayerId} {L : Layer} {flag : Bool}
    (hne : il'.1 ≠ lid) (hids : ∀ pr2 ∈ il'.2.nodes, ∀ nr ∈ L.nodes, pr2.1 ≠ nr.1)
    (h : StatAbs1 lid L flag S) : StatAbs1 lid L flag (statPhaseStep um S il') := by
  unfold statPhaseStep
  split_ifs with hL
  · intro hguard
    rw [mergeLayerStatic_hasLayerB] at hguard
    obtain ⟨c1, c2⟩ := h hguard
    constructor
    · intro habs nr hnr
      rw [mergeLayerStatic_layersIsSome] at habs
      rw [mergeLayerStatic_lookup_ne S il'.1 il'.2 _ nr.1
        (fun pr2 hpr2 => hids pr2 hpr2 nr hnr)]
      exact c1 habs nr hnr
    · intro hpres nr hnr
      rw [mergeLayerStatic_layersIsSome] at hpres
      obtain ⟨n, hn, ha⟩ := c2 hpres nr hnr
      refine ⟨n, ?_, ha⟩
      rw [mergeLayerStatic_getNodeRec_ne S il'.1 il'.2 _ _ nr.1
        (Or.inr (Or.inl (fun hh => hne hh.symm)))]
      exact hn
  · exact h

theorem dynAbs1_statPhaseStep (um : List (LayerId × Bool)) (S : Graph)
    (il : LayerId × Layer) {lid : LayerId} {p : Pfx} {dl : DynLayer} {ud : Bool}
    (h : DynAbs1 lid p dl ud S) : DynAbs1 lid p dl ud (statPhaseStep um S il) := by
  unfold statPhaseStep
  split_ifs with hL
  · have hd : (S.mergeLayerStatic il.1 il.2 ((alookup um il.1).getD true)).dynLayers =
      S.dynLayers := mergeLayerStatic_dynLayers S il.1 il.2 _
    obtain ⟨h1, h2, h3⟩ := h
    refine ⟨by rw [hasDynLayer_congr hd]; exact h1, by rw [dynNext_congr hd]; exact h2, ?_⟩
    intro nr hnr
    obtain ⟨n, hn, ha⟩ := h3 nr hnr
    refine ⟨n, ?_, ha⟩
    rw [@getNodeRec_dynB ⟨lid, p, true⟩ _ nr.1 rfl, hd]
    rw [@getNodeRec_dynB ⟨lid, p, true⟩ S nr.1 rfl] at hn
    exact hn
  · exact h

theorem nodup_statPhaseStep (um : List (LayerId × Bool)) (S : Graph) (il : LayerId × Layer)
    (h : (S.nodeLookup.map Prod.fst).Nodup) :
    ((statPhaseStep um S il).nodeLookup.map Prod.fst).Nodup := by
  unfold statPhaseStep
  split_ifs with hL
  · exact mergeLayerStatic_nodup S il.1 il.2 _ h
  · exact h

theorem statPhase_establish (um : List (LayerId × Bool)) :
    ∀ (ls : List (LayerId × Layer)) (S : Graph),
      (ls.map Prod.fst).Nodup →
      (ls.flatMap (fun il => il.2.nodes.map Prod.fst)).Nodup →
      ∀ il ∈ ls, StatAbs1 il.1 il.2 ((alookup um il.1).getD true)
        (ls.foldl (statPhaseStep um) S) := by
  intro ls
  induction ls with
  | nil => intro S _ _ il hil; exact absurd hil (List.not_mem_nil il)
  | cons j js ih =>
    intro S hk hn il hil
    simp only [List.map_cons, List.nodup_cons] at hk
    rw [List.flatMap_cons, List.nodup_append] at hn
    obtain ⟨hn1, hn2, hdisj⟩ := hn
    rw [List.foldl_cons]
    rcases List.mem_cons.mp hil with hil | hil
    · subst hil
      refine foldl_pres_mem (StatAbs1 il.1 il.2 ((alookup um il.1).getD true)) _ js
        (fun T il2 hil2 hT => statAbs1_statPhaseStep um T il2
          (fun he => hk.1 (he ▸ List.mem_map_of_mem Prod.fst hil2))
          (fun pr2 hpr2 nr hnr hepr => hdisj (List.mem_map_of_mem Prod.fst hnr)
            (List.mem_flatMap.mpr ⟨il2, hil2, hepr ▸ List.mem_map_of_mem Prod.fst hpr2⟩))
          hT) _ (statPhaseStep_establish um S il hn1)
    · exact ih (statPhaseStep um S j) hk.2 hn2 il hil

theorem mergeStatPhase_establish (g other : Graph) (um : List (LayerId × Bool))
    (hk : (other.layers.map Prod.fst).Nodup)
    (hn : (other.layers.flatMap (fun il => il.2.nodes.map Prod.fst)).Nodup) :
    StatAbsorbed other um (g.mergeStatPhase other um) :=
  fun il hil => statPhase_establish um other.layers g hk hn il hil

theorem dynAbs1_statPhase (g other : Graph) (um : List (LayerId × Bool))
    {lid : LayerId} {p : Pfx} {dl : DynLayer} {ud : Bool}
    (h : DynAbs1 lid p dl ud g) : DynAbs1 lid p dl ud (g.mergeStatPhase other um) := by
  unfold Graph.mergeStatPhase
  exact foldl_pres (DynAbs1 lid p dl ud) _
    (fun S il hS => dynAbs1_statPhaseStep um S il hS) other.layers g h

theorem nodup_statPhase (g other : Graph) (um : List (LayerId × Bool))
    (h : (g.nodeLookup.map Prod.fst).Nodup) :
    ((g.mergeStatPhase other um).nodeLookup.map Prod.fst).Nodup := by
  unfold Graph.mergeStatPhase
  exact foldl_pres (fun S => (S.nodeLookup.map Prod.fst).Nodup) _
    (fun S il hS => nodup_statPhaseStep um S il hS) other.layers g h

theorem alookup_append_one_ne {β : Type} (l : List (Nat × β)) (k k' : Nat) (v : β)
    (h : k' ≠ k) : alookup (l ++ [(k, v)]) k' = alookup l k' := by
  cases hl : alookup l k' with
  | some w => exact alookup_append_some _ hl
  | none =>
    rw [alookup_append_none _ hl]
    simp [alookup]
    exact fun hh => h hh.symm

theorem keyEq_dyn_elim {k : LayerKey} {lid : LayerId} {p : Pfx}
    (h : keyEq k ⟨lid, p, true⟩ = true) : k.dyn = true ∧ k.layer = lid ∧ k.pfx = p := by
  unfold keyEq at h
  simp only [Bool.and_eq_true, beq_iff_eq, Bool.or_eq_true, Bool.not_eq_true'] at h
  obtain ⟨⟨h1, h2⟩, h3⟩ := h
  refine ⟨h1, h2, ?_⟩
  rcases h3 with h3 | h3
  · rw [h1] at h3
    exact absurd h3 (by simp)
  · exact h3

theorem keyEq_stat_elim {k : LayerKey} {lid : LayerId} {q : Pfx}
    (h : keyEq k ⟨lid, q, false⟩ = true) : k.dyn = false ∧ k.layer = lid := by
  unfold keyEq at h
  simp only [Bool.and_eq_true, beq_iff_eq, Bool.or_eq_true, Bool.not_eq_true'] at h
  exact ⟨h.1.1, h.1.2⟩

theorem hasDynLayer_dynUpdF (g : Graph) (L : LayerId) (P : Pfx) (F : DynLayer → DynLayer)
    (lid : LayerId) (p : Pfx) :
    ({ g with dynLayers := (aupd g.dynLayers L (fun grp => aupd grp P F)) } :
      Graph).hasDynLayer lid p = g.hasDynLayer lid p := by
  rw [hasDynLayer_bind, hasDynLayer_bind]
  simp only
  rw [alookup2_aupd]
  split_ifs with hc
  · cases (alookup g.dynLayers lid).bind (fun grp => alookup grp p) <;> rfl
  · rfl

theorem dynNext_dynUpdF_ne (g : Graph) (L : LayerId) (P : Pfx) (F : DynLayer → DynLayer)
    (lid : LayerId) (p : Pfx) (hne : ¬(lid = L ∧ p = P)) :
    ({ g with dynLayers := (aupd g.dynLayers L (fun grp => aupd grp P F)) } :
      Graph).dynNext lid p = g.dynNext lid p := by
  rw [dynNext_bind, dynNext_bind]
  simp only
  rw [alookup2_aupd, if_neg hne]

theorem getNodeRec_dynUpdF_ne (g : Graph) (L : LayerId) (P : Pfx) (F : DynLayer → DynLayer)
    (lid : LayerId) (p : Pfx) (i : NodeId) (hne : ¬(lid = L ∧ p = P)) :
    ({ g with dynLayers := (aupd g.dynLayers L (fun grp => aupd grp P F)) } :
      Graph).getNodeRec ⟨lid, p, true⟩ i = g.getNodeRec ⟨lid, p, true⟩ i := by
  rw [@getNodeRec_dynB ⟨lid, p, true⟩ _ i rfl, @getNodeRec_dynB ⟨lid, p, true⟩ g i rfl]
  simp only
  rw [alookup2_aupd, if_neg hne]

theorem getNodeRec_dynUpdF_nodes (g : Graph) (L : LayerId) (P : Pfx)
    (F : DynLayer → DynLayer) (hF : ∀ dl, (F dl).nodes = dl.nodes)
    (lid : LayerId) (p : Pfx) (i : NodeId) :
    ({ g with dynLayers := (aupd g.dynLayers L (fun grp => aupd grp P F)) } :
      Graph).getNodeRec ⟨lid, p, true⟩ i = g.getNodeRec ⟨lid, p, true⟩ i := by
  rw [@getNodeRec_dynB ⟨lid, p, true⟩ _ i rfl, @getNodeRec_dynB ⟨lid, p, true⟩ g i rfl]
  simp only
  rw [alookup2_aupd]
  split_ifs with hc
  · cases (alookup g.dynLayers lid).bind (fun grp => alookup grp p) with
    | none => rfl
    | some dl =>
      simp only [Option.map_some', Option.some_bind]
      rw [hF]
  · rfl

theorem nodup_of_flatMap {α β : Type _} {f : α → List β} :
    ∀ {l : List α}, (l.flatMap f).Nodup → ∀ x ∈ l, (f x).Nodup := by
  intro l
  induction l with
  | nil => intro _ x hx; exact absurd hx (List.not_mem_nil x)
  | cons y ys ih =>
    intro h x hx
    rw [List.flatMap_cons, List.nodup_append] at h
    rcases List.mem_cons.mp hx with hx | hx
    · subst hx
      exact h.1
    · exact ih h.2.1 x hx

theorem createDynamicLayer_chain_ne (g : Graph) (lid' : LayerId) (p' : Pfx)
    (lid : LayerId) (p : Pfx) (hne : ¬(lid = lid' ∧ p = p')) :
    (alookup (g.createDynamicLayer lid' p').dynLayers lid).bind (fun grp => alookup grp p) =
      (alookup g.dynLayers lid).bind (fun grp => alookup grp p) := by
  unfold Graph.createDynamicLayer
  split_ifs with hHas hg
  · rfl
  · simp only
    rw [alookup_aupd]
    by_cases hl : lid = lid'
    · rw [if_pos hl, hl]
      cases hgg : alookup g.dynLayers lid' with
      | none => rfl
      | some grp =>
        simp only [Option.map_some', Option.some_bind]
        exact alookup_append_one_ne grp p' p _ (fun hp => hne ⟨hl, hp⟩)
    · rw [if_neg hl]
  · simp only
    rw [alookup_aupd]
    by_cases hl : lid = lid'
    · rw [if_pos hl, hl]
      have hgn : alookup g.dynLayers lid' = none := by
        cases hx : alookup g.dynLayers lid' with
        | none => rfl
        | some w => rw [hx] at hg; simp at hg
      rw [alookup_append_none _ hgn, hgn]
      have hpp : p ≠ p' := fun hp => hne ⟨hl, hp⟩
      simp [alookup, hpp]
      exact fun hh => hpp hh.symm
    · rw [if_neg hl]
      cases hll : alookup g.dynLayers lid with
      | some w => rw [alookup_append_some _ hll]
      | none =>
        rw [alookup_append_none _ hll]
        simp [alookup]

theorem createDynamicLayer_pres_ne (g : Graph) (lid' : LayerId) (p' : Pfx)
    (lid : LayerId) (p : Pfx) (hne : ¬(lid = lid' ∧ p = p')) :
    (g.createDynamicLayer lid' p').hasDynLayer lid p = g.hasDynLayer lid p ∧
    (g.createDynamicLayer lid' p').dynNext lid p = g.dynNext lid p ∧
    ∀ i, (g.createDynamicLayer lid' p').getNodeRec ⟨lid, p, true⟩ i =
      g.getNodeRec ⟨lid, p, true⟩ i := by
  have hch := createDynamicLayer_chain_ne g lid' p' lid p hne
  refine ⟨?_, ?_, ?_⟩
  · rw [hasDynLayer_bind, hasDynLayer_bind, hch]
  · rw [dynNext_bind, dynNext_bind, hch]
  · intro i
    rw [@getNodeRec_dynB ⟨lid, p, true⟩ _ i rfl, @getNodeRec_dynB ⟨lid, p, true⟩ g i rfl,
      hch]

theorem dynMergeStep_fields (lid : LayerId) (p : Pfx) (u : Bool) (S : Graph)
    (pr : Nat × NodeRec) :
    (dynMergeStep lid p u S pr).layers = S.layers ∧
    (dynMergeStep lid p u S pr).meshVertices = S.meshVertices ∧
    (dynMergeStep lid p u S pr).meshFacesSet = S.meshFacesSet ∧
    (dynMergeStep lid p u S pr).meshLayerId = S.meshLayerId := by
  unfold dynMergeStep
  split
  · split_ifs
    · rw [modifyNode_eq_true S pr.1 _ rfl]
      exact ⟨rfl, rfl, rfl, rfl⟩
    · exact ⟨rfl, rfl, rfl, rfl⟩
  · exact ⟨rfl, rfl, rfl, rfl⟩

theorem dynMergeStep_hasDynLayer (lid : LayerId) (p : Pfx) (u : Bool) (S : Graph)
    (pr : Nat × NodeRec) (lid' : LayerId) (p' : Pfx) :
    (dynMergeStep lid p u S pr).hasDynLayer lid' p' = S.hasDynLayer lid' p' := by
  unfold dynMergeStep
  split
  · split_ifs
    · exact hasDynLayer_modifyNode S _ pr.1 _ lid' p'
    · rfl
  · rw [hasDynLayer_bind, hasDynLayer_bind]
    simp only
    rw [alookup2_aupd]
    split_ifs with hc
    · cases (alookup S.dynLayers lid').bind (fun grp => alookup grp p') <;> rfl
    · rfl

theorem dynMergeStep_dynNext (lid : LayerId) (p : Pfx) (u : Bool) (S : Graph)
    (pr : Nat × NodeRec) (lid' : LayerId) (p' : Pfx) :
    (dynMergeStep lid p u S pr).dynNext lid' p' = S.dynNext lid' p' := by
  unfold dynMergeStep
  split
  · split_ifs
    · exact dynNext_modifyNode S _ pr.1 _ lid' p'
    · rfl
  · rw [dynNext_bind, dynNext_bind]
    simp only
    rw [alookup2_aupd]
    split_ifs with hc
    · cases (alookup S.dynLayers lid').bind (fun grp => alookup grp p') <;> rfl
    · rfl

theorem dynMergeStep_nodup (lid : LayerId) (p : Pfx) (u : Bool) (S : Graph)
    (pr : Nat × NodeRec) (h : (S.nodeLookup.map Prod.fst).Nodup) :
    ((dynMergeStep lid p u S pr).nodeLookup.map Prod.fst).Nodup := by
  unfold dynMergeStep
  split
  · split_ifs
    · rw [nodeLookup_modifyNode]
      exact h
    · exact h
  · simp only
    exact nodup_aset _ h

theorem dynMergeStep_getNodeRec_ne (lid : LayerId) (p : Pfx) (u : Bool) (S : Graph)
    (pr : Nat × NodeRec) (k : LayerKey) (i : NodeId)
    (hcond : k.dyn = false ∨ ¬(k.layer = lid ∧ k.pfx = p) ∨ pr.1 ≠ i) :
    (dynMergeStep lid p u S pr).getNodeRec k i = S.getNodeRec k i := by
  unfold dynMergeStep
  split
  · split_ifs
    · have hno : ¬(keyEq k ⟨lid, p, true⟩ = true ∧ i = pr.1) := by
        rintro ⟨hk, hi⟩
        obtain ⟨hd2, hl2, hp2⟩ := keyEq_dyn_elim hk
        rcases hcond with hc | hc | hc
        · rw [hd2] at hc
          exact absurd hc (by simp)
        · exact hc ⟨hl2, hp2⟩
        · exact hc hi.symm
      rw [getNodeRec_modifyNode, if_neg hno]
    · rfl
  · cases hkd : k.dyn with
    | false => rw [getNodeRec_statB _ i hkd, getNodeRec_statB _ i hkd]
    | true =>
      rw [getNodeRec_dynB _ i hkd, getNodeRec_dynB _ i hkd]
      simp only
      rw [alookup2_aupd]
      split_ifs with hc2
      · have hne : pr.1 ≠ i := by
          rcases hcond with hc | hc | hc
          · rw [hkd] at hc
            exact absurd hc (by simp)
          · exact absurd hc2 hc
          · exact hc
        cases hch : (alookup S.dynLayers k.layer).bind (fun grp => alookup grp k.pfx) with
        | none => rfl
        | some dl =>
          simp only [Option.map_some', Option.some_bind]
          cases hli : alookup dl.nodes i with
          | some w => rw [alookup_append_some _ hli]
          | none =>
            rw [alookup_append_none _ hli]
            simp [alookup]
            exact hne
      · rfl

theorem dynStep_node_establish (lid : LayerId) (p : Pfx) (u : Bool) (S : Graph)
    (pr : Nat × NodeRec) (hp : S.hasDynLayer lid p = true) :
    ∃ n, (dynMergeStep lid p u S pr).getNodeRec ⟨lid, p, true⟩ pr.1 = some n ∧
      (u = true → n.attrs = pr.2.attrs) := by
  unfold dynMergeStep
  cases hb : S.getNodeRec ⟨lid, p, true⟩ pr.1 with
  | some n0 =>
    simp only
    split_ifs with hu
    · refine ⟨{ n0 with attrs := pr.2.attrs }, ?_, fun _ => rfl⟩
      rw [getNodeRec_modifyNode, if_pos ⟨keyEq_refl _, rfl⟩, hb]
      rfl
    · exact ⟨n0, hb, fun hu2 => absurd hu2 hu⟩
  | none =>
    simp only
    obtain ⟨grp, dl, hg, hgp⟩ := hasDynLayer_elim hp
    refine ⟨⟨pr.2.attrs, none, [], []⟩, ?_, fun _ => rfl⟩
    rw [@getNodeRec_dynB ⟨lid, p, true⟩ _ pr.1 rfl]
    simp only
    rw [alookup2_aupd, if_pos ⟨rfl, rfl⟩, hg]
    simp only [Option.some_bind, hgp, Option.map_some', Option.some_bind]
    rw [@getNodeRec_dynB ⟨lid, p, true⟩ S pr.1 rfl, hg] at hb
    simp only [Option.some_bind, hgp] at hb
    rw [alookup_append_none _ hb]
    simp [alookup]

theorem dynNodes_establish (lid : LayerId) (p : Pfx) (u : Bool) :
    ∀ (ns : List (Nat × NodeRec)) (S : Graph),
      (ns.map Prod.fst).Nodup →
      S.hasDynLayer lid p = true →
      ∀ pr ∈ ns, ∃ n,
        (ns.foldl (dynMergeStep lid p u) S).getNodeRec ⟨lid, p, true⟩ pr.1 = some n ∧
          (u = true → n.attrs = pr.2.attrs) := by
  intro ns
  induction ns with
  | nil => intro S _ _ pr hpr; exact absurd hpr (List.not_mem_nil pr)
  | cons q qs ih =>
    intro S hnd hp pr hpr
    simp only [List.map_cons, List.nodup_cons] at hnd
    rw [List.foldl_cons]
    rcases List.mem_cons.mp hpr with hpr | hpr
    · subst hpr
      obtain ⟨n, hn, ha⟩ := dynStep_node_establish lid p u S pr hp
      refine ⟨n, ?_, ha⟩
      rw [foldl_keeps_mem (fun T => T.getNodeRec ⟨lid, p, true⟩ pr.1) _ qs
        (fun T pr2 hpr2 => dynMergeStep_getNodeRec_ne lid p u T pr2 _ pr.1
          (Or.inr (Or.inr
            (fun he => hnd.1 (he ▸ List.mem_map_of_mem Prod.fst hpr2))))) _]
      exact hn
    · have hp2 : (dynMergeStep lid p u S q).hasDynLayer lid p = true := by
        rw [dynMergeStep_hasDynLayer]
        exact hp
      exact ih (dynMergeStep lid p u S q) hnd.2 hp2 pr hpr

theorem mergeLayerDyn_absorbs {g : Graph} {lid : LayerId} {p : Pfx} {other : DynLayer}
    {u : Bool} (hnd : (other.nodes.map Prod.fst).Nodup)
    (hp : g.hasDynLayer lid p = true) :
    DynAbs1 lid p other u (g.mergeLayerDyn lid p other u) := by
  unfold Graph.mergeLayerDyn
  simp only
  have hp1 : (other.nodes.foldl (dynMergeStep lid p u) g).hasDynLayer lid p = true := by
    rw [foldl_keeps (fun T => T.hasDynLayer lid p) _
      (fun T pr => dynMergeStep_hasDynLayer lid p u T pr lid p) other.nodes g]
    exact hp
  obtain ⟨grp1, dl1, hg1, hgp1⟩ := hasDynLayer_elim hp1
  refine ⟨?_, ?_, ?_⟩
  · rw [hasDynLayer_dynUpdF]
    exact hp1
  · rw [dynNext_bind]
    simp only
    rw [alookup2_aupd, if_pos ⟨rfl, rfl⟩, hg1]
    simp only [Option.some_bind, hgp1, Option.map_some', Option.getD_some]
    exact Nat.le_max_right _ _
  · intro nr hnr
    obtain ⟨n, hn, ha⟩ := dynNodes_establish lid p u other.nodes g hnd hp nr hnr
    refine ⟨n, ?_, ha⟩
    have hrw := getNodeRec_dynUpdF_nodes (other.nodes.foldl (dynMergeStep lid p u) g)
      lid p (fun dl => { dl with next := max dl.next other.next }) (fun dl => rfl)
      lid p nr.1
    rw [hrw]
    exact hn

theorem dynInstStep_establish (lid : LayerId) (ud : Bool) (S : Graph) (pl : Pfx × DynLayer)
    (hnd : (pl.2.nodes.map Prod.fst).Nodup) :
    DynAbs1 lid pl.1 pl.2 ud (dynInstStep lid ud S pl) := by
  unfold dynInstStep
  split_ifs with hHas
  · exact mergeLayerDyn_absorbs hnd hHas
  · exact mergeLayerDyn_absorbs hnd (createDynamicLayer_has S lid pl.1)

theorem dynAbs1_mergeLayerDyn_ne {g : Graph} {lid' : LayerId} {p' : Pfx}
    {other' : DynLayer} {u : Bool} {lid : LayerId} {p : Pfx} {dl : DynLayer}
    (hne : ¬(lid = lid' ∧ p = p')) (h : DynAbs1 lid p dl u g) :
    DynAbs1 lid p dl u (g.mergeLayerDyn lid' p' other' u) := by
  unfold Graph.mergeLayerDyn
  simp only
  obtain ⟨h1, h2, h3⟩ := h
  have hH : ∀ (T : Graph), T.hasDynLayer lid p = g.hasDynLayer lid p →
      True := fun _ _ => trivial
  refine ⟨?_, ?_, ?_⟩
  · rw [hasDynLayer_dynUpdF,
      foldl_keeps (fun T => T.hasDynLayer lid p) _
        (fun T pr => dynMergeStep_hasDynLayer lid' p' u T pr lid p) other'.nodes g]
    exact h1
  · rw [dynNext_dynUpdF_ne _ _ _ _ _ _ hne,
      foldl_keeps (fun T => T.dynNext lid p) _
        (fun T pr => dynMergeStep_dynNext lid' p' u T pr lid p) other'.nodes g]
    exact h2
  · intro nr hnr
    obtain ⟨n, hn, ha⟩ := h3 nr hnr
    refine ⟨n, ?_, ha⟩
    rw [getNodeRec_dynUpdF_ne _ _ _ _ _ _ nr.1 hne,
      foldl_keeps (fun T => T.getNodeRec ⟨lid, p, true⟩ nr.1) _
        (fun T pr => dynMergeStep_getNodeRec_ne lid' p' u T pr _ nr.1
          (Or.inr (Or.inl hne))) other'.nodes g]
    exact hn

theorem dynAbs1_dynInstStep_ne (lid' : LayerId) (ud : Bool) (S : Graph)
    (pl' : Pfx × DynLayer) {lid : LayerId} {p : Pfx} {dl : DynLayer}
    (hne : ¬(lid = lid' ∧ p = pl'.1)) (h : DynAbs1 lid p dl ud S) :
    DynAbs1 lid p dl ud (dynInstStep lid' ud S pl') := by
  unfold dynInstStep
  split_ifs with hHas
  · exact dynAbs1_mergeLayerDyn_ne hne h
  · refine dynAbs1_mergeLayerDyn_ne hne ?_
    obtain ⟨h1, h2, h3⟩ := h
    obtain ⟨c1, c2, c3⟩ := createDynamicLayer_pres_ne S lid' pl'.1 lid p hne
    refine ⟨by rw [c1]; exact h1, by rw [c2]; exact h2, ?_⟩
    intro nr hnr
    obtain ⟨n, hn, ha⟩ := h3 nr hnr
    exact ⟨n, by rw [c3]; exact hn, ha⟩

theorem dynGroup_establish (lid : LayerId) (ud : Bool) :
    ∀ (pls : List (Pfx × DynLayer)) (S : Graph),
      (pls.map Prod.fst).Nodup →
      (∀ pl ∈ pls, (pl.2.nodes.map Prod.fst).Nodup) →
      ∀ pl ∈ pls, DynAbs1 lid pl.1 pl.2 ud (pls.foldl (dynInstStep lid ud) S) := by
  intro pls
  induction pls with
  | nil => intro S _ _ pl hpl; exact absurd hpl (List.not_mem_nil pl)
  | cons q qs ih =>
    intro S hk hns pl hpl
    simp only [List.map_cons, List.nodup_cons] at hk
    rw [List.foldl_cons]
    rcases List.mem_cons.mp hpl with hpl | hpl
    · subst hpl
      refine foldl_pres_mem (DynAbs1 lid pl.1 pl.2 ud) _ qs
        (fun T pl2 hpl2 hT => dynAbs1_dynInstStep_ne lid ud T pl2
          (fun hc => hk.1 (hc.2 ▸ List.mem_map_of_mem Prod.fst hpl2)) hT) _
        (dynInstStep_establish lid ud S pl (hns pl (List.mem_cons_self pl qs)))
    · exact ih (dynInstStep lid ud S q) hk.2
        (fun pl2 hpl2 => hns pl2 (List.mem_cons_of_mem q hpl2)) pl hpl

theorem dynAbs1_dynPhaseStep_ne (ud : Bool) (S : Graph)
    (grp' : LayerId × List (Pfx × DynLayer)) {lid : LayerId} {p : Pfx} {dl : DynLayer}
    (hlidne : lid ≠ grp'.1) (h : DynAbs1 lid p dl ud S) :
    DynAbs1 lid p dl ud (dynPhaseStep ud S grp') := by
  unfold dynPhaseStep
  exact foldl_pres (DynAbs1 lid p dl ud) _
    (fun T pl2 hT => dynAbs1_dynInstStep_ne grp'.1 ud T pl2
      (fun hc => hlidne hc.1) hT) grp'.2 S h

theorem dynPhase_establish (ud : Bool) :
    ∀ (gls : List (LayerId × List (Pfx × DynLayer))) (S : Graph),
      (gls.map Prod.fst).Nodup →
      (∀ grp ∈ gls, (grp.2.map Prod.fst).Nodup) →
      (∀ grp ∈ gls, ∀ pl ∈ grp.2, (pl.2.nodes.map Prod.fst).Nodup) →
      ∀ grp ∈ gls, ∀ pl ∈ grp.2,
        DynAbs1 grp.1 pl.1 pl.2 ud (gls.foldl (dynPhaseStep ud) S) := by
  intro gls
  induction gls with
  | nil => intro S _ _ _ grp hgrp; exact absurd hgrp (List.not_mem_nil grp)
  | cons j js ih =>
    intro S hk hpk hnk grp hgrp pl hpl
    simp only [List.map_cons, List.nodup_cons] at hk
    rw [List.foldl_cons]
    rcases List.mem_cons.mp hgrp with hgrp | hgrp
    · subst hgrp
      refine foldl_pres_mem (DynAbs1 grp.1 pl.1 pl.2 ud) _ js
        (fun T grp2 hgrp2 hT => dynAbs1_dynPhaseStep_ne ud T grp2
          (fun hc => hk.1 (hc ▸ List.mem_map_of_mem Prod.fst hgrp2)) hT) _ ?_
      unfold dynPhaseStep
      exact dynGroup_establish grp.1 ud grp.2 S
        (hpk grp (List.mem_cons_self grp js))
        (fun pl2 hpl2 => hnk grp (List.mem_cons_self grp js) pl2 hpl2) pl hpl
    · exact ih (dynPhaseStep ud S j) hk.2
        (fun grp2 hgrp2 => hpk grp2 (List.mem_cons_of_mem j hgrp2))
        (fun grp2 hgrp2 => hnk grp2 (List.mem_cons_of_mem j hgrp2)) grp hgrp pl hpl

theorem mergeDynPhase_establish (g other : Graph) (ud : Bool)
    (hk : (other.dynLayers.map Prod.fst).Nodup)
    (hpk : ∀ grp ∈ other.dynLayers, (grp.2.map Prod.fst).Nodup)
    (hnk : ∀ grp ∈ other.dynLayers, ∀ pl ∈ grp.2, (pl.2.nodes.map Prod.fst).Nodup) :
    DynAbsorbed other ud (g.mergeDynPhase other ud) :=
  fun grp hgrp pl hpl =>
    dynPhase_establish ud other.dynLayers g hk hpk hnk grp hgrp pl hpl

theorem nodup_mergeLayerDyn (g : Graph) (lid : LayerId) (p : Pfx) (other : DynLayer)
    (u : Bool) (h : (g.nodeLookup.map Prod.fst).Nodup) :
    ((g.mergeLayerDyn lid p other u).nodeLookup.map Prod.fst).Nodup := by
  unfold Graph.mergeLayerDyn
  simp only
  exact foldl_pres (fun S => (S.nodeLookup.map Prod.fst).Nodup) _
    (fun S pr hS => dynMergeStep_nodup lid p u S pr hS) other.nodes g h

theorem nodup_dynInstStep (lid : LayerId) (ud : Bool) (S : Graph) (pl : Pfx × DynLayer)
    (h : (S.nodeLookup.map Prod.fst).Nodup) :
    ((dynInstStep lid ud S pl).nodeLookup.map Prod.fst).Nodup := by
  unfold dynInstStep
  split_ifs with hHas
  · exact nodup_mergeLayerDyn S lid pl.1 pl.2 ud h
  · refine nodup_mergeLayerDyn _ lid pl.1 pl.2 ud ?_
    rw [(createDynamicLayer_fields S lid pl.1).1]
    exact h

theorem nodup_dynPhase (g other : Graph) (ud : Bool)
    (h : (g.nodeLookup.map Prod.fst).Nodup) :
    ((g.mergeDynPhase other ud).nodeLookup.map Prod.fst).Nodup := by
  unfold Graph.mergeDynPhase
  refine foldl_pres (fun S => (S.nodeLookup.map Prod.fst).Nodup) _
    (fun S grp hS => ?_) other.dynLayers g h
  unfold dynPhaseStep
  exact foldl_pres (fun S2 => (S2.nodeLookup.map Prod.fst).Nodup) _
    (fun S2 pl hS2 => nodup_dynInstStep grp.1 ud S2 pl hS2) grp.2 S hS

theorem removeNode_lookup_none (g : Graph) (rid i : NodeId)
    (h : alookup g.nodeLookup i = none) :
    alookup (g.removeNode rid).2.nodeLookup i = none :=
  (remPres_removeNode g rid).2.1 i h

theorem removePhase_gone :
    ∀ (rids : List NodeId) (S : Graph), (S.nodeLookup.map Prod.fst).Nodup →
      ∀ id ∈ rids, alookup (S.mergeRemovePhase rids).nodeLookup id = none := by
  intro rids
  induction rids with
  | nil => intro S _ id hid; exact absurd hid (List.not_mem_nil id)
  | cons r rs ih =>
    intro S hnd id hid
    unfold Graph.mergeRemovePhase
    rw [List.foldl_cons]
    rcases List.mem_cons.mp hid with hid | hid
    · subst hid
      refine foldl_pres (fun T => alookup T.nodeLookup id = none) _
        (fun T r2 hT => removeNode_lookup_none T r2 id hT) rs _ ?_
      exact removeNode_lookup_self S id hnd
    · have hrec := ih ((S.removeNode r).2) (nodup_removeNode S r hnd) id hid
      unfold Graph.mergeRemovePhase at hrec
      exact hrec

theorem nodup_removePhase (g : Graph) (rids : List NodeId)
    (h : (g.nodeLookup.map Prod.fst).Nodup) :
    ((g.mergeRemovePhase rids).nodeLookup.map Prod.fst).Nodup := by
  unfold Graph.mergeRemovePhase
  exact foldl_pres (fun S => (S.nodeLookup.map Prod.fst).Nodup) _
    (fun S r hS => nodup_removeNode S r hS) rids g h

theorem dynAbs1_remPres {b a : Graph} {rid : NodeId} (h : RemPres rid b a)
    {lid : LayerId} {p : Pfx} {dl : DynLayer} {ud : Bool}
    (hni : ∀ nr ∈ dl.nodes, nr.1 ≠ rid) (hd : DynAbs1 lid p dl ud b) :
    DynAbs1 lid p dl ud a := by
  obtain ⟨r1, r2, r3, r4, r5, r6, r7, r8, r9, r10, r11⟩ := h
  obtain ⟨h1, h2, h3⟩ := hd
  refine ⟨by rw [r6]; exact h1, by rw [r7]; exact h2, ?_⟩
  intro nr hnr
  obtain ⟨n, hn, ha⟩ := h3 nr hnr
  obtain ⟨n2, hn2, ha2⟩ := getNodeRec_some_attrs_at (r10 _ nr.1 (hni nr hnr))
    (r11 _ nr.1 (hni nr hnr)) hn
  exact ⟨n2, hn2, fun hud => by rw [ha2]; exact ha hud⟩

theorem statAbs1_remPres {b a : Graph} {rid : NodeId} (h : RemPres rid b a)
    {lid : LayerId} {L : Layer} {flag : Bool}
    (hni : ∀ nr ∈ L.nodes, nr.1 ≠ rid) (hs : StatAbs1 lid L flag b) :
    StatAbs1 lid L flag a := by
  obtain ⟨r1, r2, r3, r4, r5, r6, r7, r8, r9, r10, r11⟩ := h
  intro hguard
  rw [r9 lid] at hguard
  obtain ⟨c1, c2⟩ := hs hguard
  constructor
  · intro habs nr hnr
    rw [r8 lid] at habs
    rw [r1 nr.1 (hni nr hnr)]
    exact c1 habs nr hnr
  · intro hpres nr hnr
    rw [r8 lid] at hpres
    obtain ⟨n, hn, ha⟩ := c2 hpres nr hnr
    obtain ⟨n2, hn2, ha2⟩ := getNodeRec_some_attrs_at (r10 _ nr.1 (hni nr hnr))
      (r11 _ nr.1 (hni nr hnr)) hn
    exact ⟨n2, hn2, fun hf => by rw [ha2]; exact ha hf⟩

theorem dynAbs1_removePhase {g : Graph} {rids : List NodeId} {lid : LayerId} {p : Pfx}
    {dl : DynLayer} {ud : Bool}
    (hni : ∀ r ∈ rids, ∀ nr ∈ dl.nodes, nr.1 ≠ r) (h : DynAbs1 lid p dl ud g) :
    DynAbs1 lid p dl ud (g.mergeRemovePhase rids) := by
  unfold Graph.mergeRemovePhase
  exact foldl_pres_mem (DynAbs1 lid p dl ud) _ rids
    (fun T r hr hT =>
      dynAbs1_remPres (remPres_removeNode T r) (fun nr hnr => hni r hr nr hnr) hT) g h

theorem statAbs1_removePhase {g : Graph} {rids : List NodeId} {lid : LayerId} {L : Layer}
    {flag : Bool} (hni : ∀ r ∈ rids, ∀ nr ∈ L.nodes, nr.1 ≠ r)
    (h : StatAbs1 lid L flag g) : StatAbs1 lid L flag (g.mergeRemovePhase rids) := by
  unfold Graph.mergeRemovePhase
  exact foldl_pres_mem (StatAbs1 lid L flag) _ rids
    (fun T r hr hT =>
      statAbs1_remPres (remPres_removeNode T r) (fun nr hnr => hni r hr nr hnr) hT) g h

theorem dynAbsorbed_obsPres {b a : Graph} (h : ObsPres b a) {other : Graph} {ud : Bool}
    (hd : DynAbsorbed other ud b) : DynAbsorbed other ud a :=
  fun pr hpr pl hpl => dynAbs1_obsPres h (hd pr hpr pl hpl)

theorem statAbsorbed_obsPres {b a : Graph} (h : ObsPres b a) {other : Graph}
    {um : List (LayerId × Bool)} (hs : StatAbsorbed other um b) : StatAbsorbed other um a :=
  fun il hil => statAbs1_obsPres h (hs il hil)

theorem removedGone_obsPres {b a : Graph} (h : ObsPres b a) {rem : List NodeId}
    (hr : RemovedGone rem b) : RemovedGone rem a :=
  fun id hid => by rw [h.1]; exact hr id hid

theorem mem_allNodeIds_stat {g : Graph} {il : LayerId × Layer} {nr : Nat × NodeRec}
    (hil : il ∈ g.layers) (hnr : nr ∈ il.2.nodes) : nr.1 ∈ g.allNodeIds := by
  unfold Graph.allNodeIds
  rw [List.mem_append]
  exact Or.inl (List.mem_flatMap.mpr ⟨il, hil, List.mem_map_of_mem Prod.fst hnr⟩)

theorem mem_allNodeIds_dyn {g : Graph} {grp : LayerId × List (Pfx × DynLayer)}
    {pl : Pfx × DynLayer} {nr : Nat × NodeRec}
    (hgrp : grp ∈ g.dynLayers) (hpl : pl ∈ grp.2) (hnr : nr ∈ pl.2.nodes) :
    nr.1 ∈ g.allNodeIds := by
  unfold Graph.allNodeIds
  rw [List.mem_append]
  exact Or.inr (List.mem_flatMap.mpr ⟨grp, hgrp,
    List.mem_flatMap.mpr ⟨pl, hpl, List.mem_map_of_mem Prod.fst hnr⟩⟩)

theorem mergeLayerDyn_id {S : Graph} {lid : LayerId} {p : Pfx} {other : DynLayer}
    {u : Bool} (h : DynAbs1 lid p other u S) : S.mergeLayerDyn lid p other u = S := by
  obtain ⟨h1, h2, h3⟩ := h
  unfold Graph.mergeLayerDyn
  simp only
  have hfold : other.nodes.foldl (dynMergeStep lid p u) S = S := by
    refine foldl_id _ other.nodes S (fun pr hpr => ?_)
    obtain ⟨n, hn, ha⟩ := h3 pr hpr
    unfold dynMergeStep
    rw [hn]
    simp only
    split_ifs with hu
    · exact modifyNode_id hn (by rw [← ha hu])
    · rfl
  rw [hfold]
  obtain ⟨grp, dl, hg, hgp⟩ := hasDynLayer_elim h1
  have hnext : other.next ≤ dl.next := by
    rw [dynNext_eq hg hgp] at h2
    exact h2
  have hf1 : ({ dl with next := max dl.next other.next } : DynLayer) = dl := by
    rw [Nat.max_eq_left hnext]
  have h2' : aupd grp p (fun dl2 => { dl2 with next := max dl2.next other.next }) = grp :=
    aupd_id hgp hf1
  have h3' : aupd S.dynLayers lid
      (fun grp2 => aupd grp2 p (fun dl2 => { dl2 with next := max dl2.next other.next })) =
      S.dynLayers := aupd_id hg h2'
  rw [h3']

theorem dynInstStep_id {lid : LayerId} {ud : Bool} {S : Graph} {pl : Pfx × DynLayer}
    (h : DynAbs1 lid pl.1 pl.2 ud S) : dynInstStep lid ud S pl = S := by
  unfold dynInstStep
  rw [if_pos h.1]
  exact mergeLayerDyn_id h

theorem mergeDynPhase_id {S other : Graph} {ud : Bool} (h : DynAbsorbed other ud S) :
    S.mergeDynPhase other ud = S := by
  unfold Graph.mergeDynPhase
  refine foldl_id _ other.dynLayers S (fun grp hgrp => ?_)
  unfold dynPhaseStep
  refine foldl_id _ grp.2 S (fun pl hpl => ?_)
  exact dynInstStep_id (h grp hgrp pl hpl)

theorem mergeLayerStatic_id_present {S : Graph} {lid : LayerId} {L : Layer} {flag : Bool}
    (h2 : ∀ nr ∈ L.nodes, ∃ n, S.getNodeRec ⟨lid, 0, false⟩ nr.1 = some n ∧
      (flag = true → n.attrs = nr.2.attrs)) :
    S.mergeLayerStatic lid L flag = S := by
  unfold Graph.mergeLayerStatic
  refine foldl_id _ L.nodes S (fun pr hpr => ?_)
  obtain ⟨n, hn, ha⟩ := h2 pr hpr
  have hb : (alookup S.layers lid).bind (fun l => alookup l.nodes pr.1) = some n := by
    rw [@getNodeRec_statB ⟨lid, 0, false⟩ S pr.1 rfl] at hn
    exact hn
  unfold statMergeStep
  rw [hb]
  simp only
  split_ifs with hu
  · exact modifyNode_id hn (by rw [← ha hu])
  · rfl

theorem mergeLayerStatic_id_absent {S : Graph} {lid : LayerId} {L : Layer} {flag : Bool}
    (hp : alookup S.layers lid = none)
    (h1 : ∀ nr ∈ L.nodes, alookup S.nodeLookup nr.1 = some ⟨lid, 0, false⟩) :
    S.mergeLayerStatic lid L flag = S := by
  unfold Graph.mergeLayerStatic
  refine foldl_id _ L.nodes S (fun pr hpr => ?_)
  unfold statMergeStep
  rw [hp]
  simp only [Option.none_bind]
  have hl : aupd S.layers lid
      (fun l => { l with nodes := l.nodes ++ [(pr.1, ⟨pr.2.attrs, none, [], []⟩)] }) =
      S.layers := aupd_absent _ hp
  have hk : aset S.nodeLookup pr.1 ⟨lid, 0, false⟩ = S.nodeLookup :=
    aset_present_same (h1 pr hpr)
  show ({ S with
    layers := (aupd S.layers lid
      (fun l => { l with nodes := l.nodes ++ [(pr.1, ⟨pr.2.attrs, none, [], []⟩)] })),
    nodeLookup := aset S.nodeLookup pr.1 ⟨lid, 0, false⟩ } : Graph) = S
  rw [hl, hk]

theorem statPhaseStep_id {um : List (LayerId × Bool)} {S : Graph} {il : LayerId × Layer}
    (h : StatAbs1 il.1 il.2 ((alookup um il.1).getD true) S) :
    statPhaseStep um S il = S := by
  unfold statPhaseStep
  split_ifs with hL
  · obtain ⟨c1, c2⟩ := h hL
    by_cases hp : (alookup S.layers il.1).isSome = true
    · exact mergeLayerStatic_id_present (c2 hp)
    · have hpn : alookup S.layers il.1 = none := by
        cases hx : alookup S.layers il.1 with
        | none => rfl
        | some w => rw [hx] at hp; simp at hp
      exact mergeLayerStatic_id_absent hpn (c1 (by rw [hpn]; rfl))
  · rfl

theorem mergeStatPhase_id {S other : Graph} {um : List (LayerId × Bool)}
    (h : StatAbsorbed other um S) : S.mergeStatPhase other um = S := by
  unfold Graph.mergeStatPhase
  exact foldl_id _ other.layers S (fun il hil => statPhaseStep_id (h il hil))

theorem mergeRemovePhase_id {S : Graph} {rids : List NodeId}
    (h : ∀ id ∈ rids, alookup S.nodeLookup id = none) : S.mergeRemovePhase rids = S := by
  unfold Graph.mergeRemovePhase
  refine foldl_id _ rids S (fun id hid => ?_)
  rw [removeNode_absent (h id hid)]

theorem hasLayerB_statPhaseStep (um : List (LayerId × Bool)) (S : Graph)
    (il : LayerId × Layer) (lid : LayerId) :
    (statPhaseStep um S il).hasLayerB lid = S.hasLayerB lid := by
  unfold statPhaseStep
  split_ifs with hL
  · exact mergeLayerStatic_hasLayerB S il.1 il.2 _ lid
  · rfl

theorem hasLayerB_statPhase (g other : Graph) (um : List (LayerId × Bool))
    (lid : LayerId) :
    (g.mergeStatPhase other um).hasLayerB lid = g.hasLayerB lid := by
  unfold Graph.mergeStatPhase
  exact foldl_pres (fun S => S.hasLayerB lid = g.hasLayerB lid) _
    (fun S il hS => (hasLayerB_statPhaseStep um S il lid).trans hS) other.layers g rfl

theorem hasLayerB_removePhase (rids : List NodeId) (g : Graph) (lid : LayerId) :
    (g.mergeRemovePhase rids).hasLayerB lid = g.hasLayerB lid := by
  unfold Graph.mergeRemovePhase
  refine foldl_pres (fun S => S.hasLayerB lid = g.hasLayerB lid) _
    (fun S id hS => ?_) rids g rfl
  obtain ⟨_, _, _, _, _, _, _, _, h9, _, _⟩ := remPres_removeNode S id
  exact (h9 lid).trans hS

theorem statPhaseR_snd_congr (um : List (LayerId × Bool)) :
    ∀ (ls : List (LayerId × Layer)) (a b : Graph) (r : List NodeId),
    (∀ lid, a.hasLayerB lid = b.hasLayerB lid) →
    (List.foldl (statPhaseStepR um) (a, r) ls).2 =
      (List.foldl (statPhaseStepR um) (b, r) ls).2 := by
  intro ls
  induction ls with
  | nil => intro a b r _; rfl
  | cons il tl ih =>
    intro a b r h
    rw [List.foldl_cons, List.foldl_cons, statPhaseStepR_eq, statPhaseStepR_eq, h il.1]
    refine ih _ _ _ (fun lid => ?_)
    rw [hasLayerB_statPhaseStep, hasLayerB_statPhaseStep, h lid]

theorem hasLayerB_mergeGraph (g other : Graph) (aim : Bool)
    (um : List (LayerId × Bool)) (ud : Bool) (lid : LayerId) :
    (g.mergeGraph other aim false um ud).hasLayerB lid =
      (g.mergeDynPhase other ud).hasLayerB lid := by
  have hOP : ObsPres
      (((g.mergeDynPhase other ud).mergeStatPhaseR other um).1.mergeRemovePhase
        ((g.mergeDynPhase other ud).mergeStatPhaseR other um).2)
      (g.mergeGraph other aim false um ud) := by
    unfold Graph.mergeGraph
    simp only [Bool.false_eq_true, if_false]
    exact obsPres_trans (obsPres_trans
      (obsPres_interPhase _ other.interlayerEdges)
      (obsPres_interPhase _ other.dynInterlayerEdges))
      (obsPres_meshPhase _ other.meshEdges aim)
  obtain ⟨_, _, _, _, _, _, _, h8, _⟩ := hOP
  rw [h8 lid, hasLayerB_removePhase, mergeStatPhaseR_fst, hasLayerB_statPhase]

theorem mergeGraph_snd_removed (g other : Graph) (aim : Bool)
    (um : List (LayerId × Bool)) (ud : Bool) :
    ((g.mergeGraph other aim false um ud).mergeStatPhaseR other um).2 =
      ((g.mergeDynPhase other ud).mergeStatPhaseR other um).2 := by
  unfold Graph.mergeStatPhaseR
  exact statPhaseR_snd_congr um other.layers _ _ []
    (fun lid => hasLayerB_mergeGraph g other aim um ud lid)

theorem mergeGraph_establishes (g other : Graph) (aim : Bool)
    (um : List (LayerId × Bool)) (ud : Bool)
    (hwf : other.wfSnapshot) (hnd : (g.nodeLookup.map Prod.fst).Nodup) :
    DynAbsorbed other ud (g.mergeGraph other aim false um ud) ∧
    StatAbsorbed other um (g.mergeGraph other aim false um ud) ∧
    RemovedGone ((g.mergeDynPhase other ud).mergeStatPhaseR other um).2
      (g.mergeGraph other aim false um ud) ∧
    (∀ e ∈ other.interlayerEdges,
      EdgeSettled e.source e.target (g.mergeGraph other aim false um ud)) ∧
    (∀ e ∈ other.dynInterlayerEdges,
      EdgeSettled e.source e.target (g.mergeGraph other aim false um ud)) ∧
    (∀ me ∈ other.meshEdges,
      MeshSettled me.2.1 me.2.2 aim (g.mergeGraph other aim false um ud)) := by
  obtain ⟨hAll, hRem, hLK, hDK, hPK⟩ := hwf
  have hsplit := List.nodup_append.mp
    (show ((other.layers.flatMap (fun il => il.2.nodes.map Prod.fst)) ++
      (other.dynLayers.flatMap (fun grp =>
        grp.2.flatMap (fun pl => pl.2.nodes.map Prod.fst)))).Nodup from hAll)
  have hStatFlat := hsplit.1
  have hDynFlat := hsplit.2.1
  have hDynNN : ∀ grp ∈ other.dynLayers, ∀ pl ∈ grp.2,
      (pl.2.nodes.map Prod.fst).Nodup :=
    fun grp hgrp pl hpl => nodup_of_flatMap (nodup_of_flatMap hDynFlat grp hgrp) pl hpl
  have hmg : g.mergeGraph other aim false um ud =
      (((((g.mergeDynPhase other ud).mergeStatPhase other um).mergeRemovePhase
        ((g.mergeDynPhase other ud).mergeStatPhaseR other um).2).mergeInterPhase
        other.interlayerEdges).mergeInterPhase
        other.dynInterlayerEdges).mergeMeshPhase other.meshEdges aim := by
    unfold Graph.mergeGraph
    simp only [Bool.false_eq_true, if_false, mergeStatPhaseR_fst]
  rw [hmg]
  have hRemNe : ∀ r ∈ ((g.mergeDynPhase other ud).mergeStatPhaseR other um).2,
      ∀ x, x ∈ other.allNodeIds → x ≠ r :=
    fun r hr x hx he =>
      hRem r (statPhaseR_sub_removedIds (g.mergeDynPhase other ud) other um r hr)
        (he ▸ hx)
  have hD1 : DynAbsorbed other ud (g.mergeDynPhase other ud) :=
    mergeDynPhase_establish g other ud hDK hPK hDynNN
  have hD2 : DynAbsorbed other ud ((g.mergeDynPhase other ud).mergeStatPhase other um) :=
    fun pr hpr pl hpl => dynAbs1_statPhase _ other um (hD1 pr hpr pl hpl)
  have hD3 : DynAbsorbed other ud
      (((g.mergeDynPhase other ud).mergeStatPhase other um).mergeRemovePhase
        ((g.mergeDynPhase other ud).mergeStatPhaseR other um).2) :=
    fun pr hpr pl hpl => dynAbs1_removePhase
      (fun r hr nr hnr => hRemNe r hr nr.1 (mem_allNodeIds_dyn hpr hpl hnr))
      (hD2 pr hpr pl hpl)
  have hOP3 : ObsPres
      (((g.mergeDynPhase other ud).mergeStatPhase other um).mergeRemovePhase
        ((g.mergeDynPhase other ud).mergeStatPhaseR other um).2)
      ((((((g.mergeDynPhase other ud).mergeStatPhase other um).mergeRemovePhase
        ((g.mergeDynPhase other ud).mergeStatPhaseR other um).2).mergeInterPhase
        other.interlayerEdges).mergeInterPhase
        other.dynInterlayerEdges).mergeMeshPhase other.meshEdges aim) :=
    obsPres_trans (obsPres_trans (obsPres_interPhase _ other.interlayerEdges)
      (obsPres_interPhase _ other.dynInterlayerEdges))
      (obsPres_meshPhase _ other.meshEdges aim)
  have hS2 : StatAbsorbed other um ((g.mergeDynPhase other ud).mergeStatPhase other um) :=
    mergeStatPhase_establish _ other um hLK hStatFlat
  have hS3 : StatAbsorbed other um
      (((g.mergeDynPhase other ud).mergeStatPhase other um).mergeRemovePhase
        ((g.mergeDynPhase other ud).mergeStatPhaseR other um).2) :=
    fun il hil => statAbs1_removePhase
      (fun r hr nr hnr => hRemNe r hr nr.1 (mem_allNodeIds_stat hil hnr)) (hS2 il hil)
  have hnd2 : (((g.mergeDynPhase other ud).mergeStatPhase other
      um).nodeLookup.map Prod.fst).Nodup :=
    nodup_statPhase _ other um (nodup_dynPhase g other ud hnd)
  have hR3 : RemovedGone ((g.mergeDynPhase other ud).mergeStatPhaseR other um).2
      (((g.mergeDynPhase other ud).mergeStatPhase other um).mergeRemovePhase
        ((g.mergeDynPhase other ud).mergeStatPhaseR other um).2) :=
    fun id hid => removePhase_gone _ _ hnd2 id hid
  have hOP4 : ObsPres
      ((((g.mergeDynPhase other ud).mergeStatPhase other um).mergeRemovePhase
        ((g.mergeDynPhase other ud).mergeStatPhaseR other um).2).mergeInterPhase
        other.interlayerEdges)
      ((((((g.mergeDynPhase other ud).mergeStatPhase other um).mergeRemovePhase
        ((g.mergeDynPhase other ud).mergeStatPhaseR other um).2).mergeInterPhase
        other.interlayerEdges).mergeInterPhase
        other.dynInterlayerEdges).mergeMeshPhase other.meshEdges aim) :=
    obsPres_trans (obsPres_interPhase _ other.dynInterlayerEdges)
      (obsPres_meshPhase _ other.meshEdges aim)
  refine ⟨dynAbsorbed_obsPres hOP3 hD3, statAbsorbed_obsPres hOP3 hS3,
    removedGone_obsPres hOP3 hR3, ?_, ?_, ?_⟩
  · intro e he
    exact edgeSettled_obsPres hOP4
      (mergeInterPhase_establish _ other.interlayerEdges e he)
  · intro e he
    exact edgeSettled_obsPres (obsPres_meshPhase _ other.meshEdges aim)
      (mergeInterPhase_establish _ other.dynInterlayerEdges e he)
  · intro me hme
    exact mergeMeshPhase_establish _ other.meshEdges aim me hme

theorem mergeGraph_id_of_merged {S other : Graph} {aim : Bool}
    {um : List (LayerId × Bool)} {ud : Bool}
    (hD : DynAbsorbed other ud S) (hS : StatAbsorbed other um S)
    (hR : RemovedGone (S.mergeStatPhaseR other um).2 S)
    (hE1 : ∀ e ∈ other.interlayerEdges, EdgeSettled e.source e.target S)
    (hE2 : ∀ e ∈ other.dynInterlayerEdges, EdgeSettled e.source e.target S)
    (hM : ∀ me ∈ other.meshEdges, MeshSettled me.2.1 me.2.2 aim S) :
    S.mergeGraph other aim false um ud = S := by
  unfold Graph.mergeGraph
  simp only [Bool.false_eq_true, if_false, mergeStatPhaseR_fst]
  rw [mergeDynPhase_id hD, mergeStatPhase_id hS, mergeRemovePhase_id hR,
    mergeInterPhase_id hE1, mergeInterPhase_id hE2, mergeMeshPhase_id hM]

/-! ### Claim C5 -/

/-- Claim C5: merging the same well-formed other graph into a target twice
with `mergeGraph` (without the clear-mesh-edges option) produces literally
the same state as merging it once — the second merge adds no node, no
interlayer edge and no mesh edge — and re-inserting each interlayer edge of
the other graph into the once-merged state is a no-op `insertEdge` returning
false, which the merge loop ignores rather than aborting. -/
theorem claim_C5_merge_idempotent (g other : Graph) (aim : Bool)
    (um : List (LayerId × Bool)) (ud : Bool)
    (hwf : other.wfSnapshot) (hnd : (g.nodeLookup.map Prod.fst).Nodup) :
    (g.mergeGraph other aim false um ud).mergeGraph other aim false um ud =
      g.mergeGraph other aim false um ud ∧
    ((other.interlayerEdges ++ other.dynInterlayerEdges).all
      (fun e => !((g.mergeGraph other aim false um ud).insertEdge
        e.source e.target e.info).1)) = true := by
  obtain ⟨hD, hS, hR, hE1, hE2, hM⟩ :=
    mergeGraph_establishes g other aim um ud hwf hnd
  have hR2 : RemovedGone
      ((g.mergeGraph other aim false um ud).mergeStatPhaseR other um).2
      (g.mergeGraph other aim false um ud) := by
    intro id hid
    refine hR id ?_
    rw [← mergeGraph_snd_removed g other aim um ud]
    exact hid
  constructor
  · exact mergeGraph_id_of_merged hD hS hR2 hE1 hE2 hM
  · rw [List.all_eq_true]
    intro e he
    rw [List.mem_append] at he
    rcases he with he | he
    · rw [insertEdge_settled e.info (hE1 e he)]
      rfl
    · rw [insertEdge_settled e.info (hE2 e he)]
      rfl

/-- Witness for claim C5 at a concrete input: a populated target and an
adversarial snapshot (shared and fresh nodes, a removed id, a missing layer,
dynamic instances, conflicting and duplicate interlayer edges, mesh
edges). -/
theorem claim_C5_witness :
    (demoMergeG.mergeGraph demoMergeO true false [(2, false)] true).mergeGraph
        demoMergeO true false [(2, false)] true =
      demoMergeG.mergeGraph demoMergeO true false [(2, false)] true ∧
    ((demoMergeO.interlayerEdges ++ demoMergeO.dynInterlayerEdges).all
      (fun e => !((demoMergeG.mergeGraph demoMergeO true false [(2, false)] true).insertEdge
        e.source e.target e.info).1)) = true :=
  claim_C5_merge_idempotent demoMergeG demoMergeO true [(2, false)] true
    (by unfold Graph.wfSnapshot; refine ⟨by decide, by decide, by decide, by decide, by decide⟩)
    (by decide)

end KimeraDSG
